import Mathlib

/-!
# GPU-Life: a verification development over `src/main.c`

The program keeps a Game-of-Life grid in two OpenGL textures of 32-bit words
(one word = a column of 32 vertically stacked cells), advances it with a
fragment shader (`updateShaderSource`) and edits single cells from the mouse
callbacks.  This file embeds the parts of `main.c` that decide the
specification's claims and proves them.

Conventions of the embedding

* `uint` / `uint32_t` values are natural numbers below `2 ^ 32`; every
  operation that can leave that range (`<<`, `~`) is reduced explicitly.
* `int` values are integers; where the source can leave the `int` range the
  result is wrapped with `toInt32`.
* An OpenGL texture is its size and its row-major list of texels; the GL
  context is a map from texture names to textures and a map from framebuffer
  names to the texture attached to them.
* `float` arithmetic is kept abstract (`FloatOps`): no claim settled here
  depends on a rounded value.
-/

namespace GPULife

/-! ## Fixed-width arithmetic -/

/-- Unsigned 32-bit left shift `a << n` of GLSL and C. -/
def shl32 (a n : Nat) : Nat := (a <<< n) % 2 ^ 32

/-- Unsigned 32-bit complement `~a`. -/
def not32 (a : Nat) : Nat := (a % 2 ^ 32) ^^^ (2 ^ 32 - 1)

/-- Two's-complement wrap of an integer into the range of a 32-bit `int`. -/
def toInt32 (v : Int) : Int := (v + 2 ^ 31) % 2 ^ 32 - 2 ^ 31

/-- Conversion of an `int` to `uint32_t` (reduction modulo `2 ^ 32`). -/
def toUInt32 (v : Int) : Nat := (v % 2 ^ 32).toNat

/-- Bitwise `a & b` on `int`: the AND of the two's-complement bit patterns of
the operands, read back as an `int`. -/
def and32 (a b : Int) : Int := toInt32 ((toUInt32 a &&& toUInt32 b : Nat) : Int)

/-! ## The update shader (`updateShaderSource`, lines 125-157) -/

/-- Body of `main` of the update shader after the nine texture fetches:
`nXY` is the word fetched with `textureOffset(cells, uv, ivec2(X-1, Y-1))`. -/
def updateShaderMain (n00 n10 n20 n01 n11 n21 n02 n12 n22 : Nat) : Nat :=
  let sumLo0 := n00 ^^^ n10 ^^^ n20
  let sumLo1 := n01 ^^^ n11 ^^^ n21
  let sumLo2 := n02 ^^^ n12 ^^^ n22
  let sumHi0 := (n00 &&& n10) ||| (n10 &&& n20) ||| (n20 &&& n00)
  let sumHi1 := (n01 &&& n11) ||| (n11 &&& n21) ||| (n21 &&& n01)
  let sumHi2 := (n02 &&& n12) ||| (n12 &&& n22) ||| (n22 &&& n02)
  let x0 := (sumLo1 >>> 1) ||| shl32 sumLo2 31
  let y0 := (sumHi1 >>> 1) ||| shl32 sumHi2 31
  let x1 := sumLo1
  let y1 := sumHi1
  let x2 := shl32 sumLo1 1 ||| (sumLo0 >>> 31)
  let y2 := shl32 sumHi1 1 ||| (sumHi0 >>> 31)
  let xc := (x0 &&& x1) ||| (x1 &&& x2) ||| (x2 &&& x0)
  let c := x0 ^^^ x1 ^^^ x2
  let b := y0 ^^^ y1 ^^^ y2 ^^^ xc
  let a := ((y0 &&& (y1 ||| xc)) ||| (y1 &&& (y2 ||| xc)) ||| (y2 &&& (y0 ||| xc)))
             &&& not32 (y0 &&& y1 &&& y2 &&& xc)
  (not32 a &&& b &&& c) ||| (n11 &&& a &&& not32 b &&& not32 c)

/-! ## OpenGL objects and the program state -/

/-- A two-dimensional `GL_R32UI` texture: its size in texels and its texels
in row-major order (texel `(x, y)` at index `y * width + x`). -/
structure Texture where
  width : Nat
  height : Nat
  texels : List Nat

/-- Texel `(x, y)` of a texture, as read by `glReadPixels` through a
framebuffer the texture is attached to; outside the texture the value read is
unspecified and 0 here. -/
def Texture.texel (t : Texture) (x y : Nat) : Nat :=
  if x < t.width ∧ y < t.height then t.texels.getD (y * t.width + x) 0 else 0

/-- Update of the single texel `(x, y)`, `glTexSubImage2D(.., x, y, 1, 1, ..)`:
a region outside the texture raises `GL_INVALID_VALUE` and changes nothing. -/
def Texture.setTexel (t : Texture) (x y : Nat) (word : Nat) : Texture :=
  if x < t.width ∧ y < t.height then
    { t with texels := t.texels.set (y * t.width + x) word }
  else t

/-- Texel fetch with wrap mode `GL_REPEAT` in both axes (`createTexture`,
lines 261-262): integer texel coordinates are reduced modulo the size. -/
def Texture.texelRepeat (t : Texture) (x y : Int) : Nat :=
  t.texels.getD ((y % (t.height : Int)).toNat * t.width + (x % (t.width : Int)).toNat) 0

/-- Call `glTexImage2D(GL_TEXTURE_2D, 0, GL_R32UI, width, height, 0, .., pixels)`:
the texture gets a new size and new contents, the first `width * height`
words of `pixels`; with `pixels = NULL` the contents are unspecified by
OpenGL and are zero here (the program never reads them before writing). -/
def glTexImage2D (width height : Int) (pixels : Option (List Nat)) : Texture :=
  { width := width.toNat
    height := height.toNat
    texels :=
      match pixels with
      | none => List.replicate (width.toNat * height.toNat) 0
      | some data => (List.range (width.toNat * height.toNat)).map (fun k => data.getD k 0) }

/-- The operations on `float` the program uses; they stay abstract. -/
structure FloatOps (F : Type) where
  zero : F
  half : F
  one : F
  ofInt : Int → F
  mul : F → F → F
  div : F → F → F
  sub : F → F → F
  lt : F → F → Bool

/-- The global variables of `main.c` that the embedded functions read or
write, and the OpenGL objects they name. -/
structure State (F : Type) where
  windowWidth : Int
  windowHeight : Int
  numCellsX : Int
  numCellsY : Int
  scale : F
  scaleX : F
  scaleY : F
  offsetX : F
  offsetY : F
  generation : Int
  patternName : List Char
  maxTextureSize : Int
  cellsRead : Nat
  cellsWrite : Nat
  cellsReadFramebuffer : Nat
  cellsWriteFramebuffer : Nat
  /-- OpenGL texture objects by name. -/
  textures : Nat → Texture
  /-- Texture attached as `GL_COLOR_ATTACHMENT0` to each framebuffer name. -/
  attachment : Nat → Nat
  /-- Number of names handed out so far by `glGenTextures`. -/
  texturesGenerated : Nat
  /-- Number of names handed out so far by `glGenFramebuffers`. -/
  framebuffersGenerated : Nat

variable {F : Type}

/-! ## Helpers of `main.c` -/

/-- Function `createTexture(NULL, width, height, GL_RED_INTEGER, GL_R32UI)`
(lines 244-268).  `glGenTextures` returns a name not in use, here the next
positive number, so the abort branch for name 0 is never taken. -/
def createTexture (s : State F) (width height : Int) : Nat × State F :=
  let clamp : Bool := decide (width > s.maxTextureSize ∨ height > s.maxTextureSize)
  let width :=
    if clamp then (if width > s.maxTextureSize then s.maxTextureSize else width) else width
  let height :=
    if clamp then (if height > s.maxTextureSize then s.maxTextureSize else height) else height
  let texture := s.texturesGenerated + 1
  (texture, { s with
    texturesGenerated := s.texturesGenerated + 1
    textures := Function.update s.textures texture (glTexImage2D width height none) })

/-- Function `createFramebuffer(texture)` (lines 270-284). -/
def createFramebuffer (s : State F) (texture : Nat) : Nat × State F :=
  let framebuffer := s.framebuffersGenerated + 1
  (framebuffer, { s with
    framebuffersGenerated := s.framebuffersGenerated + 1
    attachment := Function.update s.attachment framebuffer texture })

/-- Function `swap(&a, &b)` (lines 286-290) on a pair of names. -/
def swap (ab : Nat × Nat) : Nat × Nat :=
  let temp := ab.1
  (ab.2, temp)

/-- Function `ceilMultipleOf32` (lines 292-296); `%` of C truncates, `x + 32`
is wrapped to the `int` range, `~31` is the `int` -32. -/
def ceilMultipleOf32 (x : Int) : Int :=
  if Int.tmod x 32 = 0 then x
  else and32 (toInt32 (x + 32)) (Int.not 31)

/-- One pass of the loop of `findFilePartOfPath` over character `c` at index `i`. -/
def findFilePartStep (se : Nat × Nat) (ic : Nat × Char) : Nat × Nat :=
  if ic.2 = '/' ∨ ic.2 = Char.ofNat 92 ∨ ic.2 = ':' then (ic.1 + 1, se.2)
  else if ic.2 = '.' then (se.1, ic.1)
  else se

/-- Function `findFilePartOfPath` (lines 298-312): `path` holds the characters
before the terminating NUL; the result is `(start, end)`. -/
def findFilePartOfPath (path : List Char) : Nat × Nat :=
  let se := path.enum.foldl findFilePartStep (0, 0)
  (se.1, if se.2 = 0 then path.length else se.2)

/-- Function `setPatternName` (lines 314-323); `len` and `len + 1` are
`size_t` values.  A `realloc` of more than `PTRDIFF_MAX = 2^63 - 1` bytes
fails, which leaves `patternName` NULL, the empty name here as at start-up;
the failure of a smaller request is not modelled. -/
def setPatternName (s : State F) (name : List Char) : State F :=
  let se := findFilePartOfPath name
  let len := (se.2 + 2 ^ 64 - se.1) % 2 ^ 64
  if (len + 1) % 2 ^ 64 ≤ 2 ^ 63 - 1 then
    { s with patternName := (name.drop se.1).take len }
  else { s with patternName := [] }

/-! ## The update step -/

/-- Fetch `textureOffset(cells, uv, ivec2(dx, dy)).x` for the fragment at pixel
`(x, y)`: the fragment's `uv` is the centre of texel `(x, y)` of `cells`
because the viewport of `updateCells` has the size of the texture, the offset
is added in texels, and the wrap mode of the texture is `GL_REPEAT`. -/
def textureOffset (cells : Texture) (x y : Nat) (dx dy : Int) : Nat :=
  cells.texelRepeat ((x : Int) + dx) ((y : Int) + dy)

/-- The nine fetches of the update shader for the fragment at pixel `(x, y)`,
followed by its arithmetic (lines 131-156). -/
def updateShader (cells : Texture) (x y : Nat) : Nat :=
  let n00 := textureOffset cells x y (-1) (-1)
  let n10 := textureOffset cells x y 0 (-1)
  let n20 := textureOffset cells x y 1 (-1)
  let n01 := textureOffset cells x y (-1) 0
  let n11 := textureOffset cells x y 0 0
  let n21 := textureOffset cells x y 1 0
  let n02 := textureOffset cells x y (-1) 1
  let n12 := textureOffset cells x y 0 1
  let n22 := textureOffset cells x y 1 1
  updateShaderMain n00 n10 n20 n01 n11 n21 n02 n12 n22

/-- Call `glDrawArrays` of the full-screen quad with the update program: every
pixel of the draw framebuffer's texture `target` that lies in the viewport
`viewportWidth x viewportHeight` receives the shader's output, every other
pixel keeps its word. -/
def drawUpdate (cells target : Texture) (viewportWidth viewportHeight : Nat) : Texture :=
  { target with
    texels := (List.range (target.width * target.height)).map (fun k =>
      let x := k % target.width
      let y := k / target.width
      if x < viewportWidth ∧ y < viewportHeight then updateShader cells x y
      else target.texels.getD k 0) }

/-- Function `updateCells` (lines 335-345); `++generation` is wrapped to the
`int` range. -/
def updateCells (s : State F) : State F :=
  let target := s.attachment s.cellsWriteFramebuffer
  let drawn := drawUpdate (s.textures s.cellsRead) (s.textures target)
    s.numCellsX.toNat (Int.tdiv s.numCellsY 32).toNat
  let cells := swap (s.cellsRead, s.cellsWrite)
  let framebuffers := swap (s.cellsReadFramebuffer, s.cellsWriteFramebuffer)
  { s with
    textures := Function.update s.textures target drawn
    cellsRead := cells.1
    cellsWrite := cells.2
    cellsReadFramebuffer := framebuffers.1
    cellsWriteFramebuffer := framebuffers.2
    generation := toInt32 (s.generation + 1) }

/-- The step loop of the host loop (lines 985-986):
`for (int i = 0; i < updatesPerFrame; ++i) updateCells();`. -/
def stepLoop (updatesPerFrame : Int) (s : State F) : State F :=
  Nat.iterate updateCells updatesPerFrame.toNat s

/-! ## Loading and clearing -/

/-- Function `centerCellsOnScreen` (lines 362-385). -/
def centerCellsOnScreen (fl : FloatOps F) (s : State F) : State F :=
  let scaleX := fl.one
  let scaleY := fl.one
  let windowAspect := fl.div (fl.ofInt s.windowWidth) (fl.ofInt s.windowHeight)
  let cellsAspect := fl.div (fl.ofInt s.numCellsX) (fl.ofInt s.numCellsY)
  if fl.lt windowAspect cellsAspect then
    let scaleY := fl.div (fl.mul scaleX (fl.ofInt s.numCellsX))
      (fl.mul windowAspect (fl.ofInt s.numCellsY))
    { s with scale := fl.one, scaleX := scaleX, scaleY := scaleY, offsetX := fl.zero,
             offsetY := fl.sub fl.half (fl.mul fl.half scaleY) }
  else if fl.lt cellsAspect windowAspect then
    let scaleX := fl.div (fl.mul (fl.mul windowAspect scaleY) (fl.ofInt s.numCellsY))
      (fl.ofInt s.numCellsX)
    { s with scale := fl.one, scaleX := scaleX, scaleY := scaleY,
             offsetX := fl.sub fl.half (fl.mul fl.half scaleX), offsetY := fl.zero }
  else
    { s with scale := fl.one, scaleX := scaleX, scaleY := scaleY, offsetX := fl.zero,
             offsetY := fl.zero }

/-- Inner loop of `setCells` (lines 412-416) for one input row: `cellRow` and
`cellColumn` are the offsets of the row in `cells` and of the word row in
`cellColumns`; `1 << cellColumnBit` is converted to `uint32_t` by `|=`.  An
access outside an array, which needs an offset that wrapped, is undefined in
C: here a negative index is index 0, a read past the end gives 0 and a write
past the end is dropped. -/
def setCellsRow (cells : List Nat) (width : Int) (cellRow cellColumn : Int) (cellColumnBit : Nat)
    (cellColumns : List Nat) : List Nat :=
  (List.range width.toNat).foldl (fun (cols : List Nat) (x : Nat) =>
    if cells.getD (cellRow + (x : Int)).toNat 0 ≠ 0 then
      cols.set (cellColumn + (x : Int)).toNat
        (cols.getD (cellColumn + (x : Int)).toNat 0 ||| shl32 1 cellColumnBit)
    else cols) cellColumns

/-- Outer loop of `setCells` (lines 408-417); the `int` products that give
the two offsets are wrapped to the `int` range. -/
def setCellsPack (cells : List Nat) (width height numCellsX : Int) (cellColumns : List Nat) :
    List Nat :=
  (List.range height.toNat).foldl (fun (cols : List Nat) (y : Nat) =>
    setCellsRow cells width (toInt32 ((y : Int) * width))
      (toInt32 (Int.tdiv (y : Int) 32 * numCellsX)) (Int.tmod (y : Int) 32).toNat cols) cellColumns

/-- Function `setCells(cells, width, height)` (lines 387-429); `cells` holds
the bytes of the caller's row-major grid. -/
def setCells (fl : FloatOps F) (s : State F) (cells : List Nat) (width height : Int) : State F :=
  let w := ceilMultipleOf32 width
  let h := ceilMultipleOf32 height
  if w < 1 ∨ h < 1 then s
  else if w > s.maxTextureSize ∨ h > s.maxTextureSize then s
  else
    let numCellsX := w
    let numCellsY := h
    let numCellColumnsY := Int.tdiv numCellsY 32
    let numCellColumns := numCellsX.toNat * numCellsY.toNat
    let cellColumns := List.replicate numCellColumns 0
    let cellColumns := setCellsPack cells width height numCellsX cellColumns
    let textures := Function.update s.textures s.cellsWrite
      (glTexImage2D numCellsX numCellColumnsY none)
    let textures := Function.update textures s.cellsRead
      (glTexImage2D numCellsX numCellColumnsY (some cellColumns))
    centerCellsOnScreen fl { s with
      numCellsX := numCellsX
      numCellsY := numCellsY
      textures := textures
      generation := 0 }

/-- Function `clearCells` (lines 431-439): `glClear` writes 0 to every pixel of
the texture attached to the bound framebuffer (the source's comment notes that
this works although the format is an unsigned integer one). -/
def clearCells (s : State F) : State F :=
  let s := setPatternName s "unnamed pattern".toList
  let target := s.attachment s.cellsReadFramebuffer
  let t := s.textures target
  { s with
    textures := Function.update s.textures target
      { t with texels := List.replicate (t.width * t.height) 0 }
    generation := 0 }

/-! ## Single-cell edits -/

/-- The read-modify-write of one word shared by `onMouseButton` (lines
475-483) and `onMouseMove` (lines 534-540) for a cell `(x, y)` that passed the
range test: `glReadPixels` from `cellsReadFramebuffer`, set or clear bit
`y & 31`, `glTexSubImage2D` into `cellsRead`. -/
def writeCellColumn (s : State F) (x y : Nat) (value : Nat) : State F :=
  let cellColumn := (s.textures (s.attachment s.cellsReadFramebuffer)).texel x (y / 32)
  let cellColumn :=
    if value ≠ 0 then cellColumn ||| shl32 1 (y &&& 31)
    else cellColumn &&& not32 (shl32 1 (y &&& 31))
  { s with
    textures := Function.update s.textures s.cellsRead
      ((s.textures s.cellsRead).setTexel x (y / 32) cellColumn) }

/-- The edit of `onMouseButton` (lines 468-484) for the cell `(x, y)` the
pointer maps to and `value` 0xFF (left button) or 0 (right button). -/
def onMouseButtonEdit (s : State F) (x y : Int) (value : Nat) : State F :=
  if x ≥ 0 ∧ x < s.numCellsX ∧ y ≥ 0 ∧ y < s.numCellsY then
    writeCellColumn s x.toNat y.toNat value
  else s

/-- The edit of one pass of the line loop of `onMouseMove` (lines 529-541). -/
def onMouseMoveEdit (s : State F) (x y : Int) (value : Nat) : State F :=
  if x ≥ 0 ∧ x < s.numCellsX ∧ y ≥ 0 ∧ y < s.numCellsY then
    writeCellColumn s x.toNat y.toNat value
  else s

/-! ## Start-up -/

/-- The globals before `main` runs: the initialisers of lines 20-52, zero for
the rest, no OpenGL object yet. -/
def initialState (fl : FloatOps F) : State F :=
  { windowWidth := 0, windowHeight := 0, numCellsX := 0, numCellsY := 0
    scale := fl.one, scaleX := fl.one, scaleY := fl.one, offsetX := fl.zero, offsetY := fl.zero
    generation := 0, patternName := [], maxTextureSize := 0
    cellsRead := 0, cellsWrite := 0, cellsReadFramebuffer := 0, cellsWriteFramebuffer := 0
    textures := fun _ => { width := 0, height := 0, texels := [] }
    attachment := fun _ => 0
    texturesGenerated := 0, framebuffersGenerated := 0 }

/-- The part of `main` that creates the two textures and their framebuffers
(lines 874, 924-930), for the framebuffer size and `GL_MAX_TEXTURE_SIZE` the
platform reports. -/
def mainCreateGrid (fl : FloatOps F) (windowWidth windowHeight maxTextureSize : Int) : State F :=
  let s : State F := { initialState fl with
    windowWidth := windowWidth, windowHeight := windowHeight, maxTextureSize := maxTextureSize }
  let s := { s with numCellsX := ceilMultipleOf32 256, numCellsY := ceilMultipleOf32 256 }
  let r := createTexture s s.numCellsX (Int.tdiv s.numCellsY 32)
  let w := createTexture r.2 s.numCellsX (Int.tdiv s.numCellsY 32)
  let fr := createFramebuffer w.2 r.1
  let fw := createFramebuffer fr.2 w.1
  { fw.2 with
    cellsRead := r.1, cellsWrite := w.1
    cellsReadFramebuffer := fr.1, cellsWriteFramebuffer := fw.1 }

/-- The part of `main` that builds the grid (lines 874, 924-934): creation,
then `clearCells` and `centerCellsOnScreen`. -/
def mainInit (fl : FloatOps F) (windowWidth windowHeight maxTextureSize : Int) : State F :=
  centerCellsOnScreen fl (clearCells (mainCreateGrid fl windowWidth windowHeight maxTextureSize))

/-- A cell of the current buffer: bit `y mod 32` of the word at column `x`,
word row `y / 32` of the texture named `cellsRead`. -/
def cellAlive (s : State F) (x y : Nat) : Bool :=
  ((s.textures s.cellsRead).texel x (y / 32)).testBit (y % 32)

/-! ## The scalar rule, as the specification words it -/

/-- Number of live cells in a list of cells. -/
def liveCount (cells : List Bool) : Nat := (cells.filter id).length

/-- The rule of Life for one cell: alive next iff exactly 3 live neighbours,
or exactly 2 and currently alive. -/
def lifeRule (alive : Bool) (neighbours : List Bool) : Bool :=
  decide (liveCount neighbours = 3 ∨ (liveCount neighbours = 2 ∧ alive = true))

/-- Lane `i - 1` of the centre row of words: lane 31 of the word `prev`
fetched at vertical offset `-1` when `i = 0`. -/
def laneBelow (prev cur : Nat) (i : Nat) : Bool :=
  if i = 0 then prev.testBit 31 else cur.testBit (i - 1)

/-- Lane `i + 1` of the centre row of words: lane 0 of the word `next`
fetched at vertical offset `+1` when `i = 31`. -/
def laneAbove (cur next : Nat) (i : Nat) : Bool :=
  if i = 31 then next.testBit 0 else cur.testBit (i + 1)

/-- The 8 Moore neighbours of lane `i` of the centre word `n11`, read from the
nine words of the shader. -/
def laneNeighbours (n00 n10 n20 n01 n11 n21 n02 n12 n22 : Nat) (i : Nat) : List Bool :=
  [ n01.testBit i, n21.testBit i,
    laneBelow n00 n01 i, laneBelow n10 n11 i, laneBelow n20 n21 i,
    laneAbove n01 n02 i, laneAbove n11 n12 i, laneAbove n21 n22 i ]

/-- Boolean form of the adder network of the shader for one lane: `lo`, `mid`
and `hi` are the three cells of lanes `i - 1`, `i`, `i + 1` in the columns
left (`0`), centre (`1`) and right (`2`). -/
def laneFormula (lo0 lo1 lo2 mid0 mid1 mid2 hi0 hi1 hi2 : Bool) : Bool :=
  let sLo := xor (xor lo0 lo1) lo2
  let sMid := xor (xor mid0 mid1) mid2
  let sHi := xor (xor hi0 hi1) hi2
  let cLo := (lo0 && lo1) || (lo1 && lo2) || (lo2 && lo0)
  let cMid := (mid0 && mid1) || (mid1 && mid2) || (mid2 && mid0)
  let cHi := (hi0 && hi1) || (hi1 && hi2) || (hi2 && hi0)
  let x0 := sHi
  let y0 := cHi
  let x1 := sMid
  let y1 := cMid
  let x2 := sLo
  let y2 := cLo
  let xc := (x0 && x1) || (x1 && x2) || (x2 && x0)
  let c := xor (xor x0 x1) x2
  let b := xor (xor (xor y0 y1) y2) xc
  let a := ((y0 && (y1 || xc)) || (y1 && (y2 || xc)) || (y2 && (y0 || xc)))
             && !(y0 && y1 && y2 && xc)
  (!a && b && c) || (mid1 && a && !b && !c)

/-! ## Well-formed states and the grid as the specification reads it -/

/-- The texture `t` has the size of the grid of `s`: `numCellsX` columns of
`numCellsY / 32` words, each texel present. -/
def SizedFor (s : State F) (t : Texture) : Prop :=
  (t.width : Int) = s.numCellsX ∧ (32 * (t.height : Int)) = s.numCellsY ∧
    t.texels.length = t.width * t.height

/-- The two buffer labels name different textures and each framebuffer label
names the framebuffer its texture is attached to. -/
def DoubleBuffered (s : State F) : Prop :=
  s.cellsRead ≠ s.cellsWrite ∧
    s.attachment s.cellsReadFramebuffer = s.cellsRead ∧
    s.attachment s.cellsWriteFramebuffer = s.cellsWrite

/-- The states the program works in: double buffered, both textures of the
size of the grid, every word of the current buffer a 32-bit word. -/
def WellFormed (s : State F) : Prop :=
  DoubleBuffered s ∧ SizedFor s (s.textures s.cellsRead) ∧ SizedFor s (s.textures s.cellsWrite) ∧
    ∀ w ∈ (s.textures s.cellsRead).texels, w < 2 ^ 32

instance (s : State F) (t : Texture) : Decidable (SizedFor s t) := by
  unfold SizedFor; infer_instance

instance (s : State F) : Decidable (DoubleBuffered s) := by
  unfold DoubleBuffered; infer_instance

instance (s : State F) : Decidable (WellFormed s) := by
  unfold WellFormed; infer_instance

/-- Offsets of the 8 Moore neighbours of a cell. -/
def mooreOffsets : List (Int × Int) :=
  [(-1, 0), (1, 0), (-1, -1), (0, -1), (1, -1), (-1, 1), (0, 1), (1, 1)]

/-- The cell at an integer position, every position outside the grid counting
as dead (the specification's non-wrapping reading). -/
def cellOrDead (s : State F) (x y : Int) : Bool :=
  if 0 ≤ x ∧ x < s.numCellsX ∧ 0 ≤ y ∧ y < s.numCellsY then cellAlive s x.toNat y.toNat
  else false

/-- The 8 Moore neighbours of cell `(x, y)`, positions outside the grid dead. -/
def neighboursDeadOutside (s : State F) (x y : Nat) : List Bool :=
  mooreOffsets.map (fun d => cellOrDead s ((x : Int) + d.1) ((y : Int) + d.2))

/-- The cell at an integer position taken modulo the size of the grid. -/
def cellWrapped (s : State F) (x y : Int) : Bool :=
  cellAlive s (x % s.numCellsX).toNat (y % s.numCellsY).toNat

/-- The 8 Moore neighbours of cell `(x, y)` on the torus. -/
def neighboursWrapped (s : State F) (x y : Nat) : List Bool :=
  mooreOffsets.map (fun d => cellWrapped s ((x : Int) + d.1) ((y : Int) + d.2))

/-- Exact rational arithmetic, standing in for `float` in the example states. -/
def ratOps : FloatOps Rat :=
  { zero := 0, half := 1 / 2, one := 1, ofInt := fun i => (i : Rat)
    mul := fun a b => a * b, div := fun a b => a / b, sub := fun a b => a - b
    lt := fun a b => decide (a < b) }

/-- A 32 x 32 grid (32 columns of one word) whose only live cells are
`(31, 0)`, `(31, 1)`, `(31, 2)`, in the last column. -/
def lastColumnState : State Rat :=
  { initialState ratOps with
    numCellsX := 32, numCellsY := 32, maxTextureSize := 1024
    cellsRead := 1, cellsWrite := 2, cellsReadFramebuffer := 1, cellsWriteFramebuffer := 2
    textures := fun n =>
      if n = 1 then { width := 32, height := 1, texels := List.replicate 31 0 ++ [7] }
      else { width := 32, height := 1, texels := List.replicate 32 0 }
    attachment := fun n => n
    texturesGenerated := 2, framebuffersGenerated := 2 }

/-- The states the program reaches from start-up (`mainInit`, for any
framebuffer size and texture-size limit the platform reports) by loading
patterns, clearing, stepping and editing cells. -/
inductive Reachable (fl : FloatOps F) : State F → Prop
  | start (windowWidth windowHeight maxTextureSize : Int) :
      Reachable fl (mainInit fl windowWidth windowHeight maxTextureSize)
  | setCells {s : State F} (cells : List Nat) (width height : Int) :
      Reachable fl s → Reachable fl (setCells fl s cells width height)
  | clearCells {s : State F} : Reachable fl s → Reachable fl (clearCells s)
  | updateCells {s : State F} : Reachable fl s → Reachable fl (updateCells s)
  | mouseButton {s : State F} (x y : Int) (value : Nat) :
      Reachable fl s → Reachable fl (onMouseButtonEdit s x y value)
  | mouseMove {s : State F} (x y : Int) (value : Nat) :
      Reachable fl s → Reachable fl (onMouseMoveEdit s x y value)

/-! ## The count words of the update shader -/

/-- The three words `(a, b, c)` the update shader computes before its last
line (lines 140-155), from the nine fetched words. -/
def updateShaderCount (n00 n10 n20 n01 n11 n21 n02 n12 n22 : Nat) : Nat × Nat × Nat :=
  let sumLo0 := n00 ^^^ n10 ^^^ n20
  let sumLo1 := n01 ^^^ n11 ^^^ n21
  let sumLo2 := n02 ^^^ n12 ^^^ n22
  let sumHi0 := (n00 &&& n10) ||| (n10 &&& n20) ||| (n20 &&& n00)
  let sumHi1 := (n01 &&& n11) ||| (n11 &&& n21) ||| (n21 &&& n01)
  let sumHi2 := (n02 &&& n12) ||| (n12 &&& n22) ||| (n22 &&& n02)
  let x0 := (sumLo1 >>> 1) ||| shl32 sumLo2 31
  let y0 := (sumHi1 >>> 1) ||| shl32 sumHi2 31
  let x1 := sumLo1
  let y1 := sumHi1
  let x2 := shl32 sumLo1 1 ||| (sumLo0 >>> 31)
  let y2 := shl32 sumHi1 1 ||| (sumHi0 >>> 31)
  let xc := (x0 &&& x1) ||| (x1 &&& x2) ||| (x2 &&& x0)
  let c := x0 ^^^ x1 ^^^ x2
  let b := y0 ^^^ y1 ^^^ y2 ^^^ xc
  let a := ((y0 &&& (y1 ||| xc)) ||| (y1 &&& (y2 ||| xc)) ||| (y2 &&& (y0 ||| xc)))
             &&& not32 (y0 &&& y1 &&& y2 &&& xc)
  (a, b, c)

/-- Boolean form, for one lane, of the three count bits `(a, b, c)`; the
arguments are those of `laneFormula`. -/
def laneCountBits (lo0 lo1 lo2 mid0 mid1 mid2 hi0 hi1 hi2 : Bool) : Bool × Bool × Bool :=
  let sLo := xor (xor lo0 lo1) lo2
  let sMid := xor (xor mid0 mid1) mid2
  let sHi := xor (xor hi0 hi1) hi2
  let cLo := (lo0 && lo1) || (lo1 && lo2) || (lo2 && lo0)
  let cMid := (mid0 && mid1) || (mid1 && mid2) || (mid2 && mid0)
  let cHi := (hi0 && hi1) || (hi1 && hi2) || (hi2 && hi0)
  let x0 := sHi
  let y0 := cHi
  let x1 := sMid
  let y1 := cMid
  let x2 := sLo
  let y2 := cLo
  let xc := (x0 && x1) || (x1 && x2) || (x2 && x0)
  let c := xor (xor x0 x1) x2
  let b := xor (xor (xor y0 y1) y2) xc
  let a := ((y0 && (y1 || xc)) || (y1 && (y2 || xc)) || (y2 && (y0 || xc)))
             && !(y0 && y1 && y2 && xc)
  (a, b, c)

/-- The three low binary digits `(bit2, bit1, bit0)` of a number. -/
def lowDigits (n : Nat) : Bool × Bool × Bool :=
  (decide (n / 4 % 2 = 1), decide (n / 2 % 2 = 1), decide (n % 2 = 1))

/-! ## Patterns -/

/-- Membership of `x` in the run of `len` consecutive positions that starts
at `p`. -/
def inRun (p len x : Nat) : Bool := decide (p ≤ x ∧ x < p + len)

/-- The horizontal line of three cells with middle cell `(cx, cy)`. -/
def horizontalBlinker (cx cy x y : Nat) : Bool := inRun (cx - 1) 3 x && inRun cy 1 y

/-- The vertical line of three cells with middle cell `(cx, cy)`. -/
def verticalBlinker (cx cy x y : Nat) : Bool := inRun cx 1 x && inRun (cy - 1) 3 y

/-- The 2 x 2 block whose cell with the least coordinates is `(bx, bY)`. -/
def blockPattern (bx bY x y : Nat) : Bool := inRun bx 2 x && inRun bY 2 y

/-- The live cells of the grid of `s` are exactly the cells of `pattern`. -/
def HasPattern (s : State F) (pattern : Nat → Nat → Bool) : Prop :=
  ∀ x, x < s.numCellsX.toNat → ∀ y, y < s.numCellsY.toNat → cellAlive s x y = pattern x y

instance (s : State F) (pattern : Nat → Nat → Bool) : Decidable (HasPattern s pattern) := by
  unfold HasPattern; infer_instance

/-- The rule of Life for a cell of a pattern that is a product of a set of
columns and a set of rows: `a0 a1 a2` tell whether the columns left of, at and
right of the cell are in the column set, `b0 b1 b2` the same for the rows
below, at and above. -/
def productRule (a0 a1 a2 b0 b1 b2 : Bool) : Bool :=
  lifeRule (a1 && b1)
    [a0 && b1, a2 && b1, a0 && b0, a1 && b0, a2 && b0, a0 && b2, a1 && b2, a2 && b2]

/-- What a position on a cyclic axis can see of a run of three, and whether it
is the middle of the run. -/
def seesRunOfThree (a0 a1 a2 middle : Bool) : Bool :=
  [(true, true, true, true), (false, true, true, false), (true, true, false, false),
    (false, false, true, false), (true, false, false, false),
    (false, false, false, false)].contains (a0, a1, a2, middle)

/-- What a position on a cyclic axis can see of a single position `c`, and
whether it is one of `c - 1`, `c`, `c + 1`. -/
def seesRunOfOne (a0 a1 a2 near : Bool) : Bool :=
  [(false, false, true, true), (false, true, false, true), (true, false, false, true),
    (false, false, false, false)].contains (a0, a1, a2, near)

/-- What a position on a cyclic axis can see of a run of two, and whether it
is in the run. -/
def seesRunOfTwo (a0 a1 a2 inside : Bool) : Bool :=
  [(false, true, true, true), (true, true, false, true), (false, false, true, false),
    (true, false, false, false), (false, false, false, false)].contains (a0, a1, a2, inside)

/-- A 32 x 32 grid whose only live cells are `(1, 1)`, `(2, 1)`, `(3, 1)`: a
horizontal blinker with middle cell `(2, 1)`. -/
def blinkerState : State Rat :=
  { lastColumnState with
    textures := fun n =>
      if n = 1 then { width := 32, height := 1, texels := [0, 2, 2, 2] ++ List.replicate 28 0 }
      else { width := 32, height := 1, texels := List.replicate 32 0 } }

/-- A 32 x 32 grid whose only live cells are the block `(30, 30)`, `(31, 30)`,
`(30, 31)`, `(31, 31)` in the last two columns and rows: the words of columns
30 and 31 are `2^30 + 2^31`. -/
def blockState : State Rat :=
  { lastColumnState with
    textures := fun n =>
      if n = 1 then
        { width := 32, height := 1, texels := List.replicate 30 0 ++ [3221225472, 3221225472] }
      else { width := 32, height := 1, texels := List.replicate 32 0 } }

/-! ## The scan of the render shader -/

/-- Fetch `texelFetch(cells, ivec2(x, y), 0).x` (line 100): the texel without
wrapping; GLSL leaves a fetch outside the texture undefined, it is 0 here. -/
def texelFetch (cells : Texture) (x y : Int) : Nat :=
  if 0 ≤ x ∧ 0 ≤ y then cells.texel x.toNat y.toNat else 0

/-- Line 81, `textureSize(cells, 0) * ivec2(1, 32)`, in `int` arithmetic. -/
def renderNumCells (cells : Texture) : Int × Int :=
  (toInt32 (toInt32 cells.width * 1), toInt32 (toInt32 cells.height * 32))

/-- The values `(ymin, ymax, lshift, rshift, yadvance)` of one pass of the
outer loop (lines 95-98 and 103) that starts at row `y`. -/
def renderPass (pmaxY y : Int) : Int × Int × Int × Int × Int :=
  let ymin := Int.tmod y 32
  let ymax := min 31 (toInt32 (toInt32 (pmaxY + ymin) - y))
  let lshift := toInt32 (31 - ymax)
  let rshift := toInt32 (ymin + lshift)
  let yadvance := toInt32 (toInt32 (1 + ymax) - ymin)
  (ymin, ymax, lshift, rshift, yadvance)

/-- Line 101, `(cellColumn << lshift) >> rshift` on `uint`. -/
def shiftPair (cellColumn : Nat) (lshift rshift : Int) : Nat :=
  shl32 cellColumn lshift.toNat >>> rshift.toNat

/-- The inner loop (lines 99-102) from column `x` on: `none` when the fuel
runs out before the loop test fails. -/
def renderScanRow (cells : Texture) (wordRow lshift rshift pmaxX : Int) :
    Nat → Int → Nat → Option Nat
  | 0, _, _ => none
  | fuel + 1, x, accumulator =>
    if x ≤ pmaxX then
      let cellColumn := texelFetch cells x wordRow
      renderScanRow cells wordRow lshift rshift pmaxX fuel (toInt32 (x + 1))
        (accumulator ||| shiftPair cellColumn lshift rshift)
    else some accumulator

/-- The outer loop (lines 94-104) from row `y` on, each inner loop run with
`rowFuel`: `none` when the fuel of either loop runs out. -/
def renderScan (cells : Texture) (pminX pmaxX pmaxY : Int) (rowFuel : Nat) :
    Nat → Int → Nat → Option Nat
  | 0, _, _ => none
  | fuel + 1, y, accumulator =>
    if y ≤ pmaxY then
      let ymin := Int.tmod y 32
      let ymax := min 31 (toInt32 (toInt32 (pmaxY + ymin) - y))
      let lshift := toInt32 (31 - ymax)
      let rshift := toInt32 (ymin + lshift)
      match renderScanRow cells (Int.tdiv y 32) lshift rshift pmaxX rowFuel pminX accumulator with
      | none => none
      | some accumulator =>
        let yadvance := toInt32 (toInt32 (1 + ymax) - ymin)
        renderScan cells pminX pmaxX pmaxY rowFuel fuel (toInt32 (y + yadvance)) accumulator
    else some accumulator

/-- Lines 92-117 after the clamps: the scan from `accumulator = 0u`, the
colour of line 105, and the blend of lines 107-116, which only runs in the
sub-cell regime `delta.x < 0.2 && delta.y < 0.2` and is the parameter
`blend` here, as it is floating-point arithmetic on the colour. -/
def renderColor {C : Type} (cells : Texture) (pminX pminY pmaxX pmaxY : Int)
    (aliveColor deadColor : C) (subCell : Bool) (blend : C → C) (rowFuel fuel : Nat) :
    Option C :=
  match renderScan cells pminX pmaxX pmaxY rowFuel fuel pminY 0 with
  | none => none
  | some accumulator =>
    let color := if accumulator ≠ 0 then aliveColor else deadColor
    if subCell then some (blend color) else some color

/-! ## The line loop of `onMouseMove` -/

/-- C `abs` on `int`; the negation is wrapped to the `int` range. -/
def abs32 (v : Int) : Int := if v < 0 then toInt32 (-v) else v

/-- The part of one pass of the line loop after the `break` test (lines
546-554): the new `(x, y, error)`. -/
def lineStep (dX dY signX signY x y error : Int) : Int × Int × Int :=
  let error2 := toInt32 (2 * error)
  let error1 := if error2 ≥ dY then toInt32 (error + dY) else error
  let x1 := if error2 ≥ dY then toInt32 (x + signX) else x
  let error3 := if error2 ≤ dX then toInt32 (error1 + dX) else error1
  let y1 := if error2 ≤ dX then toInt32 (y + signY) else y
  (x1, y1, error3)

/-- The loop `for (;;)` of `onMouseMove` (lines 528-555) run for at most
`fuel` passes: the cells `(x, y)` of the passes made, in order, and the state
at the `break` if it is reached within them. -/
def lineLoop (value : Nat) (xend yend dX dY signX signY : Int) :
    Nat → State F → Int → Int → Int → List (Int × Int) × Option (State F)
  | 0, _, _, _, _ => ([], none)
  | fuel + 1, s, x, y, error =>
    let s := onMouseMoveEdit s x y value
    if x = xend ∧ y = yend then ([(x, y)], some s)
    else
      let next := lineStep dX dY signX signY x y error
      let rest := lineLoop value xend yend dX dY signX signY fuel s next.1 next.2.1 next.2.2
      ((x, y) :: rest.1, rest.2)

/-- Lines 522-555 of `onMouseMove` for the start cell `(x, y)` and the end
cell `(xend, yend)` computed in lines 517-520. -/
def onMouseMoveLine (s : State F) (value : Nat) (x y xend yend : Int) (fuel : Nat) :
    List (Int × Int) × Option (State F) :=
  let dX := abs32 (toInt32 (xend - x))
  let dY := toInt32 (-(abs32 (toInt32 (yend - y))))
  let signX : Int := if x < xend then 1 else -1
  let signY : Int := if y < yend then 1 else -1
  let error := toInt32 (dX + dY)
  lineLoop value xend yend dX dY signX signY fuel s x y error

/-- What is claimed of the cells of a line from `(x, y)` to `(xend, yend)`:
the first is the start, the last is the end, consecutive cells differ by at
most 1 in each coordinate, and every cell is in the bounding box of start and
end. -/
def LineTrace (x y xend yend : Int) (cells : List (Int × Int)) : Prop :=
  cells.head? = some (x, y) ∧ cells.getLast? = some (xend, yend) ∧
  List.Chain' (fun a b : Int × Int =>
    -1 ≤ b.1 - a.1 ∧ b.1 - a.1 ≤ 1 ∧ -1 ≤ b.2 - a.2 ∧ b.2 - a.2 ≤ 1) cells ∧
  ∀ c ∈ cells, min x xend ≤ c.1 ∧ c.1 ≤ max x xend ∧ min y yend ≤ c.2 ∧ c.2 ≤ max y yend

theorem testBit_not32 (a i : Nat) : (not32 a).testBit i = (decide (i < 32) && !a.testBit i) := by
  unfold not32
  rw [Nat.testBit_xor, Nat.testBit_two_pow_sub_one, Nat.testBit_mod_two_pow]
  by_cases h : i < 32 <;> simp [h]

theorem testBit_shl32 (a n i : Nat) :
    (shl32 a n).testBit i = (decide (i < 32) && (decide (n ≤ i) && a.testBit (i - n))) := by
  unfold shl32
  rw [Nat.testBit_mod_two_pow, Nat.testBit_shiftLeft]

theorem laneFormula_eq_lifeRule :
    ∀ lo0 lo1 lo2 mid0 mid1 mid2 hi0 hi1 hi2 : Bool,
      laneFormula lo0 lo1 lo2 mid0 mid1 mid2 hi0 hi1 hi2
        = lifeRule mid1 [mid0, mid2, lo0, lo1, lo2, hi0, hi1, hi2] := by
  decide

/-- Bits at and above position 32 of a 32-bit word are clear. -/
theorem testBit_eq_false_of_word {w : Nat} (hw : w < 2 ^ 32) {i : Nat} (hi : 32 ≤ i) :
    w.testBit i = false :=
  Nat.testBit_lt_two_pow (lt_of_lt_of_le hw (Nat.pow_le_pow_right (by decide) hi))

theorem testBit_shiftUp (s1 s2 : Nat) (h1 : s1 < 2 ^ 32) (i : Nat) (hi : i < 32) :
    ((s1 >>> 1) ||| shl32 s2 31).testBit i = laneAbove s1 s2 i := by
  unfold laneAbove
  rw [Nat.testBit_or, Nat.testBit_shiftRight, testBit_shl32]
  by_cases h31 : i = 31
  · subst h31
    simp [testBit_eq_false_of_word h1]
  · have e1 : 1 + i = i + 1 := by omega
    have e2 : ¬ (31 ≤ i) := by omega
    simp [h31, e1, e2]

theorem testBit_shiftDown (s0 s1 : Nat) (h0 : s0 < 2 ^ 32) (i : Nat) (hi : i < 32) :
    (shl32 s1 1 ||| (s0 >>> 31)).testBit i = laneBelow s0 s1 i := by
  unfold laneBelow
  rw [Nat.testBit_or, Nat.testBit_shiftRight, testBit_shl32]
  rcases Nat.eq_zero_or_pos i with h | h
  · subst h
    simp
  · have e1 : i ≠ 0 := by omega
    have e2 : 1 ≤ i := h
    simp [e1, e2, hi, testBit_eq_false_of_word h0 (i := 31 + i) (by omega)]

theorem laneAbove_xor (a b c d i : Nat) :
    laneAbove (a ^^^ b) (c ^^^ d) i = xor (laneAbove a c i) (laneAbove b d i) := by
  unfold laneAbove; split <;> exact Nat.testBit_xor _ _ _

theorem laneAbove_and (a b c d i : Nat) :
    laneAbove (a &&& b) (c &&& d) i = (laneAbove a c i && laneAbove b d i) := by
  unfold laneAbove; split <;> exact Nat.testBit_and _ _ _

theorem laneAbove_or (a b c d i : Nat) :
    laneAbove (a ||| b) (c ||| d) i = (laneAbove a c i || laneAbove b d i) := by
  unfold laneAbove; split <;> exact Nat.testBit_or _ _ _

theorem laneBelow_xor (a b c d i : Nat) :
    laneBelow (a ^^^ b) (c ^^^ d) i = xor (laneBelow a c i) (laneBelow b d i) := by
  unfold laneBelow; split <;> exact Nat.testBit_xor _ _ _

theorem laneBelow_and (a b c d i : Nat) :
    laneBelow (a &&& b) (c &&& d) i = (laneBelow a c i && laneBelow b d i) := by
  unfold laneBelow; split <;> exact Nat.testBit_and _ _ _

theorem laneBelow_or (a b c d i : Nat) :
    laneBelow (a ||| b) (c ||| d) i = (laneBelow a c i || laneBelow b d i) := by
  unfold laneBelow; split <;> exact Nat.testBit_or _ _ _

theorem xor3_lt {a b c : Nat} (ha : a < 2 ^ 32) (hb : b < 2 ^ 32) (hc : c < 2 ^ 32) :
    a ^^^ b ^^^ c < 2 ^ 32 :=
  Nat.xor_lt_two_pow (Nat.xor_lt_two_pow ha hb) hc

theorem maj3_lt {a b c : Nat} (ha : a < 2 ^ 32) (hb : b < 2 ^ 32) (hc : c < 2 ^ 32) :
    (a &&& b) ||| (b &&& c) ||| (c &&& a) < 2 ^ 32 :=
  Nat.or_lt_two_pow (Nat.or_lt_two_pow (Nat.and_lt_two_pow _ hb) (Nat.and_lt_two_pow _ hc))
    (Nat.and_lt_two_pow _ ha)

/-- Lane `i` of the shader's output word is the adder network applied to the
nine cells around lane `i` of the centre word. -/
theorem updateShaderMain_lane (n00 n10 n20 n01 n11 n21 n02 n12 n22 : Nat)
    (h00 : n00 < 2 ^ 32) (h10 : n10 < 2 ^ 32) (h20 : n20 < 2 ^ 32)
    (h01 : n01 < 2 ^ 32) (h11 : n11 < 2 ^ 32) (h21 : n21 < 2 ^ 32)
    (i : Nat) (hi : i < 32) :
    (updateShaderMain n00 n10 n20 n01 n11 n21 n02 n12 n22).testBit i
      = laneFormula (laneBelow n00 n01 i) (laneBelow n10 n11 i) (laneBelow n20 n21 i)
          (n01.testBit i) (n11.testBit i) (n21.testBit i)
          (laneAbove n01 n02 i) (laneAbove n11 n12 i) (laneAbove n21 n22 i) := by
  have hx0 := testBit_shiftUp (n01 ^^^ n11 ^^^ n21) (n02 ^^^ n12 ^^^ n22) (xor3_lt h01 h11 h21) i hi
  have hy0 := testBit_shiftUp ((n01 &&& n11) ||| (n11 &&& n21) ||| (n21 &&& n01))
    ((n02 &&& n12) ||| (n12 &&& n22) ||| (n22 &&& n02)) (maj3_lt h01 h11 h21) i hi
  have hx2 := testBit_shiftDown (n00 ^^^ n10 ^^^ n20) (n01 ^^^ n11 ^^^ n21) (xor3_lt h00 h10 h20) i hi
  have hy2 := testBit_shiftDown ((n00 &&& n10) ||| (n10 &&& n20) ||| (n20 &&& n00))
    ((n01 &&& n11) ||| (n11 &&& n21) ||| (n21 &&& n01)) (maj3_lt h00 h10 h20) i hi
  simp only [laneAbove_xor, laneAbove_and, laneAbove_or] at hx0 hy0
  simp only [laneBelow_xor, laneBelow_and, laneBelow_or] at hx2 hy2
  simp only [updateShaderMain]
  generalize ((n01 ^^^ n11 ^^^ n21) >>> 1 ||| shl32 (n02 ^^^ n12 ^^^ n22) 31) = x0 at hx0 ⊢
  generalize (((n01 &&& n11) ||| (n11 &&& n21) ||| (n21 &&& n01)) >>> 1
    ||| shl32 ((n02 &&& n12) ||| (n12 &&& n22) ||| (n22 &&& n02)) 31) = y0 at hy0 ⊢
  generalize (shl32 (n01 ^^^ n11 ^^^ n21) 1 ||| (n00 ^^^ n10 ^^^ n20) >>> 31) = x2 at hx2 ⊢
  generalize (shl32 ((n01 &&& n11) ||| (n11 &&& n21) ||| (n21 &&& n01)) 1
    ||| ((n00 &&& n10) ||| (n10 &&& n20) ||| (n20 &&& n00)) >>> 31) = y2 at hy2 ⊢
  simp only [Nat.testBit_or, Nat.testBit_and, Nat.testBit_xor, testBit_not32, hi, decide_True,
    Bool.true_and, hx0, hy0, hx2, hy2, laneFormula]

/-! ## C1: the shader computes the rule lane by lane -/

/-- C1: for nine 32-bit words and every lane `i < 32`, bit `i` of the word the
update shader outputs is 1 exactly when the cell at lane `i` of the centre word
has exactly 3 live Moore neighbours, or exactly 2 and is alive; the neighbours
are lane `i` of `n01`, `n21` and lanes `i - 1`, `i + 1` of `n01`, `n11`, `n21`,
taken from lane 31 of `n00`, `n10`, `n20` and lane 0 of `n02`, `n12`, `n22` at
the two ends of the word. -/
theorem updateShaderMain_testBit_eq_lifeRule (n00 n10 n20 n01 n11 n21 n02 n12 n22 : Nat)
    (hw : ∀ w ∈ [n00, n10, n20, n01, n11, n21, n02, n12, n22], w < 2 ^ 32)
    (i : Nat) (hi : i < 32) :
    (updateShaderMain n00 n10 n20 n01 n11 n21 n02 n12 n22).testBit i
      = lifeRule (n11.testBit i) (laneNeighbours n00 n10 n20 n01 n11 n21 n02 n12 n22 i) := by
  rw [updateShaderMain_lane n00 n10 n20 n01 n11 n21 n02 n12 n22
    (hw _ (by simp)) (hw _ (by simp)) (hw _ (by simp)) (hw _ (by simp)) (hw _ (by simp))
    (hw _ (by simp)) i hi, laneFormula_eq_lifeRule]
  rfl

/-- Instance of C1: a live lane 31 with live lanes 30 beside it and lane 0 of the
word above. -/
theorem updateShaderMain_testBit_eq_lifeRule_witness :
    (∀ w ∈ [0, 0, 0, 2 ^ 30, 2 ^ 31, 2 ^ 30, 0, 1, 0], w < 2 ^ 32) ∧ 31 < 32 ∧
    (updateShaderMain 0 0 0 (2 ^ 30) (2 ^ 31) (2 ^ 30) 0 1 0).testBit 31
      = lifeRule ((2 ^ 31).testBit 31)
          (laneNeighbours 0 0 0 (2 ^ 30) (2 ^ 31) (2 ^ 30) 0 1 0 31) :=
  ⟨by decide, by decide,
    updateShaderMain_testBit_eq_lifeRule 0 0 0 (2 ^ 30) (2 ^ 31) (2 ^ 30) 0 1 0
      (by decide) 31 (by decide)⟩

/-! ## C2: one step on the whole grid -/

theorem emod_eq_of_shift (v m r k : Int) (h : v = r + k * m) (h0 : 0 ≤ r) (h1 : r < m) :
    v % m = r := by
  subst h
  rw [Int.add_mul_emod_self, Int.emod_eq_of_lt h0 h1]

/-- Splitting a row number modulo `32 * n` into word row and lane. -/
theorem wrapped_row_split (v : Int) (n : Nat) (hn : 0 < n) :
    (v % (32 * (n : Int))).toNat / 32 = ((v / 32) % (n : Int)).toNat ∧
    (v % (32 * (n : Int))).toNat % 32 = (v % 32).toNat := by
  have hn' : (0 : Int) < n := by exact_mod_cast hn
  have hq0 := Int.emod_nonneg (v / 32) (ne_of_gt hn')
  have hq1 := Int.emod_lt_of_pos (v / 32) hn'
  have hq := Int.emod_add_ediv (v / 32) n
  have hv := Int.emod_add_ediv v 32
  have hr0 := Int.emod_nonneg v (show (32 : Int) ≠ 0 by decide)
  have hr1 := Int.emod_lt_of_pos v (show (0 : Int) < 32 by decide)
  have key : v % (32 * (n : Int)) = 32 * ((v / 32) % (n : Int)) + v % 32 := by
    apply emod_eq_of_shift v _ _ (v / 32 / n)
    · nlinarith
    · omega
    · nlinarith
  rw [key]
  omega

theorem texelRepeat_eq_texel (t : Texture) (x y : Int) (hw : 0 < t.width) (hh : 0 < t.height) :
    t.texelRepeat x y = t.texel (x % (t.width : Int)).toNat (y % (t.height : Int)).toNat := by
  have hw' : (0 : Int) < t.width := by exact_mod_cast hw
  have hh' : (0 : Int) < t.height := by exact_mod_cast hh
  have h1 : (x % (t.width : Int)).toNat < t.width := by
    have := Int.emod_lt_of_pos x hw'
    have := Int.emod_nonneg x (ne_of_gt hw')
    omega
  have h2 : (y % (t.height : Int)).toNat < t.height := by
    have := Int.emod_lt_of_pos y hh'
    have := Int.emod_nonneg y (ne_of_gt hh')
    omega
  unfold Texture.texelRepeat Texture.texel
  rw [if_pos ⟨h1, h2⟩]

/-- A wrapped cell is a bit of a wrapped texel fetch. -/
theorem cellWrapped_eq_testBit (s : State F) (hs : SizedFor s (s.textures s.cellsRead))
    (hx : 0 < s.numCellsX) (hy : 0 < s.numCellsY) (x y : Int) :
    cellWrapped s x y
      = ((s.textures s.cellsRead).texelRepeat x (y / 32)).testBit (y % 32).toNat := by
  obtain ⟨hW, hH, _⟩ := hs
  have hw : 0 < (s.textures s.cellsRead).width := by omega
  have hh : 0 < (s.textures s.cellsRead).height := by omega
  rw [texelRepeat_eq_texel _ _ _ hw hh]
  unfold cellWrapped cellAlive
  rw [← hW, ← hH]
  obtain ⟨e1, e2⟩ := wrapped_row_split y _ hh
  rw [e1, e2]

theorem getD_lt_of_forall_mem (l : List Nat) (B : Nat) (hB : 0 < B) (h : ∀ w ∈ l, w < B) (k : Nat) :
    l.getD k 0 < B := by
  by_cases hk : k < l.length
  · rw [List.getD_eq_getElem l 0 hk]
    exact h _ (List.getElem_mem hk)
  · rw [List.getD_eq_default l 0 (by omega)]
    exact hB

theorem texelRepeat_lt (t : Texture) (h : ∀ w ∈ t.texels, w < 2 ^ 32) (x y : Int) :
    t.texelRepeat x y < 2 ^ 32 :=
  getD_lt_of_forall_mem _ _ (by decide) h _

theorem getD_map_range (f : Nat → Nat) (n k : Nat) (hk : k < n) :
    ((List.range n).map f).getD k 0 = f k := by
  rw [List.getD_eq_getElem _ 0 (by simpa using hk)]
  simp

/-- Inside the viewport the drawn texture holds the shader's output. -/
theorem drawUpdate_texel (cells target : Texture) (vw vh x y : Nat)
    (hx : x < target.width) (hy : y < target.height) (hvx : x < vw) (hvy : y < vh) :
    (drawUpdate cells target vw vh).texel x y = updateShader cells x y := by
  unfold Texture.texel drawUpdate
  simp only []
  rw [if_pos ⟨hx, hy⟩]
  have hk : y * target.width + x < target.width * target.height := by
    calc y * target.width + x < y * target.width + target.width := by omega
      _ = (y + 1) * target.width := by ring
      _ ≤ target.height * target.width := Nat.mul_le_mul_right _ hy
      _ = target.width * target.height := by ring
  rw [getD_map_range _ _ _ hk]
  have e1 : (y * target.width + x) % target.width = x := by
    rw [Nat.add_comm, Nat.add_mul_mod_self_right, Nat.mod_eq_of_lt hx]
  have e2 : (y * target.width + x) / target.width = y := by
    rw [Nat.add_comm, Nat.add_mul_div_right _ _ (by omega), Nat.div_eq_of_lt hx, Nat.zero_add]
  simp only [e1, e2]
  rw [if_pos ⟨hvx, hvy⟩]

/-- After `updateCells` the current buffer is the texture just drawn. -/
theorem updateCells_current (s : State F) (hd : DoubleBuffered s) :
    (updateCells s).textures (updateCells s).cellsRead
      = drawUpdate (s.textures s.cellsRead) (s.textures s.cellsWrite)
          s.numCellsX.toNat (Int.tdiv s.numCellsY 32).toNat := by
  obtain ⟨_, _, hw⟩ := hd
  simp [updateCells, swap, hw]

/-- A cell of the grid after `updateCells` is a bit of the shader's output for
its word. -/
theorem cellAlive_updateCells (s : State F) (hs : WellFormed s) (x y : Nat)
    (hx : (x : Int) < s.numCellsX) (hy : (y : Int) < s.numCellsY) :
    cellAlive (updateCells s) x y
      = (updateShader (s.textures s.cellsRead) x (y / 32)).testBit (y % 32) := by
  obtain ⟨hd, _, ⟨hW, hH, _⟩, _⟩ := hs
  unfold cellAlive
  rw [updateCells_current s hd, drawUpdate_texel]
  · omega
  · omega
  · omega
  · rw [Int.tdiv_eq_ediv (by omega) (by decide)]
    omega

theorem lane_mid_eq_cellWrapped (s : State F) (hs : SizedFor s (s.textures s.cellsRead))
    (hx : 0 < s.numCellsX) (hy : 0 < s.numCellsY) (X : Int) (y : Nat) :
    ((s.textures s.cellsRead).texelRepeat X (((y / 32 : Nat) : Int) + 0)).testBit (y % 32)
      = cellWrapped s X ((y : Int) + 0) := by
  rw [cellWrapped_eq_testBit s hs hx hy]
  have e1 : ((y : Int) + 0) / 32 = ((y / 32 : Nat) : Int) + 0 := by omega
  have e2 : (((y : Int) + 0) % 32).toNat = y % 32 := by omega
  rw [e1, e2]

theorem lane_below_eq_cellWrapped (s : State F) (hs : SizedFor s (s.textures s.cellsRead))
    (hx : 0 < s.numCellsX) (hy : 0 < s.numCellsY) (X : Int) (y : Nat) :
    laneBelow ((s.textures s.cellsRead).texelRepeat X (((y / 32 : Nat) : Int) + -1))
        ((s.textures s.cellsRead).texelRepeat X (((y / 32 : Nat) : Int) + 0)) (y % 32)
      = cellWrapped s X ((y : Int) + -1) := by
  rw [cellWrapped_eq_testBit s hs hx hy]
  unfold laneBelow
  split
  · have e1 : ((y : Int) + -1) / 32 = ((y / 32 : Nat) : Int) + -1 := by omega
    have e2 : (((y : Int) + -1) % 32).toNat = 31 := by omega
    rw [e1, e2]
  · have e1 : ((y : Int) + -1) / 32 = ((y / 32 : Nat) : Int) + 0 := by omega
    have e2 : (((y : Int) + -1) % 32).toNat = y % 32 - 1 := by omega
    rw [e1, e2]

theorem lane_above_eq_cellWrapped (s : State F) (hs : SizedFor s (s.textures s.cellsRead))
    (hx : 0 < s.numCellsX) (hy : 0 < s.numCellsY) (X : Int) (y : Nat) :
    laneAbove ((s.textures s.cellsRead).texelRepeat X (((y / 32 : Nat) : Int) + 0))
        ((s.textures s.cellsRead).texelRepeat X (((y / 32 : Nat) : Int) + 1)) (y % 32)
      = cellWrapped s X ((y : Int) + 1) := by
  rw [cellWrapped_eq_testBit s hs hx hy]
  unfold laneAbove
  split
  · have e1 : ((y : Int) + 1) / 32 = ((y / 32 : Nat) : Int) + 1 := by omega
    have e2 : (((y : Int) + 1) % 32).toNat = 0 := by omega
    rw [e1, e2]
  · have e1 : ((y : Int) + 1) / 32 = ((y / 32 : Nat) : Int) + 0 := by omega
    have e2 : (((y : Int) + 1) % 32).toNat = y % 32 + 1 := by omega
    rw [e1, e2]

theorem cellAlive_eq_cellWrapped (s : State F) (x y : Nat)
    (hx : (x : Int) < s.numCellsX) (hy : (y : Int) < s.numCellsY) :
    cellAlive s x y = cellWrapped s ((x : Int) + 0) ((y : Int) + 0) := by
  unfold cellWrapped
  rw [Int.add_zero, Int.add_zero, Int.emod_eq_of_lt (by omega) hx, Int.emod_eq_of_lt (by omega) hy]
  simp

/-- One `updateCells` applies the rule of Life to every cell of the grid, the
neighbours being taken on the torus. -/
theorem updateCells_cell_wrapped (s : State F) (hs : WellFormed s) (x y : Nat)
    (hx : (x : Int) < s.numCellsX) (hy : (y : Int) < s.numCellsY) :
    cellAlive (updateCells s) x y = lifeRule (cellAlive s x y) (neighboursWrapped s x y) := by
  have hsz := hs.2.1
  have hb := hs.2.2.2
  have hX : 0 < s.numCellsX := by omega
  have hY : 0 < s.numCellsY := by omega
  rw [cellAlive_updateCells s hs x y hx hy]
  unfold updateShader
  simp only [textureOffset]
  rw [updateShaderMain_lane _ _ _ _ _ _ _ _ _ (texelRepeat_lt _ hb _ _) (texelRepeat_lt _ hb _ _)
    (texelRepeat_lt _ hb _ _) (texelRepeat_lt _ hb _ _) (texelRepeat_lt _ hb _ _)
    (texelRepeat_lt _ hb _ _) (y % 32) (Nat.mod_lt _ (by decide)), laneFormula_eq_lifeRule]
  simp only [lane_mid_eq_cellWrapped s hsz hX hY, lane_below_eq_cellWrapped s hsz hX hY,
    lane_above_eq_cellWrapped s hsz hX hY]
  rw [← cellAlive_eq_cellWrapped s x y hx hy]
  rfl

theorem cellWrapped_eq_cellOrDead (s : State F) (X Y : Int)
    (hx0 : 0 ≤ X) (hx1 : X < s.numCellsX) (hy0 : 0 ≤ Y) (hy1 : Y < s.numCellsY) :
    cellWrapped s X Y = cellOrDead s X Y := by
  unfold cellWrapped cellOrDead
  rw [if_pos ⟨hx0, hx1, hy0, hy1⟩, Int.emod_eq_of_lt hx0 hx1, Int.emod_eq_of_lt hy0 hy1]

/-- Away from the border of the grid no neighbour position is wrapped. -/
theorem neighboursWrapped_eq_deadOutside (s : State F) (x y : Nat)
    (hx0 : 1 ≤ x) (hx1 : (x : Int) + 1 < s.numCellsX)
    (hy0 : 1 ≤ y) (hy1 : (y : Int) + 1 < s.numCellsY) :
    neighboursWrapped s x y = neighboursDeadOutside s x y := by
  unfold neighboursWrapped neighboursDeadOutside
  apply List.map_congr_left
  intro d hd
  simp only [mooreOffsets, List.mem_cons, List.mem_singleton, List.not_mem_nil, or_false] at hd
  rcases hd with rfl | rfl | rfl | rfl | rfl | rfl | rfl | rfl <;>
    exact cellWrapped_eq_cellOrDead s _ _ (by simp; try omega) (by simp; try omega)
      (by simp; try omega) (by simp; try omega)

/-- C2 (as amended): after one `updateCells` every cell `(x, y)` of the grid is
alive exactly when it had exactly 3 live Moore neighbours, or exactly 2 and was
alive, where a neighbour position outside the grid is the cell at that position
modulo the width and the height (the textures wrap with `GL_REPEAT`); for a
cell that is not on the first or last row or column all 8 positions are inside
the grid and the rule is the one with outside positions dead. -/
theorem updateCells_cell_eq_lifeRule (s : State F) (hs : WellFormed s) (x y : Nat)
    (hx : (x : Int) < s.numCellsX) (hy : (y : Int) < s.numCellsY) :
    cellAlive (updateCells s) x y = lifeRule (cellAlive s x y) (neighboursWrapped s x y) ∧
    (1 ≤ x → (x : Int) + 1 < s.numCellsX → 1 ≤ y → (y : Int) + 1 < s.numCellsY →
      cellAlive (updateCells s) x y
        = lifeRule (cellAlive s x y) (neighboursDeadOutside s x y)) := by
  refine ⟨updateCells_cell_wrapped s hs x y hx hy, ?_⟩
  intro hx0 hx1 hy0 hy1
  rw [← neighboursWrapped_eq_deadOutside s x y hx0 hx1 hy0 hy1]
  exact updateCells_cell_wrapped s hs x y hx hy

/-- Instance of C2 (as amended) at cell `(30, 1)` of `lastColumnState`, which
is not on the border and has the three live cells of column 31 as neighbours. -/
theorem updateCells_cell_eq_lifeRule_witness :
    WellFormed lastColumnState ∧ ((30 : Nat) : Int) < lastColumnState.numCellsX ∧
    ((1 : Nat) : Int) < lastColumnState.numCellsY ∧
    cellAlive (updateCells lastColumnState) 30 1
      = lifeRule (cellAlive lastColumnState 30 1) (neighboursWrapped lastColumnState 30 1) ∧
    cellAlive (updateCells lastColumnState) 30 1
      = lifeRule (cellAlive lastColumnState 30 1) (neighboursDeadOutside lastColumnState 30 1) :=
  ⟨by decide, by decide, by decide,
    (updateCells_cell_eq_lifeRule lastColumnState (by decide) 30 1 (by decide) (by decide)).1,
    (updateCells_cell_eq_lifeRule lastColumnState (by decide) 30 1 (by decide) (by decide)).2
      (by decide) (by decide) (by decide) (by decide)⟩

/-- C2 (as stated) fails: in `lastColumnState` the dead cell `(0, 1)` has no
live neighbour inside the grid, so with outside positions dead it stays dead,
but `updateCells` makes it alive, its three neighbours at column `-1` being the
live cells of column 31. -/
theorem updateCells_not_deadOutside :
    WellFormed lastColumnState ∧
    cellAlive lastColumnState 0 1 = false ∧
    neighboursDeadOutside lastColumnState 0 1
      = [false, false, false, false, false, false, false, false] ∧
    lifeRule (cellAlive lastColumnState 0 1) (neighboursDeadOutside lastColumnState 0 1) = false ∧
    cellAlive (updateCells lastColumnState) 0 1 = true := by
  refine ⟨by decide, by decide, by decide, by decide, by decide⟩

/-! ## C4: rounding to a multiple of 32 -/

theorem toInt32_of_range (v : Int) (h0 : -2 ^ 31 ≤ v) (h1 : v < 2 ^ 31) : toInt32 v = v := by
  unfold toInt32
  rw [Int.emod_eq_of_lt (by omega) (by omega)]
  omega

theorem and_mask_not_31 (n : Nat) (hn : n < 2 ^ 32) : n &&& 4294967264 = n / 32 * 32 := by
  have h : n &&& 4294967264 = (n >>> 5) <<< 5 := by
    apply Nat.eq_of_testBit_eq
    intro k
    rw [Nat.testBit_and, Nat.testBit_shiftLeft, Nat.testBit_shiftRight,
      show (4294967264 : Nat) = (2 ^ 27 - 1) <<< 5 by decide, Nat.testBit_shiftLeft,
      Nat.testBit_two_pow_sub_one]
    by_cases hk : k ≥ 5
    · have e : 5 + (k - 5) = k := by omega
      by_cases hk2 : k - 5 < 27
      · simp [hk, hk2, e]
      · simp [hk, hk2, e, testBit_eq_false_of_word hn (i := k) (by omega)]
    · simp [hk]
  rw [h, Nat.shiftLeft_eq, Nat.shiftRight_eq_div_pow]

theorem toUInt32_not_31 : toUInt32 (Int.not 31) = 4294967264 := by decide

theorem toUInt32_lt (v : Int) : toUInt32 v < 2 ^ 32 := by
  unfold toUInt32
  have := Int.emod_lt_of_pos v (show (0 : Int) < 2 ^ 32 by decide)
  have := Int.emod_nonneg v (show (2 ^ 32 : Int) ≠ 0 by decide)
  omega

/-- Clearing the five low bits of any `int` gives a multiple of 32. -/
theorem dvd_and32_not_31 (v : Int) : 32 ∣ and32 v (Int.not 31) := by
  unfold and32
  rw [toUInt32_not_31, and_mask_not_31 _ (toUInt32_lt v)]
  unfold toInt32
  omega

/-- On a non-negative `int`, `& ~31` subtracts the remainder modulo 32. -/
theorem and32_not_31_of_nonneg (v : Int) (h0 : 0 ≤ v) (h1 : v < 2 ^ 31) :
    and32 v (Int.not 31) = v / 32 * 32 := by
  unfold and32
  rw [toUInt32_not_31, and_mask_not_31 _ (toUInt32_lt v)]
  have e : toUInt32 v = v.toNat := by
    unfold toUInt32
    rw [Int.emod_eq_of_lt h0 (by omega)]
  rw [e, toInt32_of_range _ (by omega) (by omega)]
  omega

/-- The value of `ceilMultipleOf32` where `x + 32` does not overflow. -/
theorem ceilMultipleOf32_eq (x : Int) (h0 : 0 ≤ x) (h1 : x ≤ 2 ^ 31 - 33) :
    ceilMultipleOf32 x = (x + 31) / 32 * 32 := by
  unfold ceilMultipleOf32
  rw [Int.tmod_eq_emod h0 (by decide)]
  split
  · omega
  · rw [toInt32_of_range _ (by omega) (by omega), and32_not_31_of_nonneg _ (by omega) (by omega)]
    omega

/-- Whatever its argument, a result of `ceilMultipleOf32` is a multiple of 32. -/
theorem dvd_ceilMultipleOf32 (x : Int) : 32 ∣ ceilMultipleOf32 x := by
  unfold ceilMultipleOf32
  split
  · next h0 => exact Int.dvd_of_tmod_eq_zero h0
  · exact dvd_and32_not_31 _

theorem centerCellsOnScreen_frame (fl : FloatOps F) (s : State F) :
    (centerCellsOnScreen fl s).numCellsX = s.numCellsX ∧
    (centerCellsOnScreen fl s).numCellsY = s.numCellsY ∧
    (centerCellsOnScreen fl s).generation = s.generation ∧
    (centerCellsOnScreen fl s).maxTextureSize = s.maxTextureSize ∧
    (centerCellsOnScreen fl s).cellsRead = s.cellsRead ∧
    (centerCellsOnScreen fl s).cellsWrite = s.cellsWrite ∧
    (centerCellsOnScreen fl s).cellsReadFramebuffer = s.cellsReadFramebuffer ∧
    (centerCellsOnScreen fl s).cellsWriteFramebuffer = s.cellsWriteFramebuffer ∧
    (centerCellsOnScreen fl s).textures = s.textures ∧
    (centerCellsOnScreen fl s).attachment = s.attachment := by
  unfold centerCellsOnScreen
  simp only []
  split
  · exact ⟨rfl, rfl, rfl, rfl, rfl, rfl, rfl, rfl, rfl, rfl⟩
  · split <;> exact ⟨rfl, rfl, rfl, rfl, rfl, rfl, rfl, rfl, rfl, rfl⟩

/-- The state after a `setCells` that passes both size tests. -/
theorem setCells_of_accepted (fl : FloatOps F) (s : State F) (cells : List Nat) (width height : Int)
    (hw : 1 ≤ ceilMultipleOf32 width) (hh : 1 ≤ ceilMultipleOf32 height)
    (hwM : ceilMultipleOf32 width ≤ s.maxTextureSize)
    (hhM : ceilMultipleOf32 height ≤ s.maxTextureSize) :
    setCells fl s cells width height
      = centerCellsOnScreen fl { s with
          numCellsX := ceilMultipleOf32 width
          numCellsY := ceilMultipleOf32 height
          textures := Function.update
            (Function.update s.textures s.cellsWrite
              (glTexImage2D (ceilMultipleOf32 width) (Int.tdiv (ceilMultipleOf32 height) 32) none))
            s.cellsRead
            (glTexImage2D (ceilMultipleOf32 width) (Int.tdiv (ceilMultipleOf32 height) 32)
              (some (setCellsPack cells width height (ceilMultipleOf32 width)
                (List.replicate
                  ((ceilMultipleOf32 width).toNat * (ceilMultipleOf32 height).toNat) 0))))
          generation := 0 } := by
  unfold setCells
  simp only []
  rw [if_neg (by omega), if_neg (by omega)]

/-- C4: for `1 <= x <= 2^31 - 33`, `ceilMultipleOf32 x` is the least multiple
of 32 that is at least `x` (divisible by 32, `>= x`, `< x + 32`, below every
other such multiple); a `setCells` that passes both size tests sets
`(numCellsX, numCellsY)` to the rounded width and height; a 33 x 40 request
rounds to `(64, 64)`. -/
theorem ceilMultipleOf32_least_multiple (fl : FloatOps F) (x : Int) (h1 : 1 ≤ x)
    (h2 : x ≤ 2 ^ 31 - 33) (s : State F) (cells : List Nat) (width height : Int)
    (hw : 1 ≤ ceilMultipleOf32 width) (hh : 1 ≤ ceilMultipleOf32 height)
    (hwM : ceilMultipleOf32 width ≤ s.maxTextureSize)
    (hhM : ceilMultipleOf32 height ≤ s.maxTextureSize) :
    (32 ∣ ceilMultipleOf32 x ∧ x ≤ ceilMultipleOf32 x ∧ ceilMultipleOf32 x < x + 32 ∧
      ∀ m : Int, 32 ∣ m → x ≤ m → ceilMultipleOf32 x ≤ m) ∧
    ((setCells fl s cells width height).numCellsX = ceilMultipleOf32 width ∧
      (setCells fl s cells width height).numCellsY = ceilMultipleOf32 height) ∧
    (ceilMultipleOf32 33 = 64 ∧ ceilMultipleOf32 40 = 64) ∧
    (64 ≤ s.maxTextureSize →
      (setCells fl s cells 33 40).numCellsX = 64 ∧ (setCells fl s cells 33 40).numCellsY = 64) := by
  have h33 : ceilMultipleOf32 33 = 64 := by decide
  have h40 : ceilMultipleOf32 40 = 64 := by decide
  refine ⟨?_, ?_, ⟨h33, h40⟩, ?_⟩
  rotate_left 2
  · intro hM
    rw [setCells_of_accepted fl s cells 33 40 (by rw [h33]; decide) (by rw [h40]; decide)
      (by rw [h33]; exact hM) (by rw [h40]; exact hM)]
    rw [(centerCellsOnScreen_frame fl _).1, (centerCellsOnScreen_frame fl _).2.1]
    exact ⟨h33, h40⟩
  · rw [ceilMultipleOf32_eq x (by omega) h2]
    refine ⟨Dvd.intro_left _ rfl, by omega, by omega, ?_⟩
    intro m hm hxm
    obtain ⟨k, rfl⟩ := hm
    omega
  · rw [setCells_of_accepted fl s cells width height hw hh hwM hhM]
    exact ⟨(centerCellsOnScreen_frame fl _).1, (centerCellsOnScreen_frame fl _).2.1⟩

/-- Instance of C4: the 33 x 40 request on a grid whose limit is 1024. -/
theorem ceilMultipleOf32_least_multiple_witness :
    ((1 : Int) ≤ 33 ∧ (33 : Int) ≤ 2 ^ 31 - 33) ∧
    (1 ≤ ceilMultipleOf32 33 ∧ 1 ≤ ceilMultipleOf32 40 ∧
      ceilMultipleOf32 33 ≤ lastColumnState.maxTextureSize ∧
      ceilMultipleOf32 40 ≤ lastColumnState.maxTextureSize) ∧
    64 ≤ lastColumnState.maxTextureSize ∧
    (setCells ratOps lastColumnState (List.replicate 1320 0) 33 40).numCellsX = 64 ∧
    (setCells ratOps lastColumnState (List.replicate 1320 0) 33 40).numCellsY = 64 :=
  ⟨⟨by decide, by decide⟩, ⟨by decide, by decide, by decide, by decide⟩, by decide,
    (ceilMultipleOf32_least_multiple ratOps 33 (by decide) (by decide) lastColumnState
      (List.replicate 1320 0) 33 40 (by decide) (by decide) (by decide) (by decide)).2.2.2
      (by decide)⟩

/-! ## C5: a request that is too large changes nothing -/

/-- C5: when the rounded width or the rounded height exceeds `maxTextureSize`,
`setCells` returns the state it was given: `numCellsX`, `numCellsY`,
`generation`, both cell textures and the view transform are unchanged. -/
theorem setCells_too_large_unchanged (fl : FloatOps F) (s : State F) (cells : List Nat)
    (width height : Int)
    (h : ceilMultipleOf32 width > s.maxTextureSize ∨ ceilMultipleOf32 height > s.maxTextureSize) :
    setCells fl s cells width height = s := by
  unfold setCells
  simp only []
  by_cases h1 : ceilMultipleOf32 width < 1 ∨ ceilMultipleOf32 height < 1
  · rw [if_pos h1]
  · rw [if_neg h1, if_pos h]

/-- Instance of C5: a 2000 x 8 request where the limit is 1024. -/
theorem setCells_too_large_unchanged_witness :
    (ceilMultipleOf32 2000 > lastColumnState.maxTextureSize ∨
      ceilMultipleOf32 8 > lastColumnState.maxTextureSize) ∧
    setCells ratOps lastColumnState (List.replicate 16000 1) 2000 8 = lastColumnState :=
  ⟨by decide, setCells_too_large_unchanged ratOps lastColumnState (List.replicate 16000 1) 2000 8
    (by decide)⟩

/-! ## C6: the generation counter -/

theorem updateCells_generation (s : State F) :
    (updateCells s).generation = toInt32 (s.generation + 1) := rfl

theorem iterate_updateCells_generation (s : State F) (k : Nat) (h0 : -2 ^ 31 ≤ s.generation)
    (h1 : s.generation + k < 2 ^ 31) :
    (updateCells^[k] s).generation = s.generation + k := by
  induction k with
  | zero => simp
  | succ k ih =>
    rw [Function.iterate_succ_apply', updateCells_generation, ih (by omega),
      toInt32_of_range _ (by omega) (by omega)]
    omega

theorem setCells_generation (fl : FloatOps F) (s : State F) (cells : List Nat) (width height : Int)
    (hw : 1 ≤ ceilMultipleOf32 width) (hh : 1 ≤ ceilMultipleOf32 height)
    (hwM : ceilMultipleOf32 width ≤ s.maxTextureSize)
    (hhM : ceilMultipleOf32 height ≤ s.maxTextureSize) :
    (setCells fl s cells width height).generation = 0 := by
  rw [setCells_of_accepted fl s cells width height hw hh hwM hhM]
  exact (centerCellsOnScreen_frame fl _).2.2.1

/-- C6 (as amended): a `setCells` that passes both size tests sets
`generation` to 0; one `updateCells` adds exactly 1 and the step loop with
`updatesPerFrame = n >= 0` adds exactly `n`, as long as the counter stays in
the range of `int`; after a load followed by `k < 2^31` calls of `updateCells`
the counter is `k`, which is not negative. -/
theorem generation_counts_steps (fl : FloatOps F) (s : State F) (cells : List Nat)
    (width height : Int)
    (hw : 1 ≤ ceilMultipleOf32 width) (hh : 1 ≤ ceilMultipleOf32 height)
    (hwM : ceilMultipleOf32 width ≤ s.maxTextureSize)
    (hhM : ceilMultipleOf32 height ≤ s.maxTextureSize)
    (t : State F) (n : Int) (hn : 0 ≤ n) (ht0 : -2 ^ 31 ≤ t.generation)
    (ht1 : t.generation + n < 2 ^ 31) (k : Nat) (hk : (k : Int) < 2 ^ 31) :
    (setCells fl s cells width height).generation = 0 ∧
    (t.generation + 1 < 2 ^ 31 → (updateCells t).generation = t.generation + 1) ∧
    (stepLoop n t).generation = t.generation + n ∧
    (updateCells^[k] (setCells fl s cells width height)).generation = k ∧
    0 ≤ (updateCells^[k] (setCells fl s cells width height)).generation := by
  have h0 := setCells_generation fl s cells width height hw hh hwM hhM
  have hk' := iterate_updateCells_generation (setCells fl s cells width height) k
    (by rw [h0]; decide) (by rw [h0]; omega)
  rw [h0, Int.zero_add] at hk'
  refine ⟨h0, ?_, ?_, hk', by rw [hk']; omega⟩
  · intro h
    rw [updateCells_generation, toInt32_of_range _ (by omega) h]
  · unfold stepLoop
    rw [iterate_updateCells_generation t n.toNat ht0 (by omega)]
    omega

/-- Instance of C6: loading a 3 x 3 pattern into `lastColumnState`, then 5 steps. -/
theorem generation_counts_steps_witness :
    (1 ≤ ceilMultipleOf32 3 ∧ ceilMultipleOf32 3 ≤ lastColumnState.maxTextureSize) ∧
    ((0 : Int) ≤ 4 ∧ -2 ^ 31 ≤ lastColumnState.generation ∧
      lastColumnState.generation + 4 < 2 ^ 31 ∧ ((5 : Nat) : Int) < 2 ^ 31) ∧
    (stepLoop 4 lastColumnState).generation = lastColumnState.generation + 4 ∧
    (updateCells^[5] (setCells ratOps lastColumnState [0, 1, 0, 0, 1, 0, 0, 1, 0] 3 3)).generation
      = (5 : Nat) :=
  ⟨⟨by decide, by decide⟩, ⟨by decide, by decide, by decide, by decide⟩,
    (generation_counts_steps ratOps lastColumnState [0, 1, 0, 0, 1, 0, 0, 1, 0] 3 3
      (by decide) (by decide) (by decide) (by decide) lastColumnState 4 (by decide) (by decide)
      (by decide) 5 (by decide)).2.2.1,
    (generation_counts_steps ratOps lastColumnState [0, 1, 0, 0, 1, 0, 0, 1, 0] 3 3
      (by decide) (by decide) (by decide) (by decide) lastColumnState 4 (by decide) (by decide)
      (by decide) 5 (by decide)).2.2.2.1⟩

/-! ## C7: the double-buffer invariant -/

theorem setCells_labels (fl : FloatOps F) (s : State F) (cells : List Nat) (width height : Int) :
    (setCells fl s cells width height).cellsRead = s.cellsRead ∧
    (setCells fl s cells width height).cellsWrite = s.cellsWrite ∧
    (setCells fl s cells width height).cellsReadFramebuffer = s.cellsReadFramebuffer ∧
    (setCells fl s cells width height).cellsWriteFramebuffer = s.cellsWriteFramebuffer ∧
    (setCells fl s cells width height).attachment = s.attachment ∧
    (setCells fl s cells width height).maxTextureSize = s.maxTextureSize := by
  unfold setCells
  simp only []
  split
  · exact ⟨rfl, rfl, rfl, rfl, rfl, rfl⟩
  · split
    · exact ⟨rfl, rfl, rfl, rfl, rfl, rfl⟩
    · have h := centerCellsOnScreen_frame fl { s with
        numCellsX := ceilMultipleOf32 width
        numCellsY := ceilMultipleOf32 height
        textures := Function.update
          (Function.update s.textures s.cellsWrite
            (glTexImage2D (ceilMultipleOf32 width) (Int.tdiv (ceilMultipleOf32 height) 32) none))
          s.cellsRead
          (glTexImage2D (ceilMultipleOf32 width) (Int.tdiv (ceilMultipleOf32 height) 32)
            (some (setCellsPack cells width height (ceilMultipleOf32 width)
              (List.replicate
                ((ceilMultipleOf32 width).toNat * (ceilMultipleOf32 height).toNat) 0))))
        generation := 0 }
      exact ⟨h.2.2.2.2.1, h.2.2.2.2.2.1, h.2.2.2.2.2.2.1, h.2.2.2.2.2.2.2.1, h.2.2.2.2.2.2.2.2.2,
        h.2.2.2.1⟩

theorem mainCreateGrid_labels (fl : FloatOps F) (windowWidth windowHeight maxTextureSize : Int) :
    (mainCreateGrid fl windowWidth windowHeight maxTextureSize).cellsRead = 1 ∧
    (mainCreateGrid fl windowWidth windowHeight maxTextureSize).cellsWrite = 2 ∧
    (mainCreateGrid fl windowWidth windowHeight maxTextureSize).cellsReadFramebuffer = 1 ∧
    (mainCreateGrid fl windowWidth windowHeight maxTextureSize).cellsWriteFramebuffer = 2 ∧
    (mainCreateGrid fl windowWidth windowHeight maxTextureSize).attachment 1 = 1 ∧
    (mainCreateGrid fl windowWidth windowHeight maxTextureSize).attachment 2 = 2 ∧
    (mainCreateGrid fl windowWidth windowHeight maxTextureSize).maxTextureSize = maxTextureSize :=
  ⟨rfl, rfl, rfl, rfl, rfl, rfl, rfl⟩

theorem doubleBuffered_mainInit (fl : FloatOps F) (windowWidth windowHeight maxTextureSize : Int) :
    DoubleBuffered (mainInit fl windowWidth windowHeight maxTextureSize) := by
  obtain ⟨-, -, -, -, h1, h2, h3, h4, -, h5⟩ := centerCellsOnScreen_frame fl
    (clearCells (mainCreateGrid fl windowWidth windowHeight maxTextureSize))
  unfold DoubleBuffered mainInit
  rw [h1, h2, h3, h4, h5]
  exact ⟨fun h => absurd h (by decide : (1 : Nat) ≠ 2), rfl, rfl⟩

theorem doubleBuffered_updateCells (s : State F) (h : DoubleBuffered s) :
    DoubleBuffered (updateCells s) := by
  obtain ⟨h1, h2, h3⟩ := h
  exact ⟨fun e => h1 e.symm, h3, h2⟩

theorem doubleBuffered_of_reachable (fl : FloatOps F) (s : State F) (hr : Reachable fl s) :
    DoubleBuffered s := by
  induction hr with
  | start ww wh M => exact doubleBuffered_mainInit fl ww wh M
  | @setCells s cells width height _ ih =>
    obtain ⟨e1, e2, e3, e4, e5, -⟩ := setCells_labels fl s cells width height
    unfold DoubleBuffered
    rw [e1, e2, e3, e4, e5]
    exact ih
  | clearCells _ ih => exact ih
  | updateCells _ ih => exact doubleBuffered_updateCells _ ih
  | @mouseButton s x y value _ ih =>
    unfold onMouseButtonEdit
    split
    · exact ih
    · exact ih
  | @mouseMove s x y value _ ih =>
    unfold onMouseMoveEdit
    split
    · exact ih
    · exact ih

theorem updateCells_textures_of_ne (s : State F) (h : DoubleBuffered s) (n : Nat)
    (hn : n ≠ s.cellsWrite) : (updateCells s).textures n = s.textures n := by
  obtain ⟨-, -, h3⟩ := h
  show Function.update s.textures (s.attachment s.cellsWriteFramebuffer) _ n = _
  rw [h3, Function.update_noteq hn]

/-- C7: in every state reachable from start-up by `setCells`, `clearCells`,
`updateCells` and cell edits, `cellsRead` and `cellsWrite` name different
textures and each framebuffer label names the framebuffer attached to its
texture.  `updateCells` changes no texture but the one named `cellsWrite`, in
particular not the one named `cellsRead`; it then exchanges the two pairs of
labels, so that the new current buffer is the texture just drawn, and a second
`updateCells` returns the four labels to their original objects. -/
theorem double_buffer_invariant (fl : FloatOps F) (s : State F) (hr : Reachable fl s) :
    DoubleBuffered s ∧
    (∀ n, n ≠ s.cellsWrite → (updateCells s).textures n = s.textures n) ∧
    (updateCells s).textures s.cellsRead = s.textures s.cellsRead ∧
    ((updateCells s).cellsRead = s.cellsWrite ∧ (updateCells s).cellsWrite = s.cellsRead ∧
      (updateCells s).cellsReadFramebuffer = s.cellsWriteFramebuffer ∧
      (updateCells s).cellsWriteFramebuffer = s.cellsReadFramebuffer ∧
      (updateCells s).attachment = s.attachment) ∧
    (updateCells s).textures (updateCells s).cellsRead
      = drawUpdate (s.textures s.cellsRead) (s.textures s.cellsWrite)
          s.numCellsX.toNat (Int.tdiv s.numCellsY 32).toNat ∧
    ((updateCells (updateCells s)).cellsRead = s.cellsRead ∧
      (updateCells (updateCells s)).cellsWrite = s.cellsWrite ∧
      (updateCells (updateCells s)).cellsReadFramebuffer = s.cellsReadFramebuffer ∧
      (updateCells (updateCells s)).cellsWriteFramebuffer = s.cellsWriteFramebuffer) := by
  have hd := doubleBuffered_of_reachable fl s hr
  exact ⟨hd, updateCells_textures_of_ne s hd, updateCells_textures_of_ne s hd _ hd.1,
    ⟨rfl, rfl, rfl, rfl, rfl⟩, updateCells_current s hd, ⟨rfl, rfl, rfl, rfl⟩⟩

/-- Instance of C7: the state after start-up, a load, a step and an edit. -/
theorem double_buffer_invariant_witness :
    Reachable ratOps (onMouseButtonEdit (updateCells
      (setCells ratOps (mainInit ratOps 1280 720 16384) [0, 1, 0, 0, 1, 0, 0, 1, 0] 3 3)) 1 1 255) ∧
    DoubleBuffered (onMouseButtonEdit (updateCells
      (setCells ratOps (mainInit ratOps 1280 720 16384) [0, 1, 0, 0, 1, 0, 0, 1, 0] 3 3)) 1 1 255) :=
  ⟨Reachable.mouseButton 1 1 255 (Reachable.updateCells
      (Reachable.setCells [0, 1, 0, 0, 1, 0, 0, 1, 0] 3 3 (Reachable.start 1280 720 16384))),
    (double_buffer_invariant ratOps _ (Reachable.mouseButton 1 1 255 (Reachable.updateCells
      (Reachable.setCells [0, 1, 0, 0, 1, 0, 0, 1, 0] 3 3 (Reachable.start 1280 720 16384))))).1⟩

/-! ## C8: writing a single cell -/

theorem shl32_one (k : Nat) (hk : k < 32) : shl32 1 k = 2 ^ k := by
  unfold shl32
  rw [Nat.one_shiftLeft]
  exact Nat.mod_eq_of_lt (Nat.pow_lt_pow_right (by decide) hk)

theorem and_31 (y : Nat) : y &&& 31 = y % 32 :=
  Nat.and_pow_two_sub_one_eq_mod y 5

theorem texel_index_lt (t : Texture) (x y : Nat) (hx : x < t.width) (hy : y < t.height) :
    y * t.width + x < t.width * t.height := by
  calc y * t.width + x < y * t.width + t.width := by omega
    _ = (y + 1) * t.width := by ring
    _ ≤ t.height * t.width := Nat.mul_le_mul_right _ hy
    _ = t.width * t.height := by ring

theorem texel_index_inj (W x y x2 y2 : Nat) (hx : x < W) (hx2 : x2 < W)
    (h : y * W + x = y2 * W + x2) : x = x2 ∧ y = y2 := by
  have e1 : (y * W + x) % W = x := by
    rw [Nat.add_comm, Nat.add_mul_mod_self_right, Nat.mod_eq_of_lt hx]
  have e2 : (y2 * W + x2) % W = x2 := by
    rw [Nat.add_comm, Nat.add_mul_mod_self_right, Nat.mod_eq_of_lt hx2]
  have e3 : (y * W + x) / W = y := by
    rw [Nat.add_comm, Nat.add_mul_div_right _ _ (by omega), Nat.div_eq_of_lt hx, Nat.zero_add]
  have e4 : (y2 * W + x2) / W = y2 := by
    rw [Nat.add_comm, Nat.add_mul_div_right _ _ (by omega), Nat.div_eq_of_lt hx2, Nat.zero_add]
  rw [h] at e1 e3
  exact ⟨e1.symm.trans e2, e3.symm.trans e4⟩

theorem getD_set (l : List Nat) (i k w : Nat) :
    (l.set i w).getD k 0 = if i = k ∧ i < l.length then w else l.getD k 0 := by
  rw [List.getD_eq_getElem?_getD, List.getD_eq_getElem?_getD, List.getElem?_set]
  by_cases h : i = k
  · subst h
    by_cases h2 : i < l.length
    · simp [h2]
    · simp [h2, List.getElem?_eq_none (Nat.le_of_not_lt h2)]
  · simp [h]

theorem texel_setTexel_same (t : Texture) (x y w : Nat) (hx : x < t.width) (hy : y < t.height)
    (hl : t.texels.length = t.width * t.height) : (t.setTexel x y w).texel x y = w := by
  unfold Texture.setTexel
  rw [if_pos ⟨hx, hy⟩]
  unfold Texture.texel
  simp only []
  rw [if_pos ⟨hx, hy⟩, getD_set, if_pos ⟨rfl, by rw [hl]; exact texel_index_lt t x y hx hy⟩]

theorem texel_setTexel_other (t : Texture) (x y w x2 y2 : Nat) (h : (x2, y2) ≠ (x, y)) :
    (t.setTexel x y w).texel x2 y2 = t.texel x2 y2 := by
  unfold Texture.setTexel
  split
  · next hg =>
    unfold Texture.texel
    simp only []
    split
    · next hg2 =>
      rw [getD_set, if_neg]
      rintro ⟨e, -⟩
      obtain ⟨e1, e2⟩ := texel_index_inj t.width x y x2 y2 hg.1 hg2.1 e
      exact h (by rw [e1, e2])
    · rfl
  · rfl

theorem testBit_or_two_pow (w k i : Nat) :
    (w ||| 2 ^ k).testBit i = (w.testBit i || decide (k = i)) := by
  rw [Nat.testBit_or, Nat.testBit_two_pow]

theorem testBit_and_not32_two_pow (w k i : Nat) (hw : w < 2 ^ 32) :
    (w &&& not32 (2 ^ k)).testBit i = (w.testBit i && !decide (k = i)) := by
  rw [Nat.testBit_and, testBit_not32, Nat.testBit_two_pow]
  by_cases hi : i < 32
  · simp [hi]
  · simp [hi, testBit_eq_false_of_word hw (i := i) (by omega)]

/-- The word `writeCellColumn` stores, bit by bit. -/
theorem testBit_edited_word (w k value i : Nat) (hw : w < 2 ^ 32) (hk : k < 32) :
    (if value ≠ 0 then w ||| shl32 1 k else w &&& not32 (shl32 1 k)).testBit i
      = if i = k then decide (value ≠ 0) else w.testBit i := by
  rw [shl32_one k hk]
  by_cases hv : value ≠ 0
  · rw [if_pos hv, testBit_or_two_pow]
    by_cases hik : i = k
    · subst hik; simp [hv]
    · have : ¬ k = i := fun e => hik e.symm
      simp [hik, this]
  · rw [if_neg hv, testBit_and_not32_two_pow _ _ _ hw]
    by_cases hik : i = k
    · subst hik; simp [hv]
    · have : ¬ k = i := fun e => hik e.symm
      simp [hik, this]

theorem texel_lt (t : Texture) (h : ∀ w ∈ t.texels, w < 2 ^ 32) (x y : Nat) :
    t.texel x y < 2 ^ 32 := by
  unfold Texture.texel
  split
  · exact getD_lt_of_forall_mem _ _ (by decide) h _
  · decide

/-- The edit of an in-range cell, as a change of one texel of the current buffer. -/
theorem onMouseButtonEdit_of_inRange (s : State F) (hd : DoubleBuffered s) (x y value : Nat)
    (hx : (x : Int) < s.numCellsX) (hy : (y : Int) < s.numCellsY) :
    onMouseButtonEdit s x y value
      = { s with
          textures := Function.update s.textures s.cellsRead
            ((s.textures s.cellsRead).setTexel x (y / 32)
              (if value ≠ 0 then (s.textures s.cellsRead).texel x (y / 32) ||| shl32 1 (y % 32)
               else (s.textures s.cellsRead).texel x (y / 32) &&& not32 (shl32 1 (y % 32)))) } := by
  unfold onMouseButtonEdit
  rw [if_pos ⟨by omega, hx, by omega, hy⟩]
  unfold writeCellColumn
  simp only [Int.toNat_ofNat, and_31, hd.2.1]

/-- C8: for every in-range cell `(x, y)` and every value, the edit of
`onMouseButton` makes bit `y mod 32` of the current-buffer word at
`(x, y / 32)` equal to the value (reading the cell back gives it), leaves
every other bit of that word, every other word of the current buffer, the next
buffer, the labels and `generation` unchanged; the edit of one pass of the line
loop of `onMouseMove` is the same edit.  Lane 31 is not special. -/
theorem onMouseButtonEdit_writes_single_cell (s : State F) (hs : WellFormed s) (x y value : Nat)
    (hx : (x : Int) < s.numCellsX) (hy : (y : Int) < s.numCellsY) :
    cellAlive (onMouseButtonEdit s x y value) x y = decide (value ≠ 0) ∧
    (∀ i, i ≠ y % 32 →
      (((onMouseButtonEdit s x y value).textures
          (onMouseButtonEdit s x y value).cellsRead).texel x (y / 32)).testBit i
        = ((s.textures s.cellsRead).texel x (y / 32)).testBit i) ∧
    (∀ x2 y2, (x2, y2) ≠ (x, y / 32) →
      ((onMouseButtonEdit s x y value).textures
          (onMouseButtonEdit s x y value).cellsRead).texel x2 y2
        = (s.textures s.cellsRead).texel x2 y2) ∧
    (onMouseButtonEdit s x y value).textures (onMouseButtonEdit s x y value).cellsWrite
      = s.textures s.cellsWrite ∧
    (onMouseButtonEdit s x y value).cellsRead = s.cellsRead ∧
    (onMouseButtonEdit s x y value).cellsWrite = s.cellsWrite ∧
    (onMouseButtonEdit s x y value).generation = s.generation ∧
    onMouseMoveEdit s x y value = onMouseButtonEdit s x y value := by
  obtain ⟨hd, ⟨hW, hH, hL⟩, -, hb⟩ := hs
  have hxw : x < (s.textures s.cellsRead).width := by omega
  have hyh : y / 32 < (s.textures s.cellsRead).height := by omega
  have hk : y % 32 < 32 := Nat.mod_lt _ (by decide)
  have hw := texel_lt _ hb x (y / 32)
  have hmove : onMouseMoveEdit s x y value = onMouseButtonEdit s x y value := rfl
  rw [hmove, onMouseButtonEdit_of_inRange s hd x y value hx hy]
  refine ⟨?_, ?_, ?_, ?_, rfl, rfl, rfl, rfl⟩
  · unfold cellAlive
    simp only [Function.update_same]
    rw [texel_setTexel_same _ _ _ _ hxw hyh hL, testBit_edited_word _ _ _ _ hw hk, if_pos rfl]
  · intro i hi
    simp only [Function.update_same]
    rw [texel_setTexel_same _ _ _ _ hxw hyh hL, testBit_edited_word _ _ _ _ hw hk, if_neg hi]
  · intro x2 y2 h
    simp only [Function.update_same]
    exact texel_setTexel_other _ _ _ _ _ _ h
  · exact Function.update_noteq (fun e => hd.1 e.symm) _ _

/-- Instance of C8: setting cell `(3, 31)` of `lastColumnState`. -/
theorem onMouseButtonEdit_writes_single_cell_witness :
    WellFormed lastColumnState ∧ ((3 : Nat) : Int) < lastColumnState.numCellsX ∧
    ((31 : Nat) : Int) < lastColumnState.numCellsY ∧
    cellAlive (onMouseButtonEdit lastColumnState (3 : Nat) (31 : Nat) 255) 3 31
      = decide (255 ≠ 0) :=
  ⟨by decide, by decide, by decide,
    (onMouseButtonEdit_writes_single_cell lastColumnState (by decide) 3 31 255 (by decide)
      (by decide)).1⟩

/-! ## C9: edits are idempotent -/

theorem set_getD_self (l : List Nat) (i : Nat) : l.set i (l.getD i 0) = l := by
  by_cases h : i < l.length
  · apply List.ext_getElem?
    intro k
    rw [List.getElem?_set]
    by_cases hk : i = k
    · subst hk
      rw [if_pos rfl, if_pos h, List.getD_eq_getElem l 0 h, List.getElem?_eq_getElem h]
    · rw [if_neg hk]
  · exact List.set_eq_of_length_le (Nat.le_of_not_lt h)

theorem setTexel_texel_self (t : Texture) (x y : Nat) : t.setTexel x y (t.texel x y) = t := by
  unfold Texture.setTexel Texture.texel
  split
  · next h => rw [set_getD_self]
  · rfl

theorem setTexel_setTexel (t : Texture) (x y a b : Nat) :
    (t.setTexel x y a).setTexel x y b = t.setTexel x y b := by
  unfold Texture.setTexel
  by_cases h : x < t.width ∧ y < t.height
  · simp only [if_pos h, List.set_set]
  · simp only [if_neg h]

theorem or_two_pow_idem (w k : Nat) : (w ||| 2 ^ k) ||| 2 ^ k = w ||| 2 ^ k := by
  rw [Nat.or_assoc, Nat.or_self]

theorem and_not32_two_pow_of_clear (w k : Nat) (hw : w < 2 ^ 32) (h : w.testBit k = false) :
    w &&& not32 (2 ^ k) = w := by
  apply Nat.eq_of_testBit_eq
  intro i
  rw [testBit_and_not32_two_pow _ _ _ hw]
  by_cases hik : k = i
  · subst hik; simp [h]
  · simp [hik]

/-- C9: for every well-formed state and every in-range cell, setting the cell
alive twice in a row leaves exactly the state that setting it alive once
leaves, and setting dead a cell that is already dead leaves the state exactly
as it was. -/
theorem edit_idempotent (s : State F) (hs : WellFormed s) (x y value : Nat)
    (hx : (x : Int) < s.numCellsX) (hy : (y : Int) < s.numCellsY) (hv : value ≠ 0) :
    onMouseButtonEdit (onMouseButtonEdit s x y value) x y value = onMouseButtonEdit s x y value ∧
    (cellAlive s x y = false → onMouseButtonEdit s x y 0 = s) := by
  obtain ⟨hd, ⟨hW, hH, hL⟩, -, hb⟩ := hs
  have hxw : x < (s.textures s.cellsRead).width := by omega
  have hyh : y / 32 < (s.textures s.cellsRead).height := by omega
  have hk : y % 32 < 32 := Nat.mod_lt _ (by decide)
  have hw := texel_lt _ hb x (y / 32)
  constructor
  · have hd1 : DoubleBuffered (onMouseButtonEdit s x y value) := by
      rw [onMouseButtonEdit_of_inRange s hd x y value hx hy]
      exact hd
    have hx1 : (x : Int) < (onMouseButtonEdit s x y value).numCellsX := by
      rw [onMouseButtonEdit_of_inRange s hd x y value hx hy]
      exact hx
    have hy1 : (y : Int) < (onMouseButtonEdit s x y value).numCellsY := by
      rw [onMouseButtonEdit_of_inRange s hd x y value hx hy]
      exact hy
    rw [onMouseButtonEdit_of_inRange _ hd1 x y value hx1 hy1]
    rw [onMouseButtonEdit_of_inRange s hd x y value hx hy]
    simp only [Function.update_same, Function.update_idem, if_pos hv, setTexel_setTexel]
    rw [texel_setTexel_same _ _ _ _ hxw hyh hL, shl32_one _ hk, or_two_pow_idem]
  · intro hdead
    rw [onMouseButtonEdit_of_inRange s hd x y 0 hx hy]
    have h0 : ¬ ((0 : Nat) ≠ 0) := by simp
    rw [if_neg h0, shl32_one _ hk, and_not32_two_pow_of_clear _ _ hw hdead, setTexel_texel_self,
      Function.update_eq_self]

/-- Instance of C9: cell `(3, 31)` of `lastColumnState`, which is dead. -/
theorem edit_idempotent_witness :
    WellFormed lastColumnState ∧ ((3 : Nat) : Int) < lastColumnState.numCellsX ∧
    ((31 : Nat) : Int) < lastColumnState.numCellsY ∧ (255 : Nat) ≠ 0 ∧
    cellAlive lastColumnState 3 31 = false ∧
    onMouseButtonEdit (onMouseButtonEdit lastColumnState (3 : Nat) (31 : Nat) 255)
        (3 : Nat) (31 : Nat) 255
      = onMouseButtonEdit lastColumnState (3 : Nat) (31 : Nat) 255 ∧
    onMouseButtonEdit lastColumnState (3 : Nat) (31 : Nat) 0 = lastColumnState :=
  ⟨by decide, by decide, by decide, by decide, by decide,
    (edit_idempotent lastColumnState (by decide) 3 31 255 (by decide) (by decide) (by decide)).1,
    (edit_idempotent lastColumnState (by decide) 3 31 255 (by decide) (by decide) (by decide)).2
      (by decide)⟩

/-! ## C10: edits outside the grid -/

/-- C10: for every integer cell coordinate outside the grid (`x < 0`,
`x >= numCellsX`, `y < 0` or `y >= numCellsY`) the edit of `onMouseButton` and
the edit of one pass of the line loop of `onMouseMove` return the state they
were given: no word of either buffer changes, nor does `generation`. -/
theorem edit_out_of_range_ignored (s : State F) (x y : Int) (value : Nat)
    (h : x < 0 ∨ x ≥ s.numCellsX ∨ y < 0 ∨ y ≥ s.numCellsY) :
    onMouseButtonEdit s x y value = s ∧ onMouseMoveEdit s x y value = s := by
  have hc : ¬ (x ≥ 0 ∧ x < s.numCellsX ∧ y ≥ 0 ∧ y < s.numCellsY) := by omega
  unfold onMouseButtonEdit onMouseMoveEdit
  exact ⟨if_neg hc, if_neg hc⟩

/-- Instance of C10: the cell `(32, 5)` just right of the 32 x 32 grid. -/
theorem edit_out_of_range_ignored_witness :
    ((32 : Int) < 0 ∨ (32 : Int) ≥ lastColumnState.numCellsX ∨ (5 : Int) < 0 ∨
      (5 : Int) ≥ lastColumnState.numCellsY) ∧
    onMouseButtonEdit lastColumnState 32 5 255 = lastColumnState ∧
    onMouseMoveEdit lastColumnState 32 5 255 = lastColumnState :=
  ⟨by decide, edit_out_of_range_ignored lastColumnState 32 5 255 (by decide)⟩

/-! ## C3: packing a byte grid -/

/-- The current buffer after a `setCells` that passes both size tests. -/
theorem setCells_current (fl : FloatOps F) (s : State F) (cells : List Nat) (width height : Int)
    (hw : 1 ≤ ceilMultipleOf32 width) (hh : 1 ≤ ceilMultipleOf32 height)
    (hwM : ceilMultipleOf32 width ≤ s.maxTextureSize)
    (hhM : ceilMultipleOf32 height ≤ s.maxTextureSize) :
    (setCells fl s cells width height).textures (setCells fl s cells width height).cellsRead
      = glTexImage2D (ceilMultipleOf32 width) (Int.tdiv (ceilMultipleOf32 height) 32)
          (some (setCellsPack cells width height (ceilMultipleOf32 width)
            (List.replicate
              ((ceilMultipleOf32 width).toNat * (ceilMultipleOf32 height).toNat) 0))) := by
  rw [setCells_of_accepted fl s cells width height hw hh hwM hhM]
  obtain ⟨-, -, -, -, h1, -, -, -, h2, -⟩ := centerCellsOnScreen_frame fl { s with
    numCellsX := ceilMultipleOf32 width
    numCellsY := ceilMultipleOf32 height
    textures := Function.update
      (Function.update s.textures s.cellsWrite
        (glTexImage2D (ceilMultipleOf32 width) (Int.tdiv (ceilMultipleOf32 height) 32) none))
      s.cellsRead
      (glTexImage2D (ceilMultipleOf32 width) (Int.tdiv (ceilMultipleOf32 height) 32)
        (some (setCellsPack cells width height (ceilMultipleOf32 width)
          (List.replicate
            ((ceilMultipleOf32 width).toNat * (ceilMultipleOf32 height).toNat) 0))))
    generation := 0 }
  rw [h1, h2]
  exact Function.update_same _ _ _

theorem foldl_preserves {α β : Type} (P : β → Prop) (f : β → α → β)
    (h : ∀ acc x, P acc → P (f acc x)) (l : List α) (init : β) (h0 : P init) :
    P (l.foldl f init) := by
  induction l generalizing init with
  | nil => exact h0
  | cons a l ih => exact ih _ (h _ _ h0)

theorem shl32_lt (a n : Nat) : shl32 a n < 2 ^ 32 :=
  Nat.mod_lt _ (by decide)

theorem not32_lt (a : Nat) : not32 a < 2 ^ 32 :=
  Nat.xor_lt_two_pow (Nat.mod_lt _ (by decide)) (by decide)

theorem setCellsRow_words (cells : List Nat) (width cellRow cellColumn : Int) (β : Nat)
    (cols : List Nat) (h : ∀ w ∈ cols, w < 2 ^ 32) :
    ∀ w ∈ setCellsRow cells width cellRow cellColumn β cols, w < 2 ^ 32 := by
  unfold setCellsRow
  apply foldl_preserves (fun cols => ∀ w ∈ cols, w < 2 ^ 32) _ _ _ _ h
  intro acc x hacc
  split
  · intro w hw
    rcases List.mem_or_eq_of_mem_set hw with h1 | h1
    · exact hacc w h1
    · rw [h1]
      exact Nat.or_lt_two_pow (getD_lt_of_forall_mem _ _ (by decide) hacc _) (shl32_lt _ _)
  · exact hacc

theorem setCellsPack_words (cells : List Nat) (width height numCellsX : Int) (cols : List Nat)
    (h : ∀ w ∈ cols, w < 2 ^ 32) :
    ∀ w ∈ setCellsPack cells width height numCellsX cols, w < 2 ^ 32 := by
  unfold setCellsPack
  apply foldl_preserves (fun cols => ∀ w ∈ cols, w < 2 ^ 32) _ _ _ _ h
  intro acc y hacc
  exact setCellsRow_words _ _ _ _ _ _ hacc

theorem updateShaderMain_lt (n00 n10 n20 n01 n11 n21 n02 n12 n22 : Nat) :
    updateShaderMain n00 n10 n20 n01 n11 n21 n02 n12 n22 < 2 ^ 32 := by
  unfold updateShaderMain
  simp only []
  apply Nat.or_lt_two_pow
  · exact lt_of_le_of_lt (le_trans Nat.and_le_left Nat.and_le_left) (not32_lt _)
  · exact Nat.and_lt_two_pow _ (not32_lt _)

theorem glTexImage2D_sized (W H : Int) (hW : 1 ≤ W) (hH : 1 ≤ H) (hdvd : 32 ∣ H)
    (pixels : Option (List Nat)) :
    ((glTexImage2D W (Int.tdiv H 32) pixels).width : Int) = W ∧
    32 * ((glTexImage2D W (Int.tdiv H 32) pixels).height : Int) = H ∧
    (glTexImage2D W (Int.tdiv H 32) pixels).texels.length
      = (glTexImage2D W (Int.tdiv H 32) pixels).width
          * (glTexImage2D W (Int.tdiv H 32) pixels).height := by
  rw [Int.tdiv_eq_ediv (by omega) (by decide)]
  refine ⟨?_, ?_, ?_⟩
  · simp only [glTexImage2D]
    omega
  · simp only [glTexImage2D]
    omega
  · cases pixels <;> simp [glTexImage2D]

theorem glTexImage2D_words (W H : Int) (data : List Nat) (h : ∀ w ∈ data, w < 2 ^ 32) :
    ∀ w ∈ (glTexImage2D W H (some data)).texels, w < 2 ^ 32 := by
  intro w hw
  simp only [glTexImage2D, List.mem_map, List.mem_range] at hw
  obtain ⟨k, -, rfl⟩ := hw
  exact getD_lt_of_forall_mem _ _ (by decide) h _

theorem wellFormed_setCells (fl : FloatOps F) (s : State F) (cells : List Nat) (width height : Int)
    (hs : WellFormed s) : WellFormed (setCells fl s cells width height) := by
  by_cases hacc : 1 ≤ ceilMultipleOf32 width ∧ 1 ≤ ceilMultipleOf32 height ∧
      ceilMultipleOf32 width ≤ s.maxTextureSize ∧ ceilMultipleOf32 height ≤ s.maxTextureSize
  · obtain ⟨hw, hh, hwM, hhM⟩ := hacc
    obtain ⟨e1, e2, e3, e4, e5, -⟩ := setCells_labels fl s cells width height
    have hne := hs.1.1
    have hcur := setCells_current fl s cells width height hw hh hwM hhM
    have hdims : (setCells fl s cells width height).numCellsX = ceilMultipleOf32 width ∧
        (setCells fl s cells width height).numCellsY = ceilMultipleOf32 height := by
      rw [setCells_of_accepted fl s cells width height hw hh hwM hhM]
      exact ⟨(centerCellsOnScreen_frame fl _).1, (centerCellsOnScreen_frame fl _).2.1⟩
    have hnext : (setCells fl s cells width height).textures
        (setCells fl s cells width height).cellsWrite
          = glTexImage2D (ceilMultipleOf32 width) (Int.tdiv (ceilMultipleOf32 height) 32) none := by
      rw [setCells_of_accepted fl s cells width height hw hh hwM hhM]
      obtain ⟨-, -, -, -, -, h1, -, -, h2, -⟩ := centerCellsOnScreen_frame fl { s with
        numCellsX := ceilMultipleOf32 width
        numCellsY := ceilMultipleOf32 height
        textures := Function.update
          (Function.update s.textures s.cellsWrite
            (glTexImage2D (ceilMultipleOf32 width) (Int.tdiv (ceilMultipleOf32 height) 32) none))
          s.cellsRead
          (glTexImage2D (ceilMultipleOf32 width) (Int.tdiv (ceilMultipleOf32 height) 32)
            (some (setCellsPack cells width height (ceilMultipleOf32 width)
              (List.replicate
                ((ceilMultipleOf32 width).toNat * (ceilMultipleOf32 height).toNat) 0))))
        generation := 0 }
      rw [h1, h2]
      show Function.update (Function.update s.textures s.cellsWrite _) s.cellsRead _ s.cellsWrite = _
      rw [Function.update_noteq (fun e => hne e.symm), Function.update_same]
    refine ⟨?_, ?_, ?_, ?_⟩
    · unfold DoubleBuffered
      rw [e1, e2, e3, e4, e5]
      exact hs.1
    · unfold SizedFor
      rw [hcur, hdims.1, hdims.2]
      exact glTexImage2D_sized _ _ hw hh (dvd_ceilMultipleOf32 _) _
    · unfold SizedFor
      rw [hnext, hdims.1, hdims.2]
      exact glTexImage2D_sized _ _ hw hh (dvd_ceilMultipleOf32 _) _
    · rw [hcur]
      apply glTexImage2D_words
      apply setCellsPack_words
      intro w hw'
      rw [List.eq_of_mem_replicate hw']
      decide
  · have : setCells fl s cells width height = s := by
      unfold setCells
      simp only []
      by_cases h1 : ceilMultipleOf32 width < 1 ∨ ceilMultipleOf32 height < 1
      · rw [if_pos h1]
      · rw [if_neg h1, if_pos (by omega)]
    rw [this]
    exact hs

theorem setTexel_dims (t : Texture) (x y w : Nat) :
    (t.setTexel x y w).width = t.width ∧ (t.setTexel x y w).height = t.height ∧
    (t.setTexel x y w).texels.length = t.texels.length := by
  unfold Texture.setTexel
  split
  · exact ⟨rfl, rfl, List.length_set _ _ _⟩
  · exact ⟨rfl, rfl, rfl⟩

theorem setTexel_words (t : Texture) (x y w : Nat) (hw : w < 2 ^ 32)
    (h : ∀ v ∈ t.texels, v < 2 ^ 32) : ∀ v ∈ (t.setTexel x y w).texels, v < 2 ^ 32 := by
  unfold Texture.setTexel
  split
  · intro v hv
    rcases List.mem_or_eq_of_mem_set hv with h1 | h1
    · exact h v h1
    · rw [h1]; exact hw
  · exact h

theorem wellFormed_writeCellColumn (s : State F) (hs : WellFormed s) (x y value : Nat) :
    WellFormed (writeCellColumn s x y value) := by
  obtain ⟨hd, ⟨hW, hH, hL⟩, hwr, hb⟩ := hs
  have hword : (if value ≠ 0 then
        (s.textures (s.attachment s.cellsReadFramebuffer)).texel x (y / 32) ||| shl32 1 (y &&& 31)
      else (s.textures (s.attachment s.cellsReadFramebuffer)).texel x (y / 32)
        &&& not32 (shl32 1 (y &&& 31))) < 2 ^ 32 := by
    rw [hd.2.1]
    split
    · exact Nat.or_lt_two_pow (texel_lt _ hb _ _) (shl32_lt _ _)
    · exact Nat.and_lt_two_pow _ (not32_lt _)
  obtain ⟨d1, d2, d3⟩ := setTexel_dims (s.textures s.cellsRead) x (y / 32)
    (if value ≠ 0 then
        (s.textures (s.attachment s.cellsReadFramebuffer)).texel x (y / 32) ||| shl32 1 (y &&& 31)
      else (s.textures (s.attachment s.cellsReadFramebuffer)).texel x (y / 32)
        &&& not32 (shl32 1 (y &&& 31)))
  refine ⟨hd, ?_, ?_, ?_⟩
  · show SizedFor s (Function.update s.textures s.cellsRead _ s.cellsRead)
    rw [Function.update_same]
    exact ⟨by rw [d1]; exact hW, by rw [d2]; exact hH, by rw [d3, d1, d2]; exact hL⟩
  · show SizedFor s (Function.update s.textures s.cellsRead _ s.cellsWrite)
    rw [Function.update_noteq (fun e => hd.1 e.symm)]
    exact hwr
  · show ∀ w ∈ (Function.update s.textures s.cellsRead _ s.cellsRead).texels, w < 2 ^ 32
    rw [Function.update_same]
    exact setTexel_words _ _ _ _ hword hb

theorem clearCells_textures (s : State F) :
    (clearCells s).textures
      = Function.update s.textures (s.attachment s.cellsReadFramebuffer)
          { s.textures (s.attachment s.cellsReadFramebuffer) with
            texels := List.replicate
              ((s.textures (s.attachment s.cellsReadFramebuffer)).width
                * (s.textures (s.attachment s.cellsReadFramebuffer)).height) 0 } := rfl

theorem wellFormed_clearCells (s : State F) (hs : WellFormed s) : WellFormed (clearCells s) := by
  obtain ⟨hd, ⟨hW, hH, hL⟩, hwr, hb⟩ := hs
  refine ⟨hd, ?_, ?_, ?_⟩
  · show SizedFor s ((clearCells s).textures s.cellsRead)
    rw [clearCells_textures, hd.2.1, Function.update_same]
    exact ⟨hW, hH, by simp⟩
  · show SizedFor s ((clearCells s).textures s.cellsWrite)
    rw [clearCells_textures, hd.2.1, Function.update_noteq (fun e => hd.1 e.symm)]
    exact hwr
  · show ∀ w ∈ ((clearCells s).textures s.cellsRead).texels, w < 2 ^ 32
    rw [clearCells_textures, hd.2.1, Function.update_same]
    intro w hw
    rw [List.eq_of_mem_replicate hw]
    decide

theorem wellFormed_updateCells (s : State F) (hs : WellFormed s) : WellFormed (updateCells s) := by
  have hcur := updateCells_current s hs.1
  obtain ⟨hd, hrd, ⟨hW, hH, hL⟩, hb⟩ := hs
  refine ⟨doubleBuffered_updateCells s hd, ?_, ?_, ?_⟩
  · rw [hcur]
    exact ⟨hW, hH, by simp [drawUpdate]⟩
  · show SizedFor s ((updateCells s).textures s.cellsRead)
    rw [updateCells_textures_of_ne s hd _ hd.1]
    exact hrd
  · rw [hcur]
    intro w hw
    simp only [drawUpdate, List.mem_map, List.mem_range] at hw
    obtain ⟨k, hk, rfl⟩ := hw
    have hwpos : 0 < (s.textures s.cellsWrite).width := by
      rcases Nat.eq_zero_or_pos (s.textures s.cellsWrite).width with h | h
      · rw [h] at hk; simp at hk
      · exact h
    have h1 : k % (s.textures s.cellsWrite).width < s.numCellsX.toNat := by
      have := Nat.mod_lt k hwpos
      omega
    have h2 : k / (s.textures s.cellsWrite).width < (Int.tdiv s.numCellsY 32).toNat := by
      have : k / (s.textures s.cellsWrite).width < (s.textures s.cellsWrite).height :=
        Nat.div_lt_of_lt_mul hk
      rw [Int.tdiv_eq_ediv (by omega) (by decide)]
      omega
    rw [if_pos ⟨h1, h2⟩]
    exact updateShaderMain_lt _ _ _ _ _ _ _ _ _

theorem mainCreateGrid_textures (fl : FloatOps F) (windowWidth windowHeight maxTextureSize : Int)
    (hM : 256 ≤ maxTextureSize) :
    (mainCreateGrid fl windowWidth windowHeight maxTextureSize).textures 1
      = glTexImage2D 256 8 none ∧
    (mainCreateGrid fl windowWidth windowHeight maxTextureSize).textures 2
      = glTexImage2D 256 8 none ∧
    (mainCreateGrid fl windowWidth windowHeight maxTextureSize).numCellsX = 256 ∧
    (mainCreateGrid fl windowWidth windowHeight maxTextureSize).numCellsY = 256 := by
  have c256 : ceilMultipleOf32 256 = 256 := by decide
  have d8 : Int.tdiv 256 32 = 8 := by decide
  have hc1 : ¬ ((256 : Int) > maxTextureSize ∨ (8 : Int) > maxTextureSize) := by omega
  refine ⟨?_, ?_, c256, c256⟩
  · simp only [mainCreateGrid, createTexture, createFramebuffer, initialState, c256, d8, hc1]
    simp [Function.update]
  · simp only [mainCreateGrid, createTexture, createFramebuffer, initialState, c256, d8, hc1]
    simp [Function.update]

theorem wellFormed_centerCellsOnScreen (fl : FloatOps F) (s : State F) (hs : WellFormed s) :
    WellFormed (centerCellsOnScreen fl s) := by
  obtain ⟨g1, g2, -, -, h1, h2, h3, h4, h6, h5⟩ := centerCellsOnScreen_frame fl s
  unfold WellFormed DoubleBuffered SizedFor
  rw [g1, g2, h1, h2, h3, h4, h5, h6]
  exact hs

theorem wellFormed_mainCreateGrid (fl : FloatOps F) (windowWidth windowHeight maxTextureSize : Int)
    (hM : 256 ≤ maxTextureSize) :
    WellFormed (mainCreateGrid fl windowWidth windowHeight maxTextureSize) := by
  obtain ⟨t1, t2, n1, n2⟩ := mainCreateGrid_textures fl windowWidth windowHeight maxTextureSize hM
  obtain ⟨l1, l2, l3, l4, a1, a2, -⟩ :=
    mainCreateGrid_labels fl windowWidth windowHeight maxTextureSize
  have hsz : SizedFor (mainCreateGrid fl windowWidth windowHeight maxTextureSize)
      (glTexImage2D 256 8 none) := by
    unfold SizedFor
    rw [n1, n2]
    refine ⟨by decide, by decide, ?_⟩
    simp only [glTexImage2D, List.length_replicate]
  unfold WellFormed DoubleBuffered
  rw [l1, l2, l3, l4, a1, a2, t1, t2]
  refine ⟨⟨by decide, rfl, rfl⟩, hsz, hsz, ?_⟩
  intro w hw
  simp only [glTexImage2D] at hw
  rw [List.eq_of_mem_replicate hw]
  decide

theorem wellFormed_mainInit (fl : FloatOps F) (windowWidth windowHeight maxTextureSize : Int)
    (hM : 256 ≤ maxTextureSize) :
    WellFormed (mainInit fl windowWidth windowHeight maxTextureSize) :=
  wellFormed_centerCellsOnScreen fl _ (wellFormed_clearCells _
    (wellFormed_mainCreateGrid fl windowWidth windowHeight maxTextureSize hM))

/-- Every reachable state of a platform whose texture-size limit is at least
256 is well formed. -/
theorem wellFormed_of_reachable (fl : FloatOps F) (s : State F) (hr : Reachable fl s)
    (hM : 256 ≤ s.maxTextureSize) : WellFormed s := by
  induction hr with
  | start ww wh M =>
    have e : (mainInit fl ww wh M).maxTextureSize = M := by
      unfold mainInit
      exact (centerCellsOnScreen_frame fl _).2.2.2.1
    rw [e] at hM
    exact wellFormed_mainInit fl ww wh M hM
  | @setCells s cells width height _ ih =>
    rw [(setCells_labels fl s cells width height).2.2.2.2.2] at hM
    exact wellFormed_setCells fl s cells width height (ih hM)
  | clearCells _ ih => exact wellFormed_clearCells _ (ih hM)
  | updateCells _ ih => exact wellFormed_updateCells _ (ih hM)
  | @mouseButton s x y value _ ih =>
    have hM' : 256 ≤ s.maxTextureSize := by
      unfold onMouseButtonEdit at hM
      split at hM
      · exact hM
      · exact hM
    unfold onMouseButtonEdit
    split
    · exact wellFormed_writeCellColumn s (ih hM') _ _ _
    · exact ih hM'
  | @mouseMove s x y value _ ih =>
    have hM' : 256 ≤ s.maxTextureSize := by
      unfold onMouseMoveEdit at hM
      split at hM
      · exact hM
      · exact hM
    unfold onMouseMoveEdit
    split
    · exact wellFormed_writeCellColumn s (ih hM') _ _ _
    · exact ih hM'

/-! ## C14: the count bits of the shader -/

theorem updateShaderMain_eq_count (n00 n10 n20 n01 n11 n21 n02 n12 n22 : Nat) :
    updateShaderMain n00 n10 n20 n01 n11 n21 n02 n12 n22
      = (not32 (updateShaderCount n00 n10 n20 n01 n11 n21 n02 n12 n22).1
            &&& (updateShaderCount n00 n10 n20 n01 n11 n21 n02 n12 n22).2.1
            &&& (updateShaderCount n00 n10 n20 n01 n11 n21 n02 n12 n22).2.2)
          ||| (n11 &&& (updateShaderCount n00 n10 n20 n01 n11 n21 n02 n12 n22).1
            &&& not32 (updateShaderCount n00 n10 n20 n01 n11 n21 n02 n12 n22).2.1
            &&& not32 (updateShaderCount n00 n10 n20 n01 n11 n21 n02 n12 n22).2.2) := rfl

/-- Lane `i` of the three count words is the Boolean adder network applied to
the nine cells around lane `i` of the centre word. -/
theorem updateShaderCount_lane (n00 n10 n20 n01 n11 n21 n02 n12 n22 : Nat)
    (h00 : n00 < 2 ^ 32) (h10 : n10 < 2 ^ 32) (h20 : n20 < 2 ^ 32)
    (h01 : n01 < 2 ^ 32) (h11 : n11 < 2 ^ 32) (h21 : n21 < 2 ^ 32)
    (i : Nat) (hi : i < 32) :
    ((updateShaderCount n00 n10 n20 n01 n11 n21 n02 n12 n22).1.testBit i,
      (updateShaderCount n00 n10 n20 n01 n11 n21 n02 n12 n22).2.1.testBit i,
      (updateShaderCount n00 n10 n20 n01 n11 n21 n02 n12 n22).2.2.testBit i)
      = laneCountBits (laneBelow n00 n01 i) (laneBelow n10 n11 i) (laneBelow n20 n21 i)
          (n01.testBit i) (n11.testBit i) (n21.testBit i)
          (laneAbove n01 n02 i) (laneAbove n11 n12 i) (laneAbove n21 n22 i) := by
  have hx0 := testBit_shiftUp (n01 ^^^ n11 ^^^ n21) (n02 ^^^ n12 ^^^ n22) (xor3_lt h01 h11 h21) i hi
  have hy0 := testBit_shiftUp ((n01 &&& n11) ||| (n11 &&& n21) ||| (n21 &&& n01))
    ((n02 &&& n12) ||| (n12 &&& n22) ||| (n22 &&& n02)) (maj3_lt h01 h11 h21) i hi
  have hx2 := testBit_shiftDown (n00 ^^^ n10 ^^^ n20) (n01 ^^^ n11 ^^^ n21) (xor3_lt h00 h10 h20) i hi
  have hy2 := testBit_shiftDown ((n00 &&& n10) ||| (n10 &&& n20) ||| (n20 &&& n00))
    ((n01 &&& n11) ||| (n11 &&& n21) ||| (n21 &&& n01)) (maj3_lt h00 h10 h20) i hi
  simp only [laneAbove_xor, laneAbove_and, laneAbove_or] at hx0 hy0
  simp only [laneBelow_xor, laneBelow_and, laneBelow_or] at hx2 hy2
  simp only [updateShaderCount]
  generalize ((n01 ^^^ n11 ^^^ n21) >>> 1 ||| shl32 (n02 ^^^ n12 ^^^ n22) 31) = x0 at hx0 ⊢
  generalize (((n01 &&& n11) ||| (n11 &&& n21) ||| (n21 &&& n01)) >>> 1
    ||| shl32 ((n02 &&& n12) ||| (n12 &&& n22) ||| (n22 &&& n02)) 31) = y0 at hy0 ⊢
  generalize (shl32 (n01 ^^^ n11 ^^^ n21) 1 ||| (n00 ^^^ n10 ^^^ n20) >>> 31) = x2 at hx2 ⊢
  generalize (shl32 ((n01 &&& n11) ||| (n11 &&& n21) ||| (n21 &&& n01)) 1
    ||| ((n00 &&& n10) ||| (n10 &&& n20) ||| (n20 &&& n00)) >>> 31) = y2 at hy2 ⊢
  simp only [Nat.testBit_or, Nat.testBit_and, Nat.testBit_xor, testBit_not32, hi, decide_True,
    Bool.true_and, hx0, hy0, hx2, hy2, laneCountBits]

/-- The Boolean count bits are the three low digits of the number of live
cells among all nine cells, the centre included. -/
theorem laneCountBits_eq_lowDigits :
    ∀ lo0 lo1 lo2 mid0 mid1 mid2 hi0 hi1 hi2 : Bool,
      laneCountBits lo0 lo1 lo2 mid0 mid1 mid2 hi0 hi1 hi2
        = lowDigits (liveCount [mid1, mid0, mid2, lo0, lo1, lo2, hi0, hi1, hi2]) := by
  decide

theorem lowDigits_rule :
    ∀ mid1 mid0 mid2 lo0 lo1 lo2 hi0 hi1 hi2 : Bool,
      ((!(lowDigits (liveCount [mid1, mid0, mid2, lo0, lo1, lo2, hi0, hi1, hi2])).1
          && (lowDigits (liveCount [mid1, mid0, mid2, lo0, lo1, lo2, hi0, hi1, hi2])).2.1
          && (lowDigits (liveCount [mid1, mid0, mid2, lo0, lo1, lo2, hi0, hi1, hi2])).2.2)
        = decide (liveCount [mid1, mid0, mid2, lo0, lo1, lo2, hi0, hi1, hi2] = 3)) ∧
      ((mid1 && (lowDigits (liveCount [mid1, mid0, mid2, lo0, lo1, lo2, hi0, hi1, hi2])).1
          && !(lowDigits (liveCount [mid1, mid0, mid2, lo0, lo1, lo2, hi0, hi1, hi2])).2.1
          && !(lowDigits (liveCount [mid1, mid0, mid2, lo0, lo1, lo2, hi0, hi1, hi2])).2.2)
        = decide (mid1 = true ∧ liveCount [mid0, mid2, lo0, lo1, lo2, hi0, hi1, hi2] = 3)) ∧
      (decide (liveCount [mid1, mid0, mid2, lo0, lo1, lo2, hi0, hi1, hi2] = 3)
        = decide ((mid1 = false ∧ liveCount [mid0, mid2, lo0, lo1, lo2, hi0, hi1, hi2] = 3) ∨
            (mid1 = true ∧ liveCount [mid0, mid2, lo0, lo1, lo2, hi0, hi1, hi2] = 2))) := by
  decide
/-- C14 (as amended): for nine 32-bit words and every lane `i < 32`, the bits
`(a, b, c)` of the update shader at lane `i` are the binary digits
`(bit2, bit1, bit0)` of the number of live cells among the 9 cells of the
3 x 3 block around the lane's cell, the centre cell included (a number up to 9,
of which only the three low digits are kept); so `~a & b & c` means exactly 3
live cells in the block (3 live neighbours and a dead centre, or 2 and a live
centre), `n11 & a & ~b & ~c` means a live centre with exactly 3 live
neighbours, and the two together are the rule `count == 3` or `count == 2` and
alive, for `count` the number of live cells among the 8 neighbours. -/
theorem updateShaderCount_digits (n00 n10 n20 n01 n11 n21 n02 n12 n22 : Nat)
    (hw : ∀ w ∈ [n00, n10, n20, n01, n11, n21, n02, n12, n22], w < 2 ^ 32)
    (i : Nat) (hi : i < 32) :
    ((updateShaderCount n00 n10 n20 n01 n11 n21 n02 n12 n22).1.testBit i,
      (updateShaderCount n00 n10 n20 n01 n11 n21 n02 n12 n22).2.1.testBit i,
      (updateShaderCount n00 n10 n20 n01 n11 n21 n02 n12 n22).2.2.testBit i)
      = lowDigits (liveCount
          (n11.testBit i :: laneNeighbours n00 n10 n20 n01 n11 n21 n02 n12 n22 i)) ∧
    (not32 (updateShaderCount n00 n10 n20 n01 n11 n21 n02 n12 n22).1
        &&& (updateShaderCount n00 n10 n20 n01 n11 n21 n02 n12 n22).2.1
        &&& (updateShaderCount n00 n10 n20 n01 n11 n21 n02 n12 n22).2.2).testBit i
      = decide (liveCount
          (n11.testBit i :: laneNeighbours n00 n10 n20 n01 n11 n21 n02 n12 n22 i) = 3) ∧
    (decide (liveCount
        (n11.testBit i :: laneNeighbours n00 n10 n20 n01 n11 n21 n02 n12 n22 i) = 3)
      = decide ((n11.testBit i = false ∧
            liveCount (laneNeighbours n00 n10 n20 n01 n11 n21 n02 n12 n22 i) = 3) ∨
          (n11.testBit i = true ∧
            liveCount (laneNeighbours n00 n10 n20 n01 n11 n21 n02 n12 n22 i) = 2))) ∧
    (n11 &&& (updateShaderCount n00 n10 n20 n01 n11 n21 n02 n12 n22).1
        &&& not32 (updateShaderCount n00 n10 n20 n01 n11 n21 n02 n12 n22).2.1
        &&& not32 (updateShaderCount n00 n10 n20 n01 n11 n21 n02 n12 n22).2.2).testBit i
      = decide (n11.testBit i = true ∧
          liveCount (laneNeighbours n00 n10 n20 n01 n11 n21 n02 n12 n22 i) = 3) ∧
    (updateShaderMain n00 n10 n20 n01 n11 n21 n02 n12 n22).testBit i
      = lifeRule (n11.testBit i) (laneNeighbours n00 n10 n20 n01 n11 n21 n02 n12 n22 i) := by
  have hl := updateShaderCount_lane n00 n10 n20 n01 n11 n21 n02 n12 n22
    (hw _ (by simp)) (hw _ (by simp)) (hw _ (by simp)) (hw _ (by simp)) (hw _ (by simp))
    (hw _ (by simp)) i hi
  rw [laneCountBits_eq_lowDigits] at hl
  have hr := lowDigits_rule (n11.testBit i) (n01.testBit i) (n21.testBit i)
    (laneBelow n00 n01 i) (laneBelow n10 n11 i) (laneBelow n20 n21 i)
    (laneAbove n01 n02 i) (laneAbove n11 n12 i) (laneAbove n21 n22 i)
  have ha := congrArg (fun t => t.1) hl
  have hb := congrArg (fun t => t.2.1) hl
  have hc := congrArg (fun t => t.2.2) hl
  simp only [] at ha hb hc
  refine ⟨hl, ?_, hr.2.2, ?_, ?_⟩
  · rw [Nat.testBit_and, Nat.testBit_and, testBit_not32, ha, hb, hc]
    simp only [hi, decide_True, Bool.true_and]
    exact hr.1
  · rw [Nat.testBit_and, Nat.testBit_and, Nat.testBit_and, testBit_not32, testBit_not32,
      ha, hb, hc]
    simp only [hi, decide_True, Bool.true_and]
    exact hr.2.1
  · rw [updateShaderMain_lane n00 n10 n20 n01 n11 n21 n02 n12 n22
      (hw _ (by simp)) (hw _ (by simp)) (hw _ (by simp)) (hw _ (by simp)) (hw _ (by simp))
      (hw _ (by simp)) i hi, laneFormula_eq_lifeRule]
    rfl

/-- Instance of C14 (as amended): lane 0 of a block whose centre and left and
right neighbours are alive. -/
theorem updateShaderCount_digits_witness :
    (∀ w ∈ [0, 0, 0, 1, 1, 1, 0, 0, 0], w < 2 ^ 32) ∧ 0 < 32 ∧
    ((updateShaderCount 0 0 0 1 1 1 0 0 0).1.testBit 0,
      (updateShaderCount 0 0 0 1 1 1 0 0 0).2.1.testBit 0,
      (updateShaderCount 0 0 0 1 1 1 0 0 0).2.2.testBit 0)
      = lowDigits (liveCount
          (Nat.testBit 1 0 :: laneNeighbours 0 0 0 1 1 1 0 0 0 0)) :=
  ⟨by decide, by decide,
    (updateShaderCount_digits 0 0 0 1 1 1 0 0 0 (by decide) 0 (by decide)).1⟩

/-- C14 (as stated) fails: with the centre cell of lane 0 alive and its left
and right neighbours alive, the cell has 2 live neighbours, whose digits are
`(0, 1, 0)`, but the shader's `(a, b, c)` are `(0, 1, 1)` and `~a & b & c` is
set although the cell does not have exactly 3 live neighbours; with only the
centre alive the cell has no live neighbour but `c` is set. -/
theorem updateShaderCount_not_neighbour_digits :
    liveCount (laneNeighbours 0 0 0 1 1 1 0 0 0 0) = 2 ∧
    lowDigits (liveCount (laneNeighbours 0 0 0 1 1 1 0 0 0 0)) = (false, true, false) ∧
    ((updateShaderCount 0 0 0 1 1 1 0 0 0).1.testBit 0,
      (updateShaderCount 0 0 0 1 1 1 0 0 0).2.1.testBit 0,
      (updateShaderCount 0 0 0 1 1 1 0 0 0).2.2.testBit 0) = (false, true, true) ∧
    (not32 (updateShaderCount 0 0 0 1 1 1 0 0 0).1
        &&& (updateShaderCount 0 0 0 1 1 1 0 0 0).2.1
        &&& (updateShaderCount 0 0 0 1 1 1 0 0 0).2.2).testBit 0 = true ∧
    liveCount (laneNeighbours 0 0 0 0 1 0 0 0 0 0) = 0 ∧
    (updateShaderCount 0 0 0 0 1 0 0 0 0).2.2.testBit 0 = true := by
  decide

/-! ## C15: the step is toroidal -/

theorem wrap_first_column (t : Texture) (y : Nat) (dy : Int) (hw : 0 < t.width)
    (hh : 0 < t.height) :
    textureOffset t 0 y (-1) dy
      = t.texel (t.width - 1) ((((y : Nat) : Int) + dy) % (t.height : Int)).toNat := by
  unfold textureOffset
  rw [texelRepeat_eq_texel _ _ _ hw hh,
    emod_eq_of_shift (((0 : Nat) : Int) + -1) t.width ((t.width : Int) - 1) (-1) (by omega)
      (by omega) (by omega)]
  congr 1
  omega

theorem wrap_last_column (t : Texture) (y : Nat) (dy : Int) (hw : 0 < t.width)
    (hh : 0 < t.height) :
    textureOffset t (t.width - 1) y 1 dy
      = t.texel 0 ((((y : Nat) : Int) + dy) % (t.height : Int)).toNat := by
  unfold textureOffset
  rw [texelRepeat_eq_texel _ _ _ hw hh,
    emod_eq_of_shift (((t.width - 1 : Nat) : Int) + 1) t.width 0 1 (by omega) (by omega)
      (by omega)]
  rfl

theorem wrap_first_row (t : Texture) (x : Nat) (hx : x < t.width) (hh : 0 < t.height) :
    textureOffset t x 0 0 (-1) = t.texel x (t.height - 1) := by
  unfold textureOffset
  rw [texelRepeat_eq_texel _ _ _ (by omega) hh,
    emod_eq_of_shift (((0 : Nat) : Int) + -1) t.height ((t.height : Int) - 1) (-1) (by omega)
      (by omega) (by omega),
    Int.add_zero, Int.emod_eq_of_lt (by omega) (by omega)]
  congr 1
  omega

theorem wrap_last_row (t : Texture) (x : Nat) (hx : x < t.width) (hh : 0 < t.height) :
    textureOffset t x (t.height - 1) 0 1 = t.texel x 0 := by
  unfold textureOffset
  rw [texelRepeat_eq_texel _ _ _ (by omega) hh,
    emod_eq_of_shift (((t.height - 1 : Nat) : Int) + 1) t.height 0 1 (by omega) (by omega)
      (by omega),
    Int.add_zero, Int.emod_eq_of_lt (by omega) (by omega)]
  rfl

/-- C15: in a well-formed state one `updateCells` computes, for every cell
`(x, y)` of the `W x H` grid, the rule of Life with the coordinates of the 8
neighbours taken modulo `W` and modulo `H`.  In the fetches of the shader the
word left of column 0 is the word of column `W - 1` and the word right of
column `W - 1` is the word of column 0; the word fetched at offset `-1` from
word row 0 is the word of word row `H / 32 - 1` and the word fetched at offset
`+1` from word row `H / 32 - 1` is the word of word row 0; for `H = 32` both
are the word itself. -/
theorem updateCells_toroidal (s : State F) (hs : WellFormed s) (x y : Nat)
    (hx : (x : Int) < s.numCellsX) (hy : (y : Int) < s.numCellsY) :
    cellAlive (updateCells s) x y
      = lifeRule (cellAlive s x y)
          (mooreOffsets.map (fun d =>
            cellAlive s (((x : Int) + d.1) % s.numCellsX).toNat
              (((y : Int) + d.2) % s.numCellsY).toNat)) ∧
    ((updateCells s).textures (updateCells s).cellsRead).texel x (y / 32)
      = updateShader (s.textures s.cellsRead) x (y / 32) ∧
    textureOffset (s.textures s.cellsRead) 0 (y / 32) (-1) 0
      = (s.textures s.cellsRead).texel (s.numCellsX.toNat - 1) (y / 32) ∧
    textureOffset (s.textures s.cellsRead) (s.numCellsX.toNat - 1) (y / 32) 1 0
      = (s.textures s.cellsRead).texel 0 (y / 32) ∧
    textureOffset (s.textures s.cellsRead) x 0 0 (-1)
      = (s.textures s.cellsRead).texel x ((s.numCellsY / 32).toNat - 1) ∧
    textureOffset (s.textures s.cellsRead) x ((s.numCellsY / 32).toNat - 1) 0 1
      = (s.textures s.cellsRead).texel x 0 ∧
    (s.numCellsY = 32 →
      textureOffset (s.textures s.cellsRead) x (y / 32) 0 (-1)
        = (s.textures s.cellsRead).texel x (y / 32) ∧
      textureOffset (s.textures s.cellsRead) x (y / 32) 0 1
        = (s.textures s.cellsRead).texel x (y / 32)) := by
  have hcell := updateCells_cell_wrapped s hs x y hx hy
  obtain ⟨hd, ⟨hW, hH, hL⟩, ⟨hW2, hH2, -⟩, -⟩ := hs
  have hw : 0 < (s.textures s.cellsRead).width := by omega
  have hh : 0 < (s.textures s.cellsRead).height := by omega
  have eW : s.numCellsX.toNat = (s.textures s.cellsRead).width := by omega
  have eH : (s.numCellsY / 32).toNat = (s.textures s.cellsRead).height := by omega
  have hrow : ((((y / 32 : Nat) : Nat) : Int) + 0) % ((s.textures s.cellsRead).height : Int)
      = ((y / 32 : Nat) : Int) := by
    rw [Int.add_zero, Int.emod_eq_of_lt (by omega) (by omega)]
  refine ⟨hcell, ?_, ?_, ?_, ?_, ?_, ?_⟩
  · rw [updateCells_current s hd, drawUpdate_texel]
    · omega
    · omega
    · omega
    · rw [Int.tdiv_eq_ediv (by omega) (by decide)]
      omega
  · rw [eW, wrap_first_column _ _ _ hw hh, hrow, Int.toNat_ofNat]
  · rw [eW, wrap_last_column _ _ _ hw hh, hrow, Int.toNat_ofNat]
  · rw [eH]
    exact wrap_first_row _ _ (by omega) hh
  · rw [eH]
    exact wrap_last_row _ _ (by omega) hh
  · intro h32
    have h1 : (s.textures s.cellsRead).height = 1 := by omega
    have hy0 : y / 32 = 0 := by omega
    rw [hy0]
    have e1 := wrap_first_row (s.textures s.cellsRead) x (by omega) hh
    have e2 := wrap_last_row (s.textures s.cellsRead) x (by omega) hh
    rw [h1] at e1 e2
    exact ⟨e1, e2⟩

/-- Instance of C15: cell `(0, 0)` of `lastColumnState`, a 32 x 32 grid. -/
theorem updateCells_toroidal_witness :
    WellFormed lastColumnState ∧ ((0 : Nat) : Int) < lastColumnState.numCellsX ∧
    ((0 : Nat) : Int) < lastColumnState.numCellsY ∧
    textureOffset (lastColumnState.textures lastColumnState.cellsRead) 0 (0 / 32) (-1) 0
      = (lastColumnState.textures lastColumnState.cellsRead).texel
          (lastColumnState.numCellsX.toNat - 1) (0 / 32) :=
  ⟨by decide, by decide, by decide,
    (updateCells_toroidal lastColumnState (by decide) 0 0 (by decide) (by decide)).2.2.1⟩

/-! ## C17: the file part of a path -/

/-- C17 fails on the code: for the path `a.b/c` the loop of
`findFilePartOfPath` leaves `end` at the dot of the directory name and moves
`start` past the later separator, so it returns `start = 4 > end = 1`, and
the `size_t` difference `end - start` of `setPatternName` wraps to
`2^64 - 3`. -/
theorem findFilePartOfPath_start_after_end :
    findFilePartOfPath "a.b/c".toList = (4, 1) ∧
    ¬ ((findFilePartOfPath "a.b/c".toList).1 ≤ (findFilePartOfPath "a.b/c".toList).2) ∧
    ((findFilePartOfPath "a.b/c".toList).2 + 2 ^ 64 - (findFilePartOfPath "a.b/c".toList).1)
      % 2 ^ 64 = 2 ^ 64 - 3 := by
  decide

/-! ## C11, C12: blinker and block -/

/-- The position before `x` on a cyclic axis of `N` positions. -/
theorem wrap_pred (N : Int) (x : Nat) (hx : (x : Int) < N) :
    (x = 0 ∧ (((((x : Int) + -1) % N).toNat : Nat) : Int) = N - 1) ∨
    (x ≠ 0 ∧ (((((x : Int) + -1) % N).toNat : Nat) : Int) = (x : Int) - 1) := by
  by_cases h : x = 0
  · left
    rw [emod_eq_of_shift ((x : Int) + -1) N (N - 1) (-1) (by omega) (by omega) (by omega)]
    exact ⟨h, by omega⟩
  · right
    rw [Int.emod_eq_of_lt (by omega) (by omega)]
    exact ⟨h, by omega⟩

theorem wrap_self (N : Int) (x : Nat) (hx : (x : Int) < N) :
    (((x : Int) + 0) % N).toNat = x := by
  rw [Int.add_zero, Int.emod_eq_of_lt (by omega) hx]
  rfl

/-- The position after `x` on a cyclic axis of `N` positions. -/
theorem wrap_succ (N : Int) (x : Nat) (hx : (x : Int) < N) :
    ((x : Int) + 1 = N ∧ (((x : Int) + 1) % N).toNat = 0) ∨
    ((x : Int) + 1 ≠ N ∧ (((x : Int) + 1) % N).toNat = x + 1) := by
  by_cases h : (x : Int) + 1 = N
  · left
    rw [emod_eq_of_shift ((x : Int) + 1) N 0 1 (by omega) (by omega) (by omega)]
    exact ⟨h, rfl⟩
  · right
    rw [Int.emod_eq_of_lt (by omega) (by omega)]
    exact ⟨h, by omega⟩

theorem wrap_lt (N X : Int) (hN : 0 < N) : ((X % N).toNat : Int) < N := by
  have := Int.emod_lt_of_pos X hN
  have := Int.emod_nonneg X (ne_of_gt hN)
  omega

/-- On a cyclic axis of at least 5 positions, around a run of three. -/
theorem axis_run_of_three (N : Int) (c x : Nat) (hN : 5 ≤ N) (hc1 : 1 ≤ c)
    (hc2 : (c : Int) + 1 < N) (hx : (x : Int) < N) :
    seesRunOfThree (inRun (c - 1) 3 (((x : Int) + -1) % N).toNat)
      (inRun (c - 1) 3 x) (inRun (c - 1) 3 (((x : Int) + 1) % N).toNat)
      (inRun c 1 x) = true := by
  have hm := wrap_pred N x hx
  have hp := wrap_succ N x hx
  generalize (((x : Int) + -1) % N).toNat = xm at hm ⊢
  generalize (((x : Int) + 1) % N).toNat = xp at hp ⊢
  unfold inRun
  by_cases h0 : c - 1 ≤ xm ∧ xm < c - 1 + 3 <;>
    by_cases h1 : c - 1 ≤ x ∧ x < c - 1 + 3 <;>
    by_cases h2 : c - 1 ≤ xp ∧ xp < c - 1 + 3 <;>
    by_cases ht : c ≤ x ∧ x < c + 1 <;>
    simp only [h0, h1, h2, ht, decide_True, decide_False] <;>
    first
    | decide
    | (exfalso; omega)

/-- On a cyclic axis of at least 3 positions, around a single position. -/
theorem axis_run_of_one (N : Int) (c x : Nat) (hc1 : 1 ≤ c)
    (hc2 : (c : Int) + 1 < N) (hx : (x : Int) < N) :
    seesRunOfOne (inRun c 1 (((x : Int) + -1) % N).toNat)
      (inRun c 1 x) (inRun c 1 (((x : Int) + 1) % N).toNat)
      (inRun (c - 1) 3 x) = true := by
  have hm := wrap_pred N x hx
  have hp := wrap_succ N x hx
  generalize (((x : Int) + -1) % N).toNat = xm at hm ⊢
  generalize (((x : Int) + 1) % N).toNat = xp at hp ⊢
  unfold inRun
  by_cases h0 : c ≤ xm ∧ xm < c + 1 <;>
    by_cases h1 : c ≤ x ∧ x < c + 1 <;>
    by_cases h2 : c ≤ xp ∧ xp < c + 1 <;>
    by_cases ht : c - 1 ≤ x ∧ x < c - 1 + 3 <;>
    simp only [h0, h1, h2, ht, decide_True, decide_False] <;>
    first
    | decide
    | (exfalso; omega)

/-- On a cyclic axis of at least 4 positions, around a run of two. -/
theorem axis_run_of_two (N : Int) (p x : Nat) (hN : 4 ≤ N)
    (hp2 : (p : Int) + 1 < N) (hx : (x : Int) < N) :
    seesRunOfTwo (inRun p 2 (((x : Int) + -1) % N).toNat)
      (inRun p 2 x) (inRun p 2 (((x : Int) + 1) % N).toNat)
      (inRun p 2 x) = true := by
  have hm := wrap_pred N x hx
  have hp := wrap_succ N x hx
  generalize (((x : Int) + -1) % N).toNat = xm at hm ⊢
  generalize (((x : Int) + 1) % N).toNat = xp at hp ⊢
  unfold inRun
  by_cases h0 : p ≤ xm ∧ xm < p + 2 <;>
    by_cases h1 : p ≤ x ∧ x < p + 2 <;>
    by_cases h2 : p ≤ xp ∧ xp < p + 2 <;>
    simp only [h0, h1, h2, decide_True, decide_False] <;>
    first
    | decide
    | (exfalso; omega)

theorem productRule_blinker :
    ∀ a0 a1 a2 ta b0 b1 b2 tb : Bool,
      seesRunOfThree a0 a1 a2 ta = true → seesRunOfOne b0 b1 b2 tb = true →
        productRule a0 a1 a2 b0 b1 b2 = (ta && tb) ∧
        productRule b0 b1 b2 a0 a1 a2 = (tb && ta) := by
  decide

theorem productRule_block :
    ∀ a0 a1 a2 ta b0 b1 b2 tb : Bool,
      seesRunOfTwo a0 a1 a2 ta = true → seesRunOfTwo b0 b1 b2 tb = true →
        productRule a0 a1 a2 b0 b1 b2 = (ta && tb) := by
  decide
theorem neighboursWrapped_eq (s : State F) (x y : Nat) :
    neighboursWrapped s x y
      = [cellWrapped s ((x : Int) + -1) ((y : Int) + 0), cellWrapped s ((x : Int) + 1) ((y : Int) + 0),
          cellWrapped s ((x : Int) + -1) ((y : Int) + -1),
          cellWrapped s ((x : Int) + 0) ((y : Int) + -1),
          cellWrapped s ((x : Int) + 1) ((y : Int) + -1),
          cellWrapped s ((x : Int) + -1) ((y : Int) + 1),
          cellWrapped s ((x : Int) + 0) ((y : Int) + 1),
          cellWrapped s ((x : Int) + 1) ((y : Int) + 1)] := rfl

theorem cellWrapped_of_pattern (s : State F) (pattern : Nat → Nat → Bool)
    (hpat : HasPattern s pattern) (hW : 0 < s.numCellsX) (hH : 0 < s.numCellsY) (X Y : Int) :
    cellWrapped s X Y = pattern (X % s.numCellsX).toNat (Y % s.numCellsY).toNat := by
  unfold cellWrapped
  have h1 := wrap_lt s.numCellsX X hW
  have h2 := wrap_lt s.numCellsY Y hH
  exact hpat _ (by omega) _ (by omega)

/-- One step on a pattern that is the product of a set of columns `A` and a
set of rows `B`, when what every column sees of `A` and every row sees of `B`
determines the rule. -/
theorem step_of_product (s : State F) (hs : WellFormed s) (A B A' B' : Nat → Bool)
    (seesA seesB : Bool → Bool → Bool → Bool → Bool)
    (hpat : HasPattern s (fun x y => A x && B y))
    (hA : ∀ x : Nat, (x : Int) < s.numCellsX →
      seesA (A (((x : Int) + -1) % s.numCellsX).toNat) (A x)
        (A (((x : Int) + 1) % s.numCellsX).toNat) (A' x) = true)
    (hB : ∀ y : Nat, (y : Int) < s.numCellsY →
      seesB (B (((y : Int) + -1) % s.numCellsY).toNat) (B y)
        (B (((y : Int) + 1) % s.numCellsY).toNat) (B' y) = true)
    (hrule : ∀ a0 a1 a2 ta b0 b1 b2 tb : Bool,
      seesA a0 a1 a2 ta = true → seesB b0 b1 b2 tb = true →
        productRule a0 a1 a2 b0 b1 b2 = (ta && tb)) :
    HasPattern (updateCells s) (fun x y => A' x && B' y) := by
  intro x hx y hy
  have hx' : (x : Int) < s.numCellsX := by
    have : x < s.numCellsX.toNat := hx
    omega
  have hy' : (y : Int) < s.numCellsY := by
    have : y < s.numCellsY.toNat := hy
    omega
  have hW : 0 < s.numCellsX := by omega
  have hH : 0 < s.numCellsY := by omega
  rw [updateCells_cell_wrapped s hs x y hx' hy', neighboursWrapped_eq]
  simp only [cellWrapped_of_pattern s _ hpat hW hH, wrap_self _ x hx', wrap_self _ y hy']
  rw [hpat x (by omega) y (by omega)]
  exact hrule _ _ _ _ _ _ _ _ (hA x hx') (hB y hy')

/-- Two well-formed states of the same size with the same cells have the
same current buffer, word for word. -/
theorem current_eq_of_cells (s t : State F) (hs : WellFormed s) (ht : WellFormed t)
    (hX : t.numCellsX = s.numCellsX) (hY : t.numCellsY = s.numCellsY)
    (h : ∀ x, x < s.numCellsX.toNat → ∀ y, y < s.numCellsY.toNat →
      cellAlive t x y = cellAlive s x y) :
    t.textures t.cellsRead = s.textures s.cellsRead := by
  obtain ⟨-, ⟨sW, sH, sL⟩, -, sb⟩ := hs
  obtain ⟨-, ⟨tW, tH, tL⟩, -, tb⟩ := ht
  have eW : (t.textures t.cellsRead).width = (s.textures s.cellsRead).width := by omega
  have eH : (t.textures t.cellsRead).height = (s.textures s.cellsRead).height := by omega
  have eT : (t.textures t.cellsRead).texels = (s.textures s.cellsRead).texels := by
    apply List.ext_getElem
    · rw [tL, sL, eW, eH]
    · intro k hk1 hk2
      apply Nat.eq_of_testBit_eq
      intro i
      by_cases hi : i < 32
      · have hwpos : 0 < (s.textures s.cellsRead).width := by
          rcases Nat.eq_zero_or_pos (s.textures s.cellsRead).width with h0 | h0
          · rw [sL, h0] at hk2; simp at hk2
          · exact h0
        have hkx : k % (s.textures s.cellsRead).width < (s.textures s.cellsRead).width :=
          Nat.mod_lt _ hwpos
        have hky : k / (s.textures s.cellsRead).width < (s.textures s.cellsRead).height := by
          apply Nat.div_lt_of_lt_mul
          rw [← sL]; exact hk2
        have hk : k / (s.textures s.cellsRead).width * (s.textures s.cellsRead).width
            + k % (s.textures s.cellsRead).width = k := by
          rw [Nat.mul_comm]; exact Nat.div_add_mod k _
        have hc := h (k % (s.textures s.cellsRead).width) (by omega)
          (32 * (k / (s.textures s.cellsRead).width) + i) (by omega)
        unfold cellAlive Texture.texel at hc
        have e1 : (32 * (k / (s.textures s.cellsRead).width) + i) / 32
            = k / (s.textures s.cellsRead).width := by omega
        have e2 : (32 * (k / (s.textures s.cellsRead).width) + i) % 32 = i := by omega
        rw [e1, e2, eW, eH, if_pos ⟨hkx, hky⟩, if_pos ⟨hkx, hky⟩, hk,
          List.getD_eq_getElem _ 0 hk1, List.getD_eq_getElem _ 0 hk2] at hc
        exact hc
      · rw [testBit_eq_false_of_word (tb _ (List.getElem_mem hk1)) (by omega),
          testBit_eq_false_of_word (sb _ (List.getElem_mem hk2)) (by omega)]
  cases ht' : t.textures t.cellsRead with
  | mk w1 h1 l1 =>
    cases hs' : s.textures s.cellsRead with
    | mk w2 h2 l2 =>
      rw [ht', hs'] at eW eH eT
      simp only at eW eH eT
      rw [eW, eH, eT]
theorem numCellsX_setCells (fl : FloatOps F) (s : State F) (cells : List Nat)
    (width height : Int) (h : 32 ≤ s.numCellsX) :
    32 ≤ (setCells fl s cells width height).numCellsX := by
  by_cases hacc : 1 ≤ ceilMultipleOf32 width ∧ 1 ≤ ceilMultipleOf32 height ∧
      ceilMultipleOf32 width ≤ s.maxTextureSize ∧ ceilMultipleOf32 height ≤ s.maxTextureSize
  · rw [setCells_of_accepted fl s cells width height hacc.1 hacc.2.1 hacc.2.2.1 hacc.2.2.2,
      (centerCellsOnScreen_frame fl _).1]
    show 32 ≤ ceilMultipleOf32 width
    obtain ⟨k, hk⟩ := dvd_ceilMultipleOf32 width
    have := hacc.1
    omega
  · have e : setCells fl s cells width height = s := by
      unfold setCells
      simp only []
      by_cases h1 : ceilMultipleOf32 width < 1 ∨ ceilMultipleOf32 height < 1
      · rw [if_pos h1]
      · rw [if_neg h1, if_pos (by omega)]
    rw [e]
    exact h

/-- Every grid the program makes is at least 32 cells wide, so the width
hypotheses of the blinker and block theorems hold in every reachable state. -/
theorem numCellsX_of_reachable (fl : FloatOps F) (s : State F) (hr : Reachable fl s) :
    32 ≤ s.numCellsX := by
  induction hr with
  | start ww wh M =>
    unfold mainInit
    rw [(centerCellsOnScreen_frame fl _).1]
    show (32 : Int) ≤ ceilMultipleOf32 256
    decide
  | @setCells s cells width height _ ih => exact numCellsX_setCells fl s cells width height ih
  | clearCells _ ih => exact ih
  | updateCells _ ih => exact ih
  | @mouseButton s x y value _ ih =>
    unfold onMouseButtonEdit
    split
    · exact ih
    · exact ih
  | @mouseMove s x y value _ ih =>
    unfold onMouseMoveEdit
    split
    · exact ih
    · exact ih
theorem blinker_horizontal_step (s : State F) (hs : WellFormed s) (hW : 5 ≤ s.numCellsX)
    (cx cy : Nat) (hcx1 : 1 ≤ cx) (hcx2 : (cx : Int) + 1 < s.numCellsX) (hcy1 : 1 ≤ cy)
    (hcy2 : (cy : Int) + 1 < s.numCellsY) (hpat : HasPattern s (horizontalBlinker cx cy)) :
    HasPattern (updateCells s) (verticalBlinker cx cy) :=
  step_of_product s hs (inRun (cx - 1) 3) (inRun cy 1) (inRun cx 1) (inRun (cy - 1) 3)
    seesRunOfThree seesRunOfOne hpat
    (fun x hx => axis_run_of_three s.numCellsX cx x hW hcx1 hcx2 hx)
    (fun y hy => axis_run_of_one s.numCellsY cy y hcy1 hcy2 hy)
    (fun a0 a1 a2 ta b0 b1 b2 tb ha hb => (productRule_blinker a0 a1 a2 ta b0 b1 b2 tb ha hb).1)

theorem blinker_vertical_step (s : State F) (hs : WellFormed s)
    (cx cy : Nat) (hcx1 : 1 ≤ cx) (hcx2 : (cx : Int) + 1 < s.numCellsX) (hcy1 : 1 ≤ cy)
    (hcy2 : (cy : Int) + 1 < s.numCellsY) (hpat : HasPattern s (verticalBlinker cx cy)) :
    HasPattern (updateCells s) (horizontalBlinker cx cy) := by
  have hH : 5 ≤ s.numCellsY := by
    have := hs.2.1.2.1
    omega
  exact step_of_product s hs (inRun cx 1) (inRun (cy - 1) 3) (inRun (cx - 1) 3) (inRun cy 1)
    seesRunOfOne seesRunOfThree hpat
    (fun x hx => axis_run_of_one s.numCellsX cx x hcx1 hcx2 hx)
    (fun y hy => axis_run_of_three s.numCellsY cy y hH hcy1 hcy2 hy)
    (fun a0 a1 a2 ta b0 b1 b2 tb ha hb => (productRule_blinker b0 b1 b2 tb a0 a1 a2 ta hb ha).2)

theorem block_step (s : State F) (hs : WellFormed s) (hW : 4 ≤ s.numCellsX)
    (bx bY : Nat) (hbx : (bx : Int) + 1 < s.numCellsX) (hby : (bY : Int) + 1 < s.numCellsY)
    (hpat : HasPattern s (blockPattern bx bY)) :
    HasPattern (updateCells s) (blockPattern bx bY) := by
  have hH : 4 ≤ s.numCellsY := by
    have := hs.2.1.2.1
    omega
  exact step_of_product s hs (inRun bx 2) (inRun bY 2) (inRun bx 2) (inRun bY 2)
    seesRunOfTwo seesRunOfTwo hpat
    (fun x hx => axis_run_of_two s.numCellsX bx x hW hbx hx)
    (fun y hy => axis_run_of_two s.numCellsY bY y hH hby hy)
    productRule_block

theorem current_eq_of_hasPattern (s t : State F) (hs : WellFormed s) (ht : WellFormed t)
    (hX : t.numCellsX = s.numCellsX) (hY : t.numCellsY = s.numCellsY)
    (pattern : Nat → Nat → Bool) (hp : HasPattern s pattern) (hq : HasPattern t pattern) :
    t.textures t.cellsRead = s.textures s.cellsRead :=
  current_eq_of_cells s t hs ht hX hY (fun x hx y hy => by
    rw [hp x hx y hy, hq x (by rw [hX]; exact hx) y (by rw [hY]; exact hy)])

/-- C11: in a well-formed grid at least 5 cells wide (the widths of the
program are multiples of 32) whose only live cells are three in a horizontal
line with middle cell `(cx, cy)`, the 3 x 3 square around the middle cell lying
inside the grid, one `updateCells` yields the vertical line of three with the
same middle cell and nothing else, a second one yields the horizontal line
again, and the current buffer is then word for word the original one; the
same holds with horizontal and vertical exchanged; the two lines are
different configurations. -/
theorem blinker_oscillates (s : State F) (hs : WellFormed s) (hW : 5 ≤ s.numCellsX)
    (cx cy : Nat) (hcx1 : 1 ≤ cx) (hcx2 : (cx : Int) + 1 < s.numCellsX) (hcy1 : 1 ≤ cy)
    (hcy2 : (cy : Int) + 1 < s.numCellsY) :
    (HasPattern s (horizontalBlinker cx cy) →
      HasPattern (updateCells s) (verticalBlinker cx cy) ∧
      HasPattern (updateCells (updateCells s)) (horizontalBlinker cx cy) ∧
      (updateCells (updateCells s)).textures (updateCells (updateCells s)).cellsRead
        = s.textures s.cellsRead) ∧
    (HasPattern s (verticalBlinker cx cy) →
      HasPattern (updateCells s) (horizontalBlinker cx cy) ∧
      HasPattern (updateCells (updateCells s)) (verticalBlinker cx cy) ∧
      (updateCells (updateCells s)).textures (updateCells (updateCells s)).cellsRead
        = s.textures s.cellsRead) ∧
    (horizontalBlinker cx cy (cx - 1) cy = true ∧ verticalBlinker cx cy (cx - 1) cy = false ∧
      horizontalBlinker cx cy cx (cy - 1) = false ∧ verticalBlinker cx cy cx (cy - 1) = true) := by
  have hs1 := wellFormed_updateCells s hs
  have hs2 := wellFormed_updateCells _ hs1
  refine ⟨?_, ?_, ?_⟩
  · intro hp
    have h1 := blinker_horizontal_step s hs hW cx cy hcx1 hcx2 hcy1 hcy2 hp
    have h2 := blinker_vertical_step (updateCells s) hs1 cx cy hcx1 hcx2 hcy1 hcy2 h1
    exact ⟨h1, h2, current_eq_of_hasPattern s _ hs hs2 rfl rfl _ hp h2⟩
  · intro hp
    have h1 := blinker_vertical_step s hs cx cy hcx1 hcx2 hcy1 hcy2 hp
    have h2 := blinker_horizontal_step (updateCells s) hs1 hW cx cy hcx1 hcx2 hcy1 hcy2 h1
    exact ⟨h1, h2, current_eq_of_hasPattern s _ hs hs2 rfl rfl _ hp h2⟩
  · unfold horizontalBlinker verticalBlinker inRun
    refine ⟨?_, ?_, ?_, ?_⟩
    · simp only [Bool.and_eq_true, decide_eq_true_eq]; omega
    · simp only [Bool.and_eq_false_iff, decide_eq_false_iff_not]; omega
    · simp only [Bool.and_eq_false_iff, decide_eq_false_iff_not]; omega
    · simp only [Bool.and_eq_true, decide_eq_true_eq]; omega

/-- Instance of C11: the horizontal blinker of `blinkerState`. -/
theorem blinker_oscillates_witness :
    WellFormed blinkerState ∧ 5 ≤ blinkerState.numCellsX ∧ 1 ≤ 2 ∧
    ((2 : Nat) : Int) + 1 < blinkerState.numCellsX ∧ 1 ≤ 1 ∧
    ((1 : Nat) : Int) + 1 < blinkerState.numCellsY ∧
    HasPattern blinkerState (horizontalBlinker 2 1) ∧
    HasPattern (updateCells blinkerState) (verticalBlinker 2 1) ∧
    HasPattern (updateCells (updateCells blinkerState)) (horizontalBlinker 2 1) :=
  ⟨by decide, by decide, by decide, by decide, by decide, by decide, by decide,
    ((blinker_oscillates blinkerState (by decide) (by decide) 2 1 (by decide) (by decide)
      (by decide) (by decide)).1 (by decide)).1,
    ((blinker_oscillates blinkerState (by decide) (by decide) 2 1 (by decide) (by decide)
      (by decide) (by decide)).1 (by decide)).2.1⟩

theorem iterate_updateCells_block (s : State F) (hs : WellFormed s) (hW : 4 ≤ s.numCellsX)
    (bx bY : Nat) (hbx : (bx : Int) + 1 < s.numCellsX) (hby : (bY : Int) + 1 < s.numCellsY)
    (hpat : HasPattern s (blockPattern bx bY)) (n : Nat) :
    WellFormed (updateCells^[n] s) ∧ (updateCells^[n] s).numCellsX = s.numCellsX ∧
    (updateCells^[n] s).numCellsY = s.numCellsY ∧
    HasPattern (updateCells^[n] s) (blockPattern bx bY) := by
  induction n with
  | zero => exact ⟨hs, rfl, rfl, hpat⟩
  | succ n ih =>
    obtain ⟨h1, h2, h3, h4⟩ := ih
    rw [Function.iterate_succ_apply']
    refine ⟨wellFormed_updateCells _ h1, h2, h3, ?_⟩
    exact block_step _ h1 (by rw [h2]; exact hW) bx bY (by rw [h2]; exact hbx)
      (by rw [h3]; exact hby) h4

/-- C12: in a well-formed grid at least 4 cells wide (the widths of the
program are multiples of 32) whose only live cells are the four cells of a
2 x 2 block inside the grid, for every `n` the current buffer after `n` calls
of `updateCells` is word for word the initial buffer, and the live cells are
still those of the block. -/
theorem block_is_still (s : State F) (hs : WellFormed s) (hW : 4 ≤ s.numCellsX)
    (bx bY : Nat) (hbx : (bx : Int) + 1 < s.numCellsX) (hby : (bY : Int) + 1 < s.numCellsY)
    (hpat : HasPattern s (blockPattern bx bY)) (n : Nat) :
    (updateCells^[n] s).textures (updateCells^[n] s).cellsRead = s.textures s.cellsRead ∧
    HasPattern (updateCells^[n] s) (blockPattern bx bY) := by
  obtain ⟨h1, h2, h3, h4⟩ := iterate_updateCells_block s hs hW bx bY hbx hby hpat n
  exact ⟨current_eq_of_hasPattern s _ hs h1 h2 h3 _ hpat h4, h4⟩

/-- Instance of C12: the block of `blockState`, in the corner of the grid,
after 3 steps. -/
theorem block_is_still_witness :
    WellFormed blockState ∧ 4 ≤ blockState.numCellsX ∧
    ((30 : Nat) : Int) + 1 < blockState.numCellsX ∧
    ((30 : Nat) : Int) + 1 < blockState.numCellsY ∧
    HasPattern blockState (blockPattern 30 30) ∧
    (updateCells^[3] blockState).textures (updateCells^[3] blockState).cellsRead
      = blockState.textures blockState.cellsRead :=
  ⟨by decide, by decide, by decide, by decide, by decide,
    (block_is_still blockState (by decide) (by decide) 30 30 (by decide) (by decide)
      (by decide) 3).1⟩

theorem ne_zero_iff_testBit (n : Nat) : n ≠ 0 ↔ ∃ i, n.testBit i = true := by
  constructor
  · intro h
    by_contra hne
    apply h
    apply Nat.eq_of_testBit_eq
    intro i
    rw [Nat.zero_testBit]
    by_cases hb : n.testBit i = true
    · exact absurd ⟨i, hb⟩ hne
    · simpa using hb
  · rintro ⟨i, hi⟩ h0
    rw [h0, Nat.zero_testBit] at hi
    exact Bool.false_ne_true hi

theorem or_ne_zero_iff (a b : Nat) : a ||| b ≠ 0 ↔ a ≠ 0 ∨ b ≠ 0 := by
  rw [ne_zero_iff_testBit, ne_zero_iff_testBit, ne_zero_iff_testBit]
  constructor
  · rintro ⟨i, hi⟩
    rw [Nat.testBit_or, Bool.or_eq_true] at hi
    rcases hi with h | h
    · exact Or.inl ⟨i, h⟩
    · exact Or.inr ⟨i, h⟩
  · rintro (⟨i, h⟩ | ⟨i, h⟩)
    · exact ⟨i, by rw [Nat.testBit_or, h, Bool.true_or]⟩
    · exact ⟨i, by rw [Nat.testBit_or, h, Bool.or_true]⟩

/-- The shift pair keeps bit `ymin + i` of the word as bit `i` when
`ymin + i <= ymax`, and nothing else. -/
theorem testBit_shiftPair (w : Nat) (ymin ymax : Nat) (hmax : ymax ≤ 31) (i : Nat) :
    (shiftPair w ((31 : Int) - ymax) ((ymin : Int) + (31 - ymax))).testBit i
      = (decide (ymin + i ≤ ymax) && w.testBit (ymin + i)) := by
  unfold shiftPair
  have e1 : ((31 : Int) - ymax).toNat = 31 - ymax := by omega
  have e2 : ((ymin : Int) + (31 - ymax)).toNat = ymin + (31 - ymax) := by omega
  rw [e1, e2, Nat.testBit_shiftRight, testBit_shl32]
  have e3 : ymin + (31 - ymax) + i - (31 - ymax) = ymin + i := by omega
  rw [e3]
  by_cases h : ymin + i ≤ ymax
  · rw [decide_eq_true h, decide_eq_true (by omega : ymin + (31 - ymax) + i < 32),
      decide_eq_true (by omega : 31 - ymax ≤ ymin + (31 - ymax) + i)]
    simp only [Bool.true_and]
  · rw [decide_eq_false h, decide_eq_false (by omega : ¬ ymin + (31 - ymax) + i < 32)]
    simp only [Bool.false_and]

/-- The values of a pass that starts at a row `y` of the rectangle. -/
theorem renderPass_eq (pmaxY y : Int) (h0 : 0 ≤ y) (hy : y ≤ pmaxY) (hmax : pmaxY < 2 ^ 31 - 1) :
    renderPass pmaxY y
      = (y % 32, min 31 (pmaxY - 32 * (y / 32)), 31 - min 31 (pmaxY - 32 * (y / 32)),
          y % 32 + (31 - min 31 (pmaxY - 32 * (y / 32))),
          1 + min 31 (pmaxY - 32 * (y / 32)) - y % 32) := by
  unfold renderPass
  simp only []
  rw [Int.tmod_eq_emod h0 (by decide)]
  have e2 : toInt32 (toInt32 (pmaxY + y % 32) - y) = pmaxY - 32 * (y / 32) := by
    unfold toInt32
    omega
  rw [e2]
  have hm : min 31 (pmaxY - 32 * (y / 32)) = 31 ∨
      min 31 (pmaxY - 32 * (y / 32)) = pmaxY - 32 * (y / 32) := by omega
  have hm0 : y % 32 ≤ min 31 (pmaxY - 32 * (y / 32)) := by omega
  have hm1 : min 31 (pmaxY - 32 * (y / 32)) ≤ 31 := by omega
  generalize min 31 (pmaxY - 32 * (y / 32)) = m at hm hm0 hm1
  rw [toInt32_of_range (31 - m) (by omega) (by omega),
    toInt32_of_range (y % 32 + (31 - m)) (by omega) (by omega),
    toInt32_of_range (1 + m) (by omega) (by omega),
    toInt32_of_range (1 + m - y % 32) (by omega) (by omega)]
theorem renderScanRow_spec (cells : Texture) (wordRow lshift rshift pmaxX : Int)
    (hmax : pmaxX < 2 ^ 31 - 1) :
    ∀ (n : Nat) (x : Int) (acc fuel : Nat), -2 ^ 31 ≤ x → x ≤ pmaxX + 1 →
      (pmaxX + 1 - x).toNat = n → n < fuel →
      ∃ acc', renderScanRow cells wordRow lshift rshift pmaxX fuel x acc = some acc' ∧
        (acc' ≠ 0 ↔ acc ≠ 0 ∨ ∃ x' : Int, x ≤ x' ∧ x' ≤ pmaxX ∧
          shiftPair (texelFetch cells x' wordRow) lshift rshift ≠ 0) := by
  intro n
  induction n with
  | zero =>
    intro x acc fuel hx0 hx hn hf
    obtain ⟨f, rfl⟩ : ∃ f, fuel = f + 1 := ⟨fuel - 1, by omega⟩
    refine ⟨acc, ?_, ?_⟩
    · rw [renderScanRow, if_neg (by omega)]
    · constructor
      · exact fun h => Or.inl h
      · rintro (h | ⟨x', h1, h2, _⟩)
        · exact h
        · omega
  | succ n ih =>
    intro x acc fuel hx0 hx hn hf
    obtain ⟨f, rfl⟩ : ∃ f, fuel = f + 1 := ⟨fuel - 1, by omega⟩
    have hle : x ≤ pmaxX := by omega
    rw [renderScanRow, if_pos hle]
    simp only []
    rw [toInt32_of_range (x + 1) (by omega) (by omega)]
    obtain ⟨acc', h1, h2⟩ := ih (x + 1)
      (acc ||| shiftPair (texelFetch cells x wordRow) lshift rshift) f (by omega) (by omega)
      (by omega) (by omega)
    refine ⟨acc', h1, ?_⟩
    rw [h2, or_ne_zero_iff]
    constructor
    · rintro ((h | h) | ⟨x', h3, h4, h5⟩)
      · exact Or.inl h
      · exact Or.inr ⟨x, le_refl _, hle, h⟩
      · exact Or.inr ⟨x', by omega, h4, h5⟩
    · rintro (h | ⟨x', h3, h4, h5⟩)
      · exact Or.inl (Or.inl h)
      · by_cases hxx : x' = x
        · subst hxx
          exact Or.inl (Or.inr h5)
        · exact Or.inr ⟨x', by omega, h4, h5⟩

/-- The word a pass keeps is nonzero exactly when the fetched word has a bit
`k` set with `y % 32 <= k <= ymax`. -/
theorem shiftPair_ne_zero (w : Nat) (y m : Int) (hm0 : y % 32 ≤ m) (hm1 : m ≤ 31) :
    shiftPair w (31 - m) (y % 32 + (31 - m)) ≠ 0
      ↔ ∃ k : Nat, y % 32 ≤ (k : Int) ∧ (k : Int) ≤ m ∧ w.testBit k = true := by
  obtain ⟨ymin, hymin⟩ : ∃ ymin : Nat, y % 32 = (ymin : Int) := ⟨(y % 32).toNat, by omega⟩
  obtain ⟨ymax, hymax⟩ : ∃ ymax : Nat, m = (ymax : Int) := ⟨m.toNat, by omega⟩
  rw [hymin, hymax, ne_zero_iff_testBit]
  have hmax : ymax ≤ 31 := by omega
  constructor
  · rintro ⟨i, hi⟩
    rw [testBit_shiftPair w ymin ymax hmax, Bool.and_eq_true, decide_eq_true_eq] at hi
    exact ⟨ymin + i, by omega, by omega, hi.2⟩
  · rintro ⟨k, h1, h2, h3⟩
    refine ⟨k - ymin, ?_⟩
    rw [testBit_shiftPair w ymin ymax hmax, Bool.and_eq_true, decide_eq_true_eq]
    have e : ymin + (k - ymin) = k := by omega
    rw [e]
    exact ⟨by omega, h3⟩

theorem renderScan_succ (cells : Texture) (pminX pmaxX pmaxY : Int) (rowFuel fuel : Nat)
    (y : Int) (acc : Nat) :
    renderScan cells pminX pmaxX pmaxY rowFuel (fuel + 1) y acc
      = if y ≤ pmaxY then
          match renderScanRow cells (Int.tdiv y 32) (renderPass pmaxY y).2.2.1
              (renderPass pmaxY y).2.2.2.1 pmaxX rowFuel pminX acc with
          | none => none
          | some a =>
            renderScan cells pminX pmaxX pmaxY rowFuel fuel
              (toInt32 (y + (renderPass pmaxY y).2.2.2.2)) a
        else some acc := rfl

/-- One pass of the outer loop at a row `y` of the rectangle: the inner loop
returns, the accumulator is nonzero after it exactly when it was before or a
cell of the columns of the rectangle and of the rows `y .. min(pmaxY, last row
of the word)` is alive, and the next `y` is the row after those. -/
theorem renderScan_pass (cells : Texture) (pminX pmaxX pmaxY : Int) (rowFuel : Nat)
    (hx0 : 0 ≤ pminX) (hx : pminX ≤ pmaxX) (hxmax : pmaxX < 2 ^ 31 - 1)
    (hymax : pmaxY < 2 ^ 31 - 1) (hrow : (pmaxX + 1 - pminX).toNat < rowFuel)
    (fuel : Nat) (y : Int) (acc : Nat) (h0 : 0 ≤ y) (hy : y ≤ pmaxY) :
    ∃ acc1, renderScan cells pminX pmaxX pmaxY rowFuel (fuel + 1) y acc
        = renderScan cells pminX pmaxX pmaxY rowFuel fuel
            (32 * (y / 32) + min 31 (pmaxY - 32 * (y / 32)) + 1) acc1 ∧
      (acc1 ≠ 0 ↔ acc ≠ 0 ∨ ∃ x' y' : Int, pminX ≤ x' ∧ x' ≤ pmaxX ∧ y ≤ y' ∧
        y' ≤ 32 * (y / 32) + min 31 (pmaxY - 32 * (y / 32)) ∧
        (texelFetch cells x' (y' / 32)).testBit (y' % 32).toNat = true) := by
  rw [renderScan_succ, if_pos hy, renderPass_eq pmaxY y h0 hy hymax]
  simp only []
  rw [Int.tdiv_eq_ediv h0 (by decide)]
  have hm0 : y % 32 ≤ min 31 (pmaxY - 32 * (y / 32)) := by omega
  have hm1 : min 31 (pmaxY - 32 * (y / 32)) ≤ 31 := by omega
  have hm2 : 32 * (y / 32) + min 31 (pmaxY - 32 * (y / 32)) ≤ pmaxY := by omega
  generalize min 31 (pmaxY - 32 * (y / 32)) = m at hm0 hm1 hm2
  obtain ⟨acc1, h1, h2⟩ := renderScanRow_spec cells (y / 32) (31 - m) (y % 32 + (31 - m)) pmaxX
    hxmax _ pminX acc rowFuel (by omega) (by omega) rfl hrow
  rw [h1]
  simp only []
  have e : toInt32 (y + (1 + m - y % 32)) = 32 * (y / 32) + m + 1 := by
    rw [toInt32_of_range _ (by omega) (by omega)]; omega
  rw [e]
  refine ⟨acc1, rfl, ?_⟩
  rw [h2]
  constructor
  · rintro (h | ⟨x', h3, h4, h5⟩)
    · exact Or.inl h
    · rw [shiftPair_ne_zero _ y m hm0 hm1] at h5
      obtain ⟨k, k1, k2, k3⟩ := h5
      refine Or.inr ⟨x', 32 * (y / 32) + k, h3, h4, by omega, by omega, ?_⟩
      have e1 : (32 * (y / 32) + (k : Int)) / 32 = y / 32 := by omega
      have e2 : ((32 * (y / 32) + (k : Int)) % 32).toNat = k := by omega
      rw [e1, e2]
      exact k3
  · rintro (h | ⟨x', y', h3, h4, h5, h6, h7⟩)
    · exact Or.inl h
    · refine Or.inr ⟨x', h3, h4, ?_⟩
      rw [shiftPair_ne_zero _ y m hm0 hm1]
      have e1 : y' / 32 = y / 32 := by omega
      rw [e1] at h7
      exact ⟨(y' % 32).toNat, by omega, by omega, h7⟩

theorem renderScan_spec (cells : Texture) (pminX pmaxX pmaxY : Int) (rowFuel : Nat)
    (hx0 : 0 ≤ pminX) (hx : pminX ≤ pmaxX) (hxmax : pmaxX < 2 ^ 31 - 1)
    (hymax : pmaxY < 2 ^ 31 - 1) (hrow : (pmaxX + 1 - pminX).toNat < rowFuel) :
    ∀ (n : Nat) (y : Int) (acc fuel : Nat), 0 ≤ y → y ≤ pmaxY →
      (pmaxY / 32 - y / 32).toNat = n → n + 2 ≤ fuel →
      ∃ acc', renderScan cells pminX pmaxX pmaxY rowFuel fuel y acc = some acc' ∧
        (acc' ≠ 0 ↔ acc ≠ 0 ∨ ∃ x' y' : Int, pminX ≤ x' ∧ x' ≤ pmaxX ∧ y ≤ y' ∧ y' ≤ pmaxY ∧
          (texelFetch cells x' (y' / 32)).testBit (y' % 32).toNat = true) := by
  intro n
  induction n with
  | zero =>
    intro y acc fuel h0 hy hn hf
    obtain ⟨f, rfl⟩ : ∃ f, fuel = f + 2 := ⟨fuel - 2, by omega⟩
    have hm : 32 * (y / 32) + min 31 (pmaxY - 32 * (y / 32)) = pmaxY := by omega
    have key := renderScan_pass cells pminX pmaxX pmaxY rowFuel hx0 hx hxmax hymax
      hrow (f + 1) y acc h0 hy
    rw [hm] at key
    obtain ⟨acc1, h1, h2⟩ := key
    refine ⟨acc1, ?_, h2⟩
    rw [h1, renderScan, if_neg (lt_irrefl pmaxY ∘ Int.lt_of_add_one_le)]
  | succ n ih =>
    intro y acc fuel h0 hy hn hf
    obtain ⟨f, rfl⟩ : ∃ f, fuel = f + 1 := ⟨fuel - 1, by omega⟩
    have hm : 32 * (y / 32) + min 31 (pmaxY - 32 * (y / 32)) = 32 * (y / 32) + 31 := by omega
    have b1 : 32 * (y / 32) + 31 ≤ pmaxY := by omega
    have b2 : y ≤ 32 * (y / 32) + 31 + 1 := by omega
    have b3 : (0 : Int) ≤ 32 * (y / 32) + 31 + 1 := by omega
    have b4 : 32 * (y / 32) + 31 + 1 ≤ pmaxY := by omega
    have b5 : (pmaxY / 32 - (32 * (y / 32) + 31 + 1) / 32).toNat = n := by omega
    have b6 : n + 2 ≤ f := by omega
    have key := renderScan_pass cells pminX pmaxX pmaxY rowFuel hx0 hx hxmax hymax
      hrow f y acc h0 hy
    rw [hm] at key
    obtain ⟨acc1, h1, h2⟩ := key
    obtain ⟨acc2, h3, h4⟩ := ih (32 * (y / 32) + 31 + 1) acc1 f b3 b4 b5 b6
    refine ⟨acc2, by rw [h1, h3], ?_⟩
    rw [h4, h2]
    constructor
    · rintro ((h | ⟨x', y', a1, a2, a3, a4, a5⟩) | ⟨x', y', a1, a2, a3, a4, a5⟩)
      · exact Or.inl h
      · exact Or.inr ⟨x', y', a1, a2, a3, le_trans a4 b1, a5⟩
      · exact Or.inr ⟨x', y', a1, a2, le_trans b2 a3, a4, a5⟩
    · rintro (h | ⟨x', y', a1, a2, a3, a4, a5⟩)
      · exact Or.inl (Or.inl h)
      · by_cases hrowy : y' ≤ 32 * (y / 32) + 31
        · exact Or.inl (Or.inr ⟨x', y', a1, a2, a3, hrowy, a5⟩)
        · exact Or.inr ⟨x', y', a1, a2, Int.add_one_le_of_lt (lt_of_not_le hrowy), a4, a5⟩
theorem renderNumCells_bounds (cells : Texture) (pmaxX pmaxY : Int) (hx : 0 ≤ pmaxX)
    (hy : 0 ≤ pmaxY) (hX : pmaxX ≤ (renderNumCells cells).1 - 1)
    (hY : pmaxY ≤ (renderNumCells cells).2 - 1) :
    pmaxX < 2 ^ 31 - 1 ∧ pmaxY < 2 ^ 31 - 1 ∧ pmaxX < cells.width ∧ pmaxY / 32 < cells.height := by
  unfold renderNumCells toInt32 at hX hY
  simp only [] at hX hY
  omega

theorem texelFetch_testBit (s : State F) (x y : Nat) :
    (texelFetch (s.textures s.cellsRead) (x : Int) ((y : Int) / 32)).testBit ((y : Int) % 32).toNat
      = cellAlive s x y := by
  unfold texelFetch cellAlive
  rw [if_pos ⟨by omega, by omega⟩]
  have e1 : ((x : Int)).toNat = x := by omega
  have e2 : ((y : Int) / 32).toNat = y / 32 := by omega
  have e3 : ((y : Int) % 32).toNat = y % 32 := by omega
  rw [e1, e2, e3]

/-- C13: for a rectangle `0 <= pmin <= pmax <= numCells - 1` of cells of the
current buffer, (1) every pass of the outer loop of the render shader that
starts at a row `y` of the rectangle has `yadvance >= 1` and shift counts in
`0 .. 31`, and its shift pair maps bit `y % 32 + i` of the fetched word, the
cell of row `y + i`, to bit `i` exactly when row `y + i` is in the same word
and at most `pmax.y`, and gives 0 at every other bit; (2) every fetch is
inside the texture; (3) with fuel for `pmax.x - pmin.x + 2` tests of the inner
loop and for one pass per word row plus the last test of the outer loop, the
scan returns an accumulator that is nonzero exactly when a cell of the
rectangle is alive; (4) outside the sub-cell regime the colour is then
`aliveColor` if a cell of the rectangle is alive and `deadColor` if none is. -/
theorem renderScan_super_cell (s : State F) (pminX pminY pmaxX pmaxY : Int)
    (h0x : 0 ≤ pminX) (h0y : 0 ≤ pminY) (hx : pminX ≤ pmaxX) (hy : pminY ≤ pmaxY)
    (hX : pmaxX ≤ (renderNumCells (s.textures s.cellsRead)).1 - 1)
    (hY : pmaxY ≤ (renderNumCells (s.textures s.cellsRead)).2 - 1) :
    (∀ y : Int, pminY ≤ y → y ≤ pmaxY →
      1 ≤ (renderPass pmaxY y).2.2.2.2 ∧
      0 ≤ (renderPass pmaxY y).2.2.1 ∧ (renderPass pmaxY y).2.2.1 ≤ 31 ∧
      0 ≤ (renderPass pmaxY y).2.2.2.1 ∧ (renderPass pmaxY y).2.2.2.1 ≤ 31 ∧
      ∀ w i : Nat,
        (shiftPair w (renderPass pmaxY y).2.2.1 (renderPass pmaxY y).2.2.2.1).testBit i
          = (decide ((y % 32).toNat + i < 32 ∧ y + (i : Int) ≤ pmaxY)
              && w.testBit ((y % 32).toNat + i))) ∧
    (∀ x y : Int, pminX ≤ x → x ≤ pmaxX → pminY ≤ y → y ≤ pmaxY →
      x < (s.textures s.cellsRead).width ∧ y / 32 < (s.textures s.cellsRead).height) ∧
    (∀ rowFuel fuel : Nat, (pmaxX + 1 - pminX).toNat < rowFuel →
      (pmaxY / 32 - pminY / 32).toNat + 2 ≤ fuel →
      ∃ accumulator,
        renderScan (s.textures s.cellsRead) pminX pmaxX pmaxY rowFuel fuel pminY 0
          = some accumulator ∧
        (accumulator ≠ 0 ↔ ∃ x y : Nat, pminX ≤ x ∧ (x : Int) ≤ pmaxX ∧ pminY ≤ y ∧
          (y : Int) ≤ pmaxY ∧ cellAlive s x y = true) ∧
        ∀ (aliveColor deadColor : F) (blend : F → F),
          ((∃ x y : Nat, pminX ≤ x ∧ (x : Int) ≤ pmaxX ∧ pminY ≤ y ∧ (y : Int) ≤ pmaxY ∧
              cellAlive s x y = true) →
            renderColor (s.textures s.cellsRead) pminX pminY pmaxX pmaxY aliveColor deadColor
              false blend rowFuel fuel = some aliveColor) ∧
          ((¬ ∃ x y : Nat, pminX ≤ x ∧ (x : Int) ≤ pmaxX ∧ pminY ≤ y ∧ (y : Int) ≤ pmaxY ∧
              cellAlive s x y = true) →
            renderColor (s.textures s.cellsRead) pminX pminY pmaxX pmaxY aliveColor deadColor
              false blend rowFuel fuel = some deadColor)) := by
  obtain ⟨bx, bY, bw, bh⟩ := renderNumCells_bounds (s.textures s.cellsRead) pmaxX pmaxY
    (by omega) (by omega) hX hY
  refine ⟨?_, ?_, ?_⟩
  · intro y hy0 hy1
    have h0 : 0 ≤ y := by omega
    rw [renderPass_eq pmaxY y h0 hy1 bY]
    simp only []
    refine ⟨by omega, by omega, by omega, by omega, by omega, ?_⟩
    intro w i
    obtain ⟨ymin, hymin⟩ : ∃ ymin : Nat, y % 32 = (ymin : Int) := ⟨(y % 32).toNat, by omega⟩
    obtain ⟨ymax, hymax⟩ : ∃ ymax : Nat, min 31 (pmaxY - 32 * (y / 32)) = (ymax : Int) :=
      ⟨(min 31 (pmaxY - 32 * (y / 32))).toNat, by omega⟩
    have hmax : ymax ≤ 31 := by omega
    have hiff : (ymin + i ≤ ymax) ↔ (ymin + i < 32 ∧ y + (i : Int) ≤ pmaxY) := by omega
    rw [hymin, hymax, testBit_shiftPair w ymin ymax hmax i]
    have e : ((ymin : Int)).toNat = ymin := by omega
    rw [e, decide_eq_decide.mpr hiff]
  · intro x y h1 h2 h3 h4
    have q1 : y / 32 ≤ pmaxY / 32 := Int.ediv_le_ediv (by decide) h4
    exact ⟨by omega, by omega⟩
  · intro rowFuel fuel hrow hfuel
    obtain ⟨acc, h1, h2⟩ := renderScan_spec (s.textures s.cellsRead) pminX pmaxX pmaxY rowFuel
      h0x hx bx bY hrow _ pminY 0 fuel h0y hy rfl hfuel
    have h3 : acc ≠ 0 ↔ ∃ x y : Nat, pminX ≤ x ∧ (x : Int) ≤ pmaxX ∧ pminY ≤ y ∧
        (y : Int) ≤ pmaxY ∧ cellAlive s x y = true := by
      rw [h2]
      constructor
      · rintro (h | ⟨x', y', a1, a2, a3, a4, a5⟩)
        · exact absurd rfl h
        · obtain ⟨x, rfl⟩ : ∃ x : Nat, x' = (x : Int) := ⟨x'.toNat, by omega⟩
          obtain ⟨y, rfl⟩ : ∃ y : Nat, y' = (y : Int) := ⟨y'.toNat, by omega⟩
          rw [texelFetch_testBit] at a5
          exact ⟨x, y, a1, a2, a3, a4, a5⟩
      · rintro ⟨x, y, a1, a2, a3, a4, a5⟩
        refine Or.inr ⟨x, y, a1, a2, a3, a4, ?_⟩
        rw [texelFetch_testBit]
        exact a5
    refine ⟨acc, h1, h3, ?_⟩
    intro aliveColor deadColor blend
    unfold renderColor
    rw [h1]
    simp only []
    constructor
    · intro hex
      rw [if_pos (h3.mpr hex)]
      rfl
    · intro hex
      rw [if_neg (fun h => hex (h3.mp h))]
      rfl
/-- Instance of C13: the rectangle `(0, 0) .. (3, 2)` of `blinkerState`, which
holds the three live cells of the blinker. -/
theorem renderScan_super_cell_witness :
    (0 : Int) ≤ 0 ∧ (0 : Int) ≤ 0 ∧ (0 : Int) ≤ 3 ∧ (0 : Int) ≤ 2 ∧
    (3 : Int) ≤ (renderNumCells (blinkerState.textures blinkerState.cellsRead)).1 - 1 ∧
    (2 : Int) ≤ (renderNumCells (blinkerState.textures blinkerState.cellsRead)).2 - 1 ∧
    ∃ accumulator,
      renderScan (blinkerState.textures blinkerState.cellsRead) 0 3 2 5 2 0 0
        = some accumulator ∧
      (accumulator ≠ 0 ↔ ∃ x y : Nat, (0 : Int) ≤ x ∧ (x : Int) ≤ 3 ∧ (0 : Int) ≤ y ∧
        (y : Int) ≤ 2 ∧ cellAlive blinkerState x y = true) :=
  ⟨by decide, by decide, by decide, by decide, by decide, by decide,
    Exists.imp (fun _ h => ⟨h.1, h.2.1⟩)
      ((renderScan_super_cell blinkerState 0 0 3 2 (by decide) (by decide) (by decide)
        (by decide) (by decide) (by decide)).2.2 5 2 (by decide) (by decide))⟩

theorem lineTrace_single (xend yend : Int) : LineTrace xend yend xend yend [(xend, yend)] := by
  refine ⟨rfl, rfl, List.chain'_singleton _, ?_⟩
  intro c hc
  rw [List.mem_singleton] at hc
  subst hc
  simp only [min_self, max_self, le_refl, and_self]

theorem lineTrace_cons (x y x1 y1 xend yend : Int) (cells : List (Int × Int))
    (hx : -1 ≤ x1 - x ∧ x1 - x ≤ 1) (hy : -1 ≤ y1 - y ∧ y1 - y ≤ 1)
    (bx : min x xend ≤ x1 ∧ x1 ≤ max x xend) (bY : min y yend ≤ y1 ∧ y1 ≤ max y yend)
    (h : LineTrace x1 y1 xend yend cells) : LineTrace x y xend yend ((x, y) :: cells) := by
  obtain ⟨h1, h2, h3, h4⟩ := h
  refine ⟨rfl, ?_, ?_, ?_⟩
  · cases cells with
    | nil => simp at h1
    | cons c rest => rw [List.getLast?_cons_cons]; exact h2
  · rw [List.chain'_cons']
    refine ⟨?_, h3⟩
    intro b hb
    rw [h1] at hb
    cases hb
    exact ⟨hx.1, hx.2, hy.1, hy.2⟩
  · intro c hc
    rw [List.mem_cons] at hc
    rcases hc with rfl | hc
    · simp only [min_le_iff, le_max_iff, le_refl, true_or, and_self]
    · have := h4 c hc
      omega

theorem lineStep_both (ax ay signX signY x y e : Int) (h0x : 0 ≤ ax) (h0y : 0 ≤ ay)
    (hbx : 3 * ax < 2 ^ 31) (hby : 3 * ay < 2 ^ 31)
    (hx : -2 ^ 31 ≤ x + signX ∧ x + signX < 2 ^ 31)
    (hy : -2 ^ 31 ≤ y + signY ∧ y + signY < 2 ^ 31) (h1 : -ay ≤ 2 * e) (h2 : 2 * e ≤ ax) :
    lineStep ax (-ay) signX signY x y e = (x + signX, y + signY, e - ay + ax) := by
  unfold lineStep
  simp only []
  rw [toInt32_of_range (2 * e) (by omega) (by omega), if_pos (show 2 * e ≥ -ay from h1),
    if_pos (show 2 * e ≥ -ay from h1), if_pos h2, if_pos h2,
    toInt32_of_range (e + -ay) (by omega) (by omega),
    toInt32_of_range (e + -ay + ax) (by omega) (by omega),
    toInt32_of_range (x + signX) hx.1 hx.2, toInt32_of_range (y + signY) hy.1 hy.2]
  rfl

theorem lineStep_x (ax ay signX signY x y e : Int) (h0x : 0 ≤ ax) (h0y : 0 ≤ ay)
    (hbx : 3 * ax < 2 ^ 31) (hby : 3 * ay < 2 ^ 31)
    (hhi : 2 * e ≤ 3 * ax) (hx : -2 ^ 31 ≤ x + signX ∧ x + signX < 2 ^ 31)
    (h1 : -ay ≤ 2 * e) (h2 : ¬ 2 * e ≤ ax) :
    lineStep ax (-ay) signX signY x y e = (x + signX, y, e - ay) := by
  unfold lineStep
  simp only []
  rw [toInt32_of_range (2 * e) (by omega) (by omega), if_pos (show 2 * e ≥ -ay from h1),
    if_pos (show 2 * e ≥ -ay from h1), if_neg h2, if_neg h2,
    toInt32_of_range (e + -ay) (by omega) (by omega),
    toInt32_of_range (x + signX) hx.1 hx.2]
  rfl

theorem lineStep_y (ax ay signX signY x y e : Int) (h0x : 0 ≤ ax) (h0y : 0 ≤ ay)
    (hbx : 3 * ax < 2 ^ 31) (hby : 3 * ay < 2 ^ 31) (hlo : -(3 * ay) ≤ 2 * e)
    (hy : -2 ^ 31 ≤ y + signY ∧ y + signY < 2 ^ 31)
    (h1 : ¬ -ay ≤ 2 * e) (h2 : 2 * e ≤ ax) :
    lineStep ax (-ay) signX signY x y e = (x, y + signY, e + ax) := by
  unfold lineStep
  simp only []
  rw [toInt32_of_range (2 * e) (by omega) (by omega), if_neg (show ¬ 2 * e ≥ -ay from h1),
    if_neg (show ¬ 2 * e ≥ -ay from h1), if_pos h2, if_pos h2,
    toInt32_of_range (e + ax) (by omega) (by omega),
    toInt32_of_range (y + signY) hy.1 hy.2]

theorem lineLoop_done (value : Nat) (xend yend dX dY signX signY : Int) (fuel : Nat)
    (s : State F) (e : Int) :
    lineLoop value xend yend dX dY signX signY (fuel + 1) s xend yend e
      = ([(xend, yend)], some (onMouseMoveEdit s xend yend value)) := by
  rw [lineLoop]
  exact if_pos ⟨rfl, rfl⟩

theorem lineLoop_next (value : Nat) (xend yend dX dY signX signY : Int) (fuel : Nat)
    (s : State F) (x y e : Int) (h : ¬ (x = xend ∧ y = yend)) :
    lineLoop value xend yend dX dY signX signY (fuel + 1) s x y e
      = ((x, y) :: (lineLoop value xend yend dX dY signX signY fuel
            (onMouseMoveEdit s x y value) (lineStep dX dY signX signY x y e).1
            (lineStep dX dY signX signY x y e).2.1 (lineStep dX dY signX signY x y e).2.2).1,
          (lineLoop value xend yend dX dY signX signY fuel
            (onMouseMoveEdit s x y value) (lineStep dX dY signX signY x y e).1
            (lineStep dX dY signX signY x y e).2.1 (lineStep dX dY signX signY x y e).2.2).2) := by
  rw [lineLoop]
  exact if_neg h
theorem le_mul_of_pos_count (r a : Int) (hr : 1 ≤ r) (ha : 0 ≤ a) : a ≤ r * a :=
  le_mul_of_one_le_left ha hr

/-- A coordinate at distance `r >= 1` from its end, moved by its sign: it is
not at the end, stays an `int`, is at distance `r - 1`, between the old value
and the end, and moved by 1. -/
theorem toward_end (xend x sign r : Int) (hr : 1 ≤ r)
    (hx : sign = 1 ∧ x = xend - r ∨ sign = -1 ∧ x = xend + r)
    (hxr : -2 ^ 31 ≤ x ∧ x < 2 ^ 31) (hxe : -2 ^ 31 ≤ xend ∧ xend < 2 ^ 31) :
    x ≠ xend ∧ (-2 ^ 31 ≤ x + sign ∧ x + sign < 2 ^ 31) ∧
    (sign = 1 ∧ x + sign = xend - (r - 1) ∨ sign = -1 ∧ x + sign = xend + (r - 1)) ∧
    (min x xend ≤ x + sign ∧ x + sign ≤ max x xend) ∧
    (-1 ≤ x + sign - x ∧ x + sign - x ≤ 1) := by
  rcases hx with ⟨h1, h2⟩ | ⟨h1, h2⟩
  · subst h1 h2
    refine ⟨by omega, by omega, Or.inl ⟨rfl, by omega⟩, by omega, by omega⟩
  · subst h1 h2
    refine ⟨by omega, by omega, Or.inr ⟨rfl, by omega⟩, by omega, by omega⟩

theorem at_end (xend x sign r : Int) (hr : r = 0)
    (hx : sign = 1 ∧ x = xend - r ∨ sign = -1 ∧ x = xend + r) : x = xend := by
  omega

theorem stay_in_box (y yend : Int) :
    (min y yend ≤ y ∧ y ≤ max y yend) ∧ (-1 ≤ y - y ∧ y - y ≤ 1) := by
  omega

theorem cast_succ_sub_one (n : Nat) : ((n + 1 : Nat) : Int) - 1 = n := by
  push_cast
  ring

/-- The line loop when `|xend - x| >= |yend - y|`: `x` moves in every pass. -/
theorem lineLoop_xmajor (value : Nat) (xend yend ax ay signX signY : Int)
    (h0y : 0 ≤ ay) (hmaj : ay ≤ ax) (hbx : 3 * ax < 2 ^ 31)
    (hxe : -2 ^ 31 ≤ xend ∧ xend < 2 ^ 31) (hye : -2 ^ 31 ≤ yend ∧ yend < 2 ^ 31) :
    ∀ (n : Nat) (s : State F) (x y e ry P Q : Int) (fuel : Nat),
      (n : Int) ≤ ax → (signX = 1 ∧ x = xend - n ∨ signX = -1 ∧ x = xend + n) →
      0 ≤ ry → ry ≤ ay → (signY = 1 ∧ y = yend - ry ∨ signY = -1 ∧ y = yend + ry) →
      (-2 ^ 31 ≤ x ∧ x < 2 ^ 31) → (-2 ^ 31 ≤ y ∧ y < 2 ^ 31) →
      P = (n : Int) * ay → Q = ry * ax → e = ax - ay + P - Q →
      -ay ≤ 2 * e → 2 * e ≤ 3 * ax → n + 1 ≤ fuel →
      ∃ cells s', lineLoop value xend yend ax (-ay) signX signY fuel s x y e = (cells, some s') ∧
        cells.length = n + 1 ∧ LineTrace x y xend yend cells ∧
        s' = cells.foldl (fun (t : State F) (c : Int × Int) => onMouseMoveEdit t c.1 c.2 value) s := by
  intro n
  induction n with
  | zero =>
    intro s x y e ry P Q fuel hn hx hry0 hry1 hy hxr hyr hP hQ he hlo hhi hf
    obtain ⟨f, rfl⟩ : ∃ f, fuel = f + 1 := ⟨fuel - 1, by omega⟩
    have hP0 : P = 0 := by rw [hP]; simp
    have hQ1 : 1 ≤ ry → ax ≤ Q := fun h => by
      rw [hQ]; exact le_mul_of_pos_count ry ax h (by omega)
    have hr : ry = 0 := by
      by_contra hne
      have := hQ1 (by omega)
      omega
    have ex : x = xend := at_end xend x signX _ Nat.cast_zero hx
    have ey : y = yend := at_end yend y signY ry hr hy
    subst ex ey
    exact ⟨_, _, lineLoop_done value x y ax (-ay) signX signY f s e, rfl,
      lineTrace_single x y, rfl⟩
  | succ n ih =>
    intro s x y e ry P Q fuel hn hx hry0 hry1 hy hxr hyr hP hQ he hlo hhi hf
    obtain ⟨f, rfl⟩ : ∃ f, fuel = f + 1 := ⟨fuel - 1, by omega⟩
    have hP' : P - ay = (n : Int) * ay := by rw [hP]; push_cast; ring
    have hPge : ay ≤ P := by
      rw [hP]; exact le_mul_of_pos_count _ ay (by push_cast; omega) h0y
    have hQ0 : ry = 0 → Q = 0 := fun h => by rw [hQ, h]; simp
    have hQ' : Q - ax = (ry - 1) * ax := by rw [hQ]; ring
    have hn' : (n : Int) ≤ ax := by push_cast at hn; omega
    obtain ⟨hne, hxs, hxn, hxb, hxd⟩ := toward_end xend x signX _
      (by push_cast; omega) hx hxr hxe
    rw [cast_succ_sub_one] at hxn
    have hnt : ¬ (x = xend ∧ y = yend) := fun h => hne h.1
    clear hx hne
    rw [lineLoop_next value xend yend ax (-ay) signX signY f s x y e hnt]
    by_cases h2 : 2 * e ≤ ax
    · have hry : 1 ≤ ry := by
        by_contra hne
        have := hQ0 (by omega)
        push_cast at hn
        omega
      obtain ⟨_, hys, hyn, hyb, hyd⟩ := toward_end yend y signY ry hry hy hyr hye
      clear hy
      have he' : e - ay + ax = ax - ay + (P - ay) - (Q - ax) := by omega
      have hlo' : -ay ≤ 2 * (e - ay + ax) := by omega
      have hhi' : 2 * (e - ay + ax) ≤ 3 * ax := by omega
      have hry0' : 0 ≤ ry - 1 := by omega
      have hry1' : ry - 1 ≤ ay := by omega
      have hf' : n + 1 ≤ f := by omega
      rw [lineStep_both ax ay signX signY x y e (by omega) h0y hbx (by omega) hxs hys hlo h2]
      obtain ⟨cells, s', h1, h3, h4, h5⟩ := ih (onMouseMoveEdit s x y value) (x + signX)
        (y + signY) (e - ay + ax) (ry - 1) (P - ay) (Q - ax) f hn' hxn hry0' hry1' hyn hxs hys
        hP' hQ' he' hlo' hhi' hf'
      refine ⟨(x, y) :: cells, s', ?_, ?_, ?_, ?_⟩
      · simp only [h1]
      · rw [List.length_cons, h3]
      · exact lineTrace_cons x y _ _ xend yend cells hxd hyd hxb hyb h4
      · rw [h5]; rfl
    · obtain ⟨hyb, hyd⟩ := stay_in_box y yend
      have he' : e - ay = ax - ay + (P - ay) - Q := by omega
      have hlo' : -ay ≤ 2 * (e - ay) := by omega
      have hhi' : 2 * (e - ay) ≤ 3 * ax := by omega
      have hf' : n + 1 ≤ f := by omega
      rw [lineStep_x ax ay signX signY x y e (by omega) h0y hbx (by omega) hhi hxs hlo h2]
      obtain ⟨cells, s', h1, h3, h4, h5⟩ := ih (onMouseMoveEdit s x y value) (x + signX)
        y (e - ay) ry (P - ay) Q f hn' hxn hry0 hry1 hy hxs hyr hP' hQ he' hlo' hhi' hf'
      refine ⟨(x, y) :: cells, s', ?_, ?_, ?_, ?_⟩
      · simp only [h1]
      · rw [List.length_cons, h3]
      · exact lineTrace_cons x y _ _ xend yend cells hxd hyd hxb hyb h4
      · rw [h5]; rfl
/-- The line loop when `|yend - y| >= |xend - x|`: `y` moves in every pass. -/
theorem lineLoop_ymajor (value : Nat) (xend yend ax ay signX signY : Int)
    (h0x : 0 ≤ ax) (hmaj : ax ≤ ay) (hby : 3 * ay < 2 ^ 31)
    (hxe : -2 ^ 31 ≤ xend ∧ xend < 2 ^ 31) (hye : -2 ^ 31 ≤ yend ∧ yend < 2 ^ 31) :
    ∀ (n : Nat) (s : State F) (x y e rx P Q : Int) (fuel : Nat),
      (n : Int) ≤ ay → (signY = 1 ∧ y = yend - n ∨ signY = -1 ∧ y = yend + n) →
      0 ≤ rx → rx ≤ ax → (signX = 1 ∧ x = xend - rx ∨ signX = -1 ∧ x = xend + rx) →
      (-2 ^ 31 ≤ x ∧ x < 2 ^ 31) → (-2 ^ 31 ≤ y ∧ y < 2 ^ 31) →
      P = rx * ay → Q = (n : Int) * ax → e = ax - ay + P - Q →
      -(3 * ay) ≤ 2 * e → 2 * e ≤ ax → n + 1 ≤ fuel →
      ∃ cells s', lineLoop value xend yend ax (-ay) signX signY fuel s x y e = (cells, some s') ∧
        cells.length = n + 1 ∧ LineTrace x y xend yend cells ∧
        s' = cells.foldl (fun (t : State F) (c : Int × Int) => onMouseMoveEdit t c.1 c.2 value) s := by
  intro n
  induction n with
  | zero =>
    intro s x y e rx P Q fuel hn hy hrx0 hrx1 hx hxr hyr hP hQ he hlo hhi hf
    obtain ⟨f, rfl⟩ : ∃ f, fuel = f + 1 := ⟨fuel - 1, by omega⟩
    have hQ0 : Q = 0 := by rw [hQ]; simp
    have hP1 : 1 ≤ rx → ay ≤ P := fun h => by
      rw [hP]; exact le_mul_of_pos_count rx ay h (by omega)
    have hr : rx = 0 := by
      by_contra hne
      have := hP1 (by omega)
      omega
    have ex : x = xend := at_end xend x signX rx hr hx
    have ey : y = yend := at_end yend y signY _ Nat.cast_zero hy
    subst ex ey
    exact ⟨_, _, lineLoop_done value x y ax (-ay) signX signY f s e, rfl,
      lineTrace_single x y, rfl⟩
  | succ n ih =>
    intro s x y e rx P Q fuel hn hy hrx0 hrx1 hx hxr hyr hP hQ he hlo hhi hf
    obtain ⟨f, rfl⟩ : ∃ f, fuel = f + 1 := ⟨fuel - 1, by omega⟩
    have hay : 0 ≤ ay := by omega
    have hQ' : Q - ax = (n : Int) * ax := by rw [hQ]; push_cast; ring
    have hQge : ax ≤ Q := by
      rw [hQ]; exact le_mul_of_pos_count _ ax (by push_cast; omega) h0x
    have hP0 : rx = 0 → P = 0 := fun h => by rw [hP, h]; simp
    have hP' : P - ay = (rx - 1) * ay := by rw [hP]; ring
    have hn' : (n : Int) ≤ ay := by push_cast at hn; omega
    obtain ⟨hne, hys, hyn, hyb, hyd⟩ := toward_end yend y signY _
      (by push_cast; omega) hy hyr hye
    rw [cast_succ_sub_one] at hyn
    have hnt : ¬ (x = xend ∧ y = yend) := fun h => hne h.2
    clear hy hne
    rw [lineLoop_next value xend yend ax (-ay) signX signY f s x y e hnt]
    by_cases h1 : -ay ≤ 2 * e
    · have hrx : 1 ≤ rx := by
        by_contra hne
        have := hP0 (by omega)
        push_cast at hn
        omega
      obtain ⟨_, hxs, hxn, hxb, hxd⟩ := toward_end xend x signX rx hrx hx hxr hxe
      clear hx
      have he' : e - ay + ax = ax - ay + (P - ay) - (Q - ax) := by omega
      have hlo' : -(3 * ay) ≤ 2 * (e - ay + ax) := by omega
      have hhi' : 2 * (e - ay + ax) ≤ ax := by omega
      have hrx0' : 0 ≤ rx - 1 := by omega
      have hrx1' : rx - 1 ≤ ax := by omega
      have hf' : n + 1 ≤ f := by omega
      rw [lineStep_both ax ay signX signY x y e h0x hay (by omega) hby hxs hys h1 hhi]
      obtain ⟨cells, s', k1, k3, k4, k5⟩ := ih (onMouseMoveEdit s x y value) (x + signX)
        (y + signY) (e - ay + ax) (rx - 1) (P - ay) (Q - ax) f hn' hyn hrx0' hrx1' hxn hxs hys
        hP' hQ' he' hlo' hhi' hf'
      refine ⟨(x, y) :: cells, s', ?_, ?_, ?_, ?_⟩
      · simp only [k1]
      · rw [List.length_cons, k3]
      · exact lineTrace_cons x y _ _ xend yend cells hxd hyd hxb hyb k4
      · rw [k5]; rfl
    · obtain ⟨hxb, hxd⟩ := stay_in_box x xend
      have he' : e + ax = ax - ay + P - (Q - ax) := by omega
      have hlo' : -(3 * ay) ≤ 2 * (e + ax) := by omega
      have hhi' : 2 * (e + ax) ≤ ax := by omega
      have hf' : n + 1 ≤ f := by omega
      rw [lineStep_y ax ay signX signY x y e h0x hay (by omega) hby hlo hys h1 hhi]
      obtain ⟨cells, s', k1, k3, k4, k5⟩ := ih (onMouseMoveEdit s x y value) x
        (y + signY) (e + ax) rx P (Q - ax) f hn' hyn hrx0 hrx1 hx hxr hys hP hQ' he' hlo' hhi' hf'
      refine ⟨(x, y) :: cells, s', ?_, ?_, ?_, ?_⟩
      · simp only [k1]
      · rw [List.length_cons, k3]
      · exact lineTrace_cons x y _ _ xend yend cells hxd hyd hxb hyb k4
      · rw [k5]; rfl
theorem abs32_toInt32_sub (x xend : Int) (hd : 3 * (xend - x).natAbs < 2 ^ 31) :
    abs32 (toInt32 (xend - x)) = ((xend - x).natAbs : Int) := by
  rw [toInt32_of_range (xend - x) (by omega) (by omega)]
  unfold abs32
  by_cases h : xend - x < 0
  · rw [if_pos h, toInt32_of_range _ (by omega) (by omega)]
    omega
  · rw [if_neg h]
    omega

theorem sign_of_start (x xend : Int) :
    (if x < xend then (1 : Int) else -1) = 1 ∧ x = xend - ((xend - x).natAbs : Int) ∨
    (if x < xend then (1 : Int) else -1) = -1 ∧ x = xend + ((xend - x).natAbs : Int) := by
  by_cases h : x < xend
  · rw [if_pos h]
    exact Or.inl ⟨rfl, by omega⟩
  · rw [if_neg h]
    exact Or.inr ⟨rfl, by omega⟩

/-- C16 with the range made explicit: for `int` cells `(x, y)`, `(xend, yend)`
with `3 * |xend - x| < 2^31` and `3 * |yend - y| < 2^31` (then no value of the
loop overflows, `2 * error` included), the line loop of `onMouseMove` reaches
its `break` after exactly `max(|xend - x|, |yend - y|) + 1` passes, whatever
fuel at least that large it is given; the cells of the passes start with
`(x, y)`, end with `(xend, yend)`, change by at most 1 in each coordinate from
one pass to the next, and lie in the bounding box of start and end; the state
at the `break` is the result of the edits of those cells in order. -/
theorem onMouseMoveLine_terminates (s : State F) (value : Nat) (x y xend yend : Int)
    (hx : -2 ^ 31 ≤ x ∧ x < 2 ^ 31) (hy : -2 ^ 31 ≤ y ∧ y < 2 ^ 31)
    (hxe : -2 ^ 31 ≤ xend ∧ xend < 2 ^ 31) (hye : -2 ^ 31 ≤ yend ∧ yend < 2 ^ 31)
    (hdx : 3 * (xend - x).natAbs < 2 ^ 31) (hdy : 3 * (yend - y).natAbs < 2 ^ 31)
    (fuel : Nat) (hfuel : max (xend - x).natAbs (yend - y).natAbs + 1 ≤ fuel) :
    ∃ cells s', onMouseMoveLine s value x y xend yend fuel = (cells, some s') ∧
      cells.length = max (xend - x).natAbs (yend - y).natAbs + 1 ∧
      LineTrace x y xend yend cells ∧
      s' = cells.foldl (fun (t : State F) (c : Int × Int) => onMouseMoveEdit t c.1 c.2 value) s := by
  unfold onMouseMoveLine
  simp only []
  rw [abs32_toInt32_sub x xend hdx, abs32_toInt32_sub y yend hdy]
  have hsx := sign_of_start x xend
  have hsy := sign_of_start y yend
  generalize (if x < xend then (1 : Int) else -1) = signX at hsx
  generalize (if y < yend then (1 : Int) else -1) = signY at hsy
  generalize hnx : (xend - x).natAbs = nx at hsx hdx hfuel
  generalize hny : (yend - y).natAbs = ny at hsy hdy hfuel
  rw [toInt32_of_range (-(ny : Int)) (by omega) (by omega),
    toInt32_of_range ((nx : Int) + -(ny : Int)) (by omega) (by omega)]
  have hcomm : (nx : Int) + -(ny : Int) = nx - ny + (nx : Int) * ny - (ny : Int) * nx := by ring
  by_cases hmaj : ny ≤ nx
  · have hmax : max nx ny = nx := max_eq_left hmaj
    rw [hmax] at hfuel ⊢
    exact lineLoop_xmajor value xend yend nx ny signX signY (by omega) (by omega) (by omega)
      hxe hye nx s x y _ ny _ _ fuel le_rfl hsx (by omega) le_rfl hsy hx hy rfl rfl hcomm
      (by omega) (by omega) hfuel
  · have hmax : max nx ny = ny := max_eq_right (by omega)
    rw [hmax] at hfuel ⊢
    exact lineLoop_ymajor value xend yend nx ny signX signY (by omega) (by omega) (by omega)
      hxe hye ny s x y _ nx _ _ fuel le_rfl hsy (by omega) le_rfl hsx hx hy rfl rfl hcomm
      (by omega) (by omega) hfuel

/-- Instance of C16: the line from `(1, 1)` to `(4, 3)` in `lastColumnState`. -/
theorem onMouseMoveLine_terminates_witness :
    ((-2 ^ 31 : Int) ≤ 1 ∧ (1 : Int) < 2 ^ 31) ∧ ((-2 ^ 31 : Int) ≤ 4 ∧ (4 : Int) < 2 ^ 31) ∧
    ((-2 ^ 31 : Int) ≤ 3 ∧ (3 : Int) < 2 ^ 31) ∧
    3 * ((4 : Int) - 1).natAbs < 2 ^ 31 ∧ 3 * ((3 : Int) - 1).natAbs < 2 ^ 31 ∧
    max ((4 : Int) - 1).natAbs ((3 : Int) - 1).natAbs + 1 ≤ 4 ∧
    ∃ cells s', onMouseMoveLine lastColumnState 255 1 1 4 3 4 = (cells, some s') ∧
      cells.length = max ((4 : Int) - 1).natAbs ((3 : Int) - 1).natAbs + 1 ∧
      LineTrace 1 1 4 3 cells ∧
      s' = cells.foldl
        (fun (t : State Rat) (c : Int × Int) => onMouseMoveEdit t c.1 c.2 255) lastColumnState :=
  ⟨by decide, by decide, by decide, by decide, by decide, by decide,
    onMouseMoveLine_terminates lastColumnState 255 1 1 4 3 (by decide) (by decide) (by decide)
      (by decide) (by decide) (by decide) 4 (by decide)⟩

/-- The claim as worded (differences that do not overflow) fails: for the
line from `(0, 0)` to `(2^31 - 1, 0)` the difference `xend - x = 2^31 - 1` is
an `int`, but `2 * error` wraps to `-2`, so the first three passes are at
`(0, 0)`, `(0, -1)`, `(0, -2)`: `x` does not move, `y` leaves the bounding box
on a horizontal line, and the loop has not ended. -/
theorem onMouseMoveLine_overflow :
    (-2 ^ 31 : Int) ≤ 2147483647 - 0 ∧ (2147483647 : Int) - 0 < 2 ^ 31 ∧
    (-2 ^ 31 : Int) ≤ 0 - 0 ∧ (0 : Int) - 0 < 2 ^ 31 ∧
    (onMouseMoveLine lastColumnState 255 0 0 2147483647 0 3).1 = [(0, 0), (0, -1), (0, -2)] ∧
    (onMouseMoveLine lastColumnState 255 0 0 2147483647 0 3).2.isNone = true ∧
    ¬ LineTrace 0 0 2147483647 0 (onMouseMoveLine lastColumnState 255 0 0 2147483647 0 3).1 := by
  have h : (onMouseMoveLine lastColumnState 255 0 0 2147483647 0 3).1
      = [(0, 0), (0, -1), (0, -2)] := by decide
  refine ⟨by decide, by decide, by decide, by decide, h, by decide, ?_⟩
  rw [h]
  intro ht
  have := ht.2.2.2 (0, -1) (by simp)
  omega

/-! ## C3, C6: where the range of `int` ends -/

theorem iterate_updateCells_overflow (s : State F) (h : s.generation = 0) :
    (updateCells^[2147483647 + 1] s).generation = -2147483648 ∧
    (updateCells^[2147483647] s).generation = 2147483647 := by
  have h1 := iterate_updateCells_generation s 2147483647 (by rw [h]; decide) (by rw [h]; decide)
  rw [h, Int.zero_add] at h1
  refine ⟨?_, h1⟩
  rw [Function.iterate_succ_apply', updateCells_generation, h1]
  decide

/-- C6 as worded (every `updateCells`, any sequence of steps) fails at the end
of the range of `int`: after a load that `setCells` accepts and `2^31 - 1`
steps `generation` is `2^31 - 1`, the next `updateCells` does not add 1 but
gives `-2^31` (the increment overflows; the embedding wraps, as the compiled
code does), so after `2^31` steps the counter is negative and is not the
number of steps made since the load. -/
theorem generation_overflows :
    1 ≤ ceilMultipleOf32 3 ∧ ceilMultipleOf32 3 ≤ lastColumnState.maxTextureSize ∧
    (setCells ratOps lastColumnState [0, 1, 0, 0, 1, 0, 0, 1, 0] 3 3).generation = 0 ∧
    (updateCells^[2147483647]
      (setCells ratOps lastColumnState [0, 1, 0, 0, 1, 0, 0, 1, 0] 3 3)).generation
      = 2147483647 ∧
    (updateCells (updateCells^[2147483647]
      (setCells ratOps lastColumnState [0, 1, 0, 0, 1, 0, 0, 1, 0] 3 3))).generation
      = -2147483648 ∧
    (updateCells^[2147483648]
      (setCells ratOps lastColumnState [0, 1, 0, 0, 1, 0, 0, 1, 0] 3 3)).generation
      = -2147483648 ∧
    ¬ (updateCells^[2147483648]
      (setCells ratOps lastColumnState [0, 1, 0, 0, 1, 0, 0, 1, 0] 3 3)).generation
      = ((2147483648 : Nat) : Int) ∧
    ¬ 0 ≤ (updateCells^[2147483648]
      (setCells ratOps lastColumnState [0, 1, 0, 0, 1, 0, 0, 1, 0] 3 3)).generation := by
  have h0 := setCells_generation ratOps lastColumnState [0, 1, 0, 0, 1, 0, 0, 1, 0] 3 3
    (by decide) (by decide) (by decide) (by decide)
  obtain ⟨h1, h2⟩ := iterate_updateCells_overflow _ h0
  have h3 : (updateCells^[2147483648]
      (setCells ratOps lastColumnState [0, 1, 0, 0, 1, 0, 0, 1, 0] 3 3)).generation
      = -2147483648 := h1
  refine ⟨by decide, by decide, h0, h2, ?_, h3, ?_, ?_⟩
  · rw [updateCells_generation, h2]
    decide
  · rw [h3]
    decide
  · rw [h3]
    decide

/-- The name stored for an ordinary path, and for the path `a.b/c` of C17,
where the request of `2^64 - 2` bytes fails and no name is stored. -/
theorem setPatternName_examples :
    (setPatternName lastColumnState "dir/glider.rle".toList).patternName = "glider".toList ∧
    (setPatternName lastColumnState "a.b/c".toList).patternName = [] := by
  decide

end GPULife
